import Mathlib

/-!
# Template-NodeJS-SecureAPI: the Result pipeline and the team domain

A shallow embedding of `src/utils/result.js`, `src/utils/errorFactory.js`,
`src/controllers/user/userController.js`, `src/controllers/auth/authController.js`,
`src/controllers/team/teamController.js` and `src/controllers/team/teamRequestController.js`.

* JavaScript values are the inductive `JsVal`; `null` and `undefined` are kept apart
  because `Result.merge` filters with the strict test `value !== null`.
* JavaScript numbers are embedded as `Int` (the integers only).
* A function that can throw returns `Except Fault _`; a function with side effects
  (log records, console output, store writes) passes the `World` explicitly.
-/

namespace SecureAPI

/-! ## JavaScript values -/

/-- The JavaScript values that flow through `Result.value` and the log records. -/
inductive JsVal where
  | undefined
  | null
  | bool (b : Bool)
  | num (n : Int)
  | str (s : String)
  | arr (items : List JsVal)
  | obj (fields : List (String × JsVal))

/-- JavaScript truthiness (`!!v`). -/
def JsVal.truthy : JsVal → Bool
  | .undefined => false
  | .null => false
  | .bool b => b
  | .num n => n != 0
  | .str s => s != ""
  | .arr _ => true
  | .obj _ => true

/-- The strict test `value !== null`. -/
def JsVal.strictNeNull : JsVal → Bool
  | .null => false
  | _ => true

/-- The number of UTF-16 code units of one character. -/
def utf16Units (c : Char) : Nat :=
  if c.val.toNat < 65536 then 1 else 2

/-- The `length` property of a JavaScript string: its number of UTF-16 code units. -/
def jsLength (s : String) : Nat :=
  (s.toList.map utf16Units).sum

/-- What a JavaScript function can throw. -/
inductive Fault where
  | typeError (msg : String)
  | loggerFailure (msg : String)
  | storeError (msg : String)
deriving DecidableEq, Repr

/-! ## Entities of the store -/

/-- Modelled from the spec: the User entity of the Entity Store (§3); the Prisma schema
is not part of the sources. Identifiers are store-assigned natural numbers. -/
structure User where
  id : Nat
  email : String
  name : String
  hashedPassword : String
  score : Int
deriving DecidableEq, Repr

/-- Modelled from the spec: the Team entity of the Entity Store (§3). -/
structure Team where
  id : Nat
  name : String
  maxMemberCount : Int
  ownerId : Nat
deriving DecidableEq, Repr

/-- Modelled from the spec: the TeamMembership join row (§3). -/
structure TeamMembership where
  id : Nat
  teamId : Nat
  userId : Nat
deriving DecidableEq, Repr

/-- Modelled from the spec: the TeamRequest entity (§3). -/
structure TeamRequest where
  id : Nat
  teamId : Nat
  userId : Nat
  message : String
deriving DecidableEq, Repr

/-- Modelled from the spec: the state of the Entity Store, one list of rows per entity
type and the next identifier the store will assign. -/
structure Store where
  users : List User
  teams : List Team
  memberships : List TeamMembership
  requests : List TeamRequest
  nextId : Nat
deriving DecidableEq, Repr

/-! ## Errors, log records and the world -/

/-- The external pair `{code, message}` of an error. -/
structure External where
  code : Int
  message : String
deriving DecidableEq, Repr

/-- An element of `Result.error`: either an `Error` object (with the properties
`message`, `code`, `external` and `stack`; `code` and `external` are absent on a bare
`new Error(msg)`), or a plain object `{code, message}` as `Result.fail` produces. -/
inductive ErrItem where
  | error (message : String) (code : Option Int) (external : Option External) (stack : String)
  | plain (code : Int) (message : String)
deriving DecidableEq, Repr

/-- The property `err.message`. -/
def ErrItem.message : ErrItem → String
  | .error m _ _ _ => m
  | .plain _ m => m

/-- The property `err.external` (`none` is `undefined`). -/
def ErrItem.external : ErrItem → Option External
  | .error _ _ e _ => e
  | .plain _ _ => none

/-- The property `err.code` (`none` is `undefined`). -/
def ErrItem.code : ErrItem → Option Int
  | .error _ c _ _ => c
  | .plain c _ => some c

/-- The optional `error` argument of `errorFactory`: an object with an optional `stack`
and its other enumerable own properties. -/
structure Cause where
  stack : Option String
  details : List (String × JsVal)

/-- The record handed to `global.logger.error`. -/
structure LogRecord where
  message : String
  code : String
  external : External
  function : String
  errorDetails : JsVal
  requestDetails : JsVal
  stack : String

/-- What `console.error` was called with. -/
inductive ConsoleArg where
  | cause (c : Cause)
  | error (e : ErrItem)

/-- The mutable world: the store, the records the logging sink accepted and the console. -/
structure World where
  store : Store
  log : List LogRecord
  console : List ConsoleArg

/-- The ambient globals `errorFactory` reads: `global.logger` (for each record, whether
`logger.error` throws, and what), `process.env.NODE_ENV`, and the stack text the runtime
attaches to `new Error(message)`. -/
structure Globals where
  logger : LogRecord → Option Fault
  nodeEnv : Option String
  captureStack : String → String

/-- The logger `app.js` and `tests/setup.js` install (a winston logger writing to files):
`logger.error` returns normally for every record. -/
def winstonLogger : LogRecord → Option Fault :=
  fun _ => none

/-- The globals of the running application. -/
def appGlobals (nodeEnv : Option String) (captureStack : String → String) : Globals :=
  ⟨winstonLogger, nodeEnv, captureStack⟩

/-! ## errorFactory.js -/

/-- The JavaScript `a || b` on strings. -/
def strOr (a b : String) : String :=
  if a != "" then a else b

/-- The function `errorFactory` of `src/utils/errorFactory.js`. An argument `none` is
an omitted (`undefined`) argument, for which the default applies. -/
def errorFactory (g : Globals) (externalMessage : String) (externalCode : Int)
    (internalMessage : Option String) (internalCode : Option Int)
    (error : Option Cause) (req : Option JsVal) (w : World) : Except Fault (ErrItem × World) :=
  let internalMessage := internalMessage.getD externalMessage
  let internalCode := internalCode.getD externalCode
  let newErrorStack := g.captureStack internalMessage
  let newError := ErrItem.error internalMessage (some internalCode)
    (some ⟨externalCode, externalMessage⟩) newErrorStack
  -- destructuring `null` throws inside the try block and leaves both variables as they were
  let stack := match error with
    | some c => c.stack.getD newErrorStack
    | none => newErrorStack
  let errorDetails := match error with
    | some c => c.details
    | none => []
  let record : LogRecord :=
    ⟨internalMessage, internalMessage, ⟨externalCode, externalMessage⟩, "errorFactory",
      JsVal.obj errorDetails,
      (match req with
        | some r => if r.truthy then r else JsVal.str "N/A"
        | none => JsVal.str "N/A"),
      strOr stack (strOr newErrorStack "N/A")⟩
  match g.logger record with
  | some fault => .error fault
  | none =>
    let console := if g.nodeEnv = some "development" then
        w.console ++ [match error with
          | some c => ConsoleArg.cause c
          | none => ConsoleArg.error newError]
      else w.console
    .ok (newError, ⟨w.store, w.log ++ [record], console⟩)

/-! ## result.js -/

/-- The class `Result`: `value` is any JavaScript value, `error` is `null` (`none`) or an
array of errors. -/
structure Result where
  value : JsVal
  error : Option (List ErrItem)

/-- The `error` argument of the constructor, typed `Array<Error>|Error|null`. -/
inductive ErrArg where
  | null
  | single (e : ErrItem)
  | many (es : List ErrItem)

/-- The constructor: `this.error = error ? [].concat(error) : null`. An array (also the
empty one) is truthy and `concat` copies it; a single error is wrapped. -/
def Result.constructor (value : JsVal) (error : ErrArg) : Result :=
  match error with
  | .null => ⟨value, none⟩
  | .single e => ⟨value, some ([] ++ [e])⟩
  | .many es => ⟨value, some ([] ++ es)⟩

/-- The method `isSuccess`: `!this.error || this.error.length === 0`. -/
def Result.isSuccess (r : Result) : Bool :=
  match r.error with
  | none => true
  | some es => es.length == 0

/-- The method `isError`: `!!this.error && this.error.length > 0`. -/
def Result.isError (r : Result) : Bool :=
  match r.error with
  | none => false
  | some es => decide (es.length > 0)

/-- The static method `failIf`. Omitted arguments are `none`; the defaults are
`externalMessage = "Bad request."`, `externalCode = 400`,
`internalMessage = externalMessage`, `internalCode = externalCode`. -/
def Result.failIf (g : Globals) (predicate : Bool) (externalMessage : Option String)
    (externalCode : Option Int) (internalMessage : Option String) (internalCode : Option Int)
    (error : Option Cause) (req : Option JsVal) (w : World) : Except Fault (Result × World) :=
  let externalMessage := externalMessage.getD "Bad request."
  let externalCode := externalCode.getD 400
  let internalMessage := internalMessage.getD externalMessage
  let internalCode := internalCode.getD externalCode
  if predicate then
    match errorFactory g externalMessage externalCode (some internalMessage) (some internalCode)
        error req w with
    | .error fault => .error fault
    | .ok (e, w1) => .ok (Result.constructor JsVal.null (ErrArg.many [e]), w1)
  else
    .ok (Result.constructor JsVal.null ErrArg.null, w)

/-- The static method `ok(value = null)`: the default applies when the argument is omitted
(`none`) and when it is `undefined`. -/
def Result.ok (value : Option JsVal) : Result :=
  Result.constructor
    (match value with
      | none => JsVal.null
      | some JsVal.undefined => JsVal.null
      | some v => v) ErrArg.null

/-- The static method `fail`: `result.error.map(...)` throws a TypeError when
`result.error` is `null`. -/
def Result.fail (result : Result) : Except Fault Result :=
  match result.error with
  | none => .error (Fault.typeError "Cannot read properties of null (reading map)")
  | some errs =>
    .ok (Result.constructor JsVal.null (ErrArg.many (errs.map fun err =>
      match err.external with
      | some ext => ErrItem.plain ext.code ext.message
      | none => ErrItem.plain 500 err.message)))

/-- The static method `merge`. -/
def Result.merge (results : List Result) : Result :=
  let values := ((results.filter fun result => result.isSuccess).map fun result => result.value).filter
    fun value => value.strictNeNull
  let errors := results.foldl
    (fun errors result => if result.isError then errors ++ result.error.getD [] else errors) []
  if errors.length != 0 then Result.constructor JsVal.null (ErrArg.many errors)
  else Result.constructor
    (if values.length ≤ 1 then values[0]?.getD JsVal.undefined else JsVal.arr values) ErrArg.null

/-! ## The Entity Store interface -/

/-- Modelled from the spec: `prisma.team.findUnique({where: {name}})` (§6, lookup by a unique
field). The spec does not say what a `null` key does; here it matches no row. -/
def Store.teamFindUnique (s : Store) (name : Option String) : Option Team :=
  match name with
  | none => none
  | some n => s.teams.find? fun t => t.name == n

/-- Modelled from the spec: `prisma.user.findUnique({where: {email}})` (§6). -/
def Store.userFindUniqueByEmail (s : Store) (email : Option String) : Option User :=
  match email with
  | none => none
  | some e => s.users.find? fun u => u.email == e

/-- Modelled from the spec: `prisma.user.count({where: {score: {gt: score}}})` (§6). -/
def Store.userCountScoreGt (s : Store) (score : Int) : Nat :=
  (s.users.filter fun u => decide (u.score > score)).length

/-- Modelled from the spec: `prisma.teamMembership.findMany({where: {teamId}, include:
{user: true}})` (§6): the memberships of the team, each with its user row. -/
def Store.membershipFindManyWithUser (s : Store) (teamId : Nat) :
    List (TeamMembership × User) :=
  (s.memberships.filter fun m => m.teamId == teamId).filterMap fun m =>
    (s.users.find? fun u => u.id == m.userId).map fun u => (m, u)

/-- Modelled from the spec: `prisma.team.create` with one nested membership (§4.3: the Team
row and, atomically with it, one TeamMembership). The store assigns the identifiers and
enforces the uniqueness of the team name (§3), throwing when it is violated. -/
def Store.teamCreate (s : Store) (name : String) (maxMemberCount : Int) (ownerId : Nat)
    (memberUserId : Nat) : Except Fault (Team × Store) :=
  if s.teams.any fun t => t.name == name then
    .error (Fault.storeError "Unique constraint failed on the fields: (name)")
  else
    .ok (⟨s.nextId, name, maxMemberCount, ownerId⟩,
      ⟨s.users, s.teams ++ [⟨s.nextId, name, maxMemberCount, ownerId⟩],
        s.memberships ++ [⟨s.nextId + 1, s.nextId, memberUserId⟩], s.requests, s.nextId + 2⟩)

/-- Modelled from the spec: the constraints the Entity Store maintains (§3): identifiers
are unique and below the next identifier, emails, user names and team names are unique,
emails are non-empty (registration checks their format), and every membership and request
refers to an existing team and an existing user. -/
def Store.WF (s : Store) : Prop :=
  (s.users.map fun u => u.id).Nodup
    ∧ (s.users.map fun u => u.email).Nodup
    ∧ (s.users.map fun u => u.name).Nodup
    ∧ (s.teams.map fun t => t.id).Nodup
    ∧ (s.teams.map fun t => t.name).Nodup
    ∧ (∀ u ∈ s.users, u.id < s.nextId ∧ u.email ≠ "")
    ∧ (∀ t ∈ s.teams, t.id < s.nextId ∧ ∃ u ∈ s.users, u.id = t.ownerId)
    ∧ (∀ m ∈ s.memberships, m.id < s.nextId
        ∧ (∃ t ∈ s.teams, t.id = m.teamId) ∧ ∃ u ∈ s.users, u.id = m.userId)
    ∧ (∀ r ∈ s.requests, r.id < s.nextId
        ∧ (∃ t ∈ s.teams, t.id = r.teamId) ∧ ∃ u ∈ s.users, u.id = r.userId)

instance (s : Store) : Decidable s.WF := by
  unfold Store.WF
  infer_instance

/-! ## userController.js -/

/-- A user object as a query returns it: the row, and the relation `teamMemberships`
(each membership with its team) when the query included it. -/
structure UserObj where
  row : User
  teamMemberships : Option (List (TeamMembership × Team))

/-- The function `mapToUserDTO`. `index = none` is `null`: `null + 1` is 1 and `!index`
holds for `null` and for 0. -/
def mapToUserDTO (s : Store) (user : UserObj) (includeTeams : Bool) (index : Option Nat) :
    Except Fault JsVal :=
  let rank : Int :=
    if index.getD 0 == 0 then (s.userCountScoreGt user.row.score : Int) + 1
    else (index.getD 0 : Int) + 1
  let result : List (String × JsVal) :=
    [("rank", JsVal.num rank), ("name", JsVal.str user.row.name),
      ("score", JsVal.num user.row.score)]
  if includeTeams then
    match user.teamMemberships with
    | none => .error (Fault.typeError "Cannot read properties of undefined (reading map)")
    | some ms =>
      .ok (JsVal.obj (result ++ [("team", JsVal.arr (ms.map fun m => JsVal.str m.2.name))]))
  else
    .ok (JsVal.obj result)

/-! ## teamController.js -/

/-- The function `mapToTeamDTO`. -/
def mapToTeamDTO (s : Store) (team : Team) (owner : User) (includeMembers : Bool) :
    Except Fault JsVal := do
  let members := s.membershipFindManyWithUser team.id
  let totalScore : Int := members.foldl (fun acc membership => acc + membership.2.score) 0
  let result : List (String × JsVal) :=
    [("name", JsVal.str team.name), ("ownerName", JsVal.str owner.name),
      ("totalScore", JsVal.num (if totalScore != 0 then totalScore else 0)),
      ("memberNumber", JsVal.num (members.length : Int)),
      ("availableMemberNumber", JsVal.num (team.maxMemberCount - (members.length : Int)))]
  if includeMembers then
    let dtos ← members.mapM fun member => mapToUserDTO s ⟨member.2, none⟩ false none
    pure (JsVal.obj (result ++ [("members", JsVal.arr dtos)]))
  else
    pure (JsVal.obj result)

/-- The test `!x` on a string or `null`. -/
def strFalsy (x : Option String) : Bool :=
  match x with
  | none => true
  | some s => s == ""

/-- The test `!x` on a number or `null`. -/
def numFalsy (x : Option Int) : Bool :=
  match x with
  | none => true
  | some n => n == 0

/-- The comparison `x <= bound` on a number or `null` (`null` converts to 0). -/
def numLe (x : Option Int) (bound : Int) : Bool :=
  decide (x.getD 0 ≤ bound)

/-- The property access `name.length`, which throws a TypeError on `null`. -/
def strLength (name : Option String) : Except Fault Nat :=
  match name with
  | none => .error (Fault.typeError "Cannot read properties of null (reading length)")
  | some n => .ok (jsLength n)

/-- The function `createTeam`. The arguments are a string or `null` (`none`), and a
number or `null`. -/
def createTeam (g : Globals) (ownerEmail : Option String) (name : Option String)
    (maxMemberCount : Option Int) (w : World) : Except Fault (Result × World) := do
  -- Validates data
  let nameExists := w.store.teamFindUnique name
  let (nameIsUnique, w) ← Result.failIf g nameExists.isSome (some "Team name already exists.")
    (some 409) none none none none w
  let (paramsIsValid, w) ← Result.failIf g
    (strFalsy ownerEmail || strFalsy name || numFalsy maxMemberCount)
    (some "Team name, owner, and max member count must be provided.") none none none none none w
  let nameLength ← strLength name
  let (nameIsValid, w) ← Result.failIf g (decide (nameLength < 4))
    (some "Name must be at least 4 characters long.") none none none none none w
  let (maxMemberCountIsValid, w) ← Result.failIf g (numLe maxMemberCount 10)
    (some "Max member count must be greater than 10.") none none none none none w
  let dataValidation :=
    Result.merge [nameIsUnique, paramsIsValid, nameIsValid, maxMemberCountIsValid]
  if dataValidation.isError then
    let failed ← Result.fail dataValidation
    return (failed, w)
  -- Retrieves owner
  let owner := w.store.userFindUniqueByEmail ownerEmail
  let (ownerExists, w) ← Result.failIf g owner.isNone (some "Failed to create team.") (some 500)
    (some "User does not exist.") (some 404) none none w
  if ownerExists.isError then
    let failed ← Result.fail ownerExists
    return (failed, w)
  match owner, name, maxMemberCount with
  | some owner, some name, some maxMemberCount =>
    -- Creates team
    let (team, store) ← w.store.teamCreate name maxMemberCount owner.id owner.id
    let w : World := ⟨store, w.log, w.console⟩
    let (teamExists, w) ← Result.failIf g false (some "Failed to create team.") (some 500)
      none none none none w
    if teamExists.isError then
      let failed ← Result.fail teamExists
      return (failed, w)
    let dto ← mapToTeamDTO w.store team owner true
    return (Result.ok (some dto), w)
  | _, _, _ =>
    -- not reached: validation has returned for a null name or max member count,
    -- and `ownerExists` has returned for a missing owner
    .error (Fault.storeError "Invalid prisma.team.create() invocation")

/-! ## The Entity Store interface, continued -/

/-- Modelled from the spec: `prisma.user.findUnique({where: {name}})` (§6). -/
def Store.userFindUniqueByName (s : Store) (name : Option String) : Option User :=
  match name with
  | none => none
  | some n => s.users.find? fun u => u.name == n

/-- Modelled from the spec: `prisma.team.findUnique({where: {name}, include: {owner: true,
...}})` (§6): the team and its owner row (`none` when no user has the owner id). -/
def Store.teamFindUniqueWithOwner (s : Store) (name : Option String) :
    Option (Team × Option User) :=
  (s.teamFindUnique name).map fun t => (t, s.users.find? fun u => u.id == t.ownerId)

/-- Modelled from the spec: `prisma.team.findMany({include: {owner: true, ...}})` (§6). -/
def Store.teamFindManyWithOwner (s : Store) : List (Team × Option User) :=
  s.teams.map fun t => (t, s.users.find? fun u => u.id == t.ownerId)

/-- Modelled from the spec: `prisma.team.update({where: {id}, data: {name,
maxMemberCount}})` (§4.3: only provided fields change). The store throws when no team has
the id and when the new name is the name of another team (§3). -/
def Store.teamUpdate (s : Store) (id : Nat) (name : Option String)
    (maxMemberCount : Option Int) : Except Fault (Team × Store) :=
  match s.teams.find? fun t => t.id == id with
  | none => .error (Fault.storeError "Record to update not found")
  | some t =>
    if s.teams.any fun t2 => t2.id != id && t2.name == name.getD t.name then
      .error (Fault.storeError "Unique constraint failed on the fields: (name)")
    else
      .ok (⟨t.id, name.getD t.name, maxMemberCount.getD t.maxMemberCount, t.ownerId⟩,
        ⟨s.users,
          s.teams.map fun t2 =>
            if t2.id == id then
              ⟨t.id, name.getD t.name, maxMemberCount.getD t.maxMemberCount, t.ownerId⟩
            else t2,
          s.memberships, s.requests, s.nextId⟩)

/-- Modelled from the spec: `prisma.teamMembership.findMany({where: {teamId}})` (§6). -/
def Store.membershipFindMany (s : Store) (teamId : Nat) : List TeamMembership :=
  s.memberships.filter fun m => m.teamId == teamId

/-- Modelled from the spec: `prisma.teamMembership.deleteMany({where: {id: {in: ids}}})`
(§6). -/
def Store.membershipDeleteMany (s : Store) (ids : List Nat) : Store :=
  ⟨s.users, s.teams, s.memberships.filter fun m => !ids.contains m.id, s.requests, s.nextId⟩

/-- Modelled from the spec: `prisma.team.delete({where: {id}})` (§6): removes the row;
the store throws when no team has the id. -/
def Store.teamDelete (s : Store) (id : Nat) : Except Fault Store :=
  if s.teams.any fun t => t.id == id then
    .ok ⟨s.users, s.teams.filter fun t => t.id != id, s.memberships, s.requests, s.nextId⟩
  else
    .error (Fault.storeError "Record to delete does not exist")

/-- Modelled from the spec: the row insert of `prisma.teamMembership.create({data: {teamId,
userId}})` (§6): the row is appended with the next identifier. §2 lists uniqueness
constraints of the store on email, user name and team name; §3 says of TeamMembership
"uniqueness implied (one row per user per team)". This is the insert without a check of the
pair; `Store.membershipCreateUnique` is the insert under the constraint of §3, and the two
agree for a pair that has no row. -/
def Store.membershipCreate (s : Store) (teamId userId : Nat) : Store :=
  ⟨s.users, s.teams, s.memberships ++ [⟨s.nextId, teamId, userId⟩], s.requests, s.nextId + 1⟩

/-- Modelled from the spec: `prisma.teamRequest.create({data: {teamId, userId, message}})`
(§6); §2 names no uniqueness constraint on requests, so the row is appended. -/
def Store.requestCreate (s : Store) (teamId userId : Nat) (message : String) :
    TeamRequest × Store :=
  (⟨s.nextId, teamId, userId, message⟩,
    ⟨s.users, s.teams, s.memberships, s.requests ++ [⟨s.nextId, teamId, userId, message⟩],
      s.nextId + 1⟩)

/-- Modelled from the spec: `prisma.teamRequest.findFirst({where: {teamId, userId}})`
(§6). -/
def Store.requestFindFirst (s : Store) (teamId userId : Nat) : Option TeamRequest :=
  s.requests.find? fun r => r.teamId == teamId && r.userId == userId

/-- Modelled from the spec: `prisma.teamRequest.deleteMany({where: {id}})` (§6): the
number of rows deleted and the store without them. -/
def Store.requestDeleteManyById (s : Store) (id : Nat) : Nat × Store :=
  ((s.requests.filter fun r => r.id == id).length,
    ⟨s.users, s.teams, s.memberships, s.requests.filter fun r => !(r.id == id), s.nextId⟩)

/-- Modelled from the spec: `prisma.teamRequest.deleteMany({where: {teamId, userId}})`
(§6). -/
def Store.requestDeleteManyByPair (s : Store) (teamId userId : Nat) : Nat × Store :=
  ((s.requests.filter fun r => r.teamId == teamId && r.userId == userId).length,
    ⟨s.users, s.teams, s.memberships,
      s.requests.filter fun r => !(r.teamId == teamId && r.userId == userId), s.nextId⟩)

/-- The property access `v[key]` on an object (`none` is `undefined`). -/
def JsVal.get (v : JsVal) (key : String) : Option JsVal :=
  match v with
  | .obj fields => (fields.find? fun f => f.1 == key).map fun f => f.2
  | _ => none

/-! ## teamController.js, continued -/

/-- The argument `updateData` of `updateTeam`: an object whose properties `name` and
`maxMemberCount` may be absent (`none`; the destructuring defaults make them `null`). -/
structure UpdateData where
  name : Option String
  maxMemberCount : Option Int

/-- The function `updateTeam`. `updateData = none` is `null`, whose destructuring throws. -/
def updateTeam (g : Globals) (teamName ownerEmail : Option String)
    (updateData : Option UpdateData) (w : World) : Except Fault (Result × World) := do
  -- Validates data
  let data ← match updateData with
    | some d => (pure d : Except Fault UpdateData)
    | none => .error (Fault.typeError "Cannot destructure property name of updateData")
  let name := data.name
  let maxMemberCount := data.maxMemberCount
  let nameExists := w.store.teamFindUnique name
  let (nameIsUnique, w) ← Result.failIf g nameExists.isSome (some "Team name already exists.")
    (some 409) none none none none w
  let (params1IsValid, w) ← Result.failIf g (strFalsy teamName || strFalsy ownerEmail)
    (some "Team name and owner must be provided.") none none none none none w
  let (params21IsValid, w) ← Result.failIf g (strFalsy name && numFalsy maxMemberCount)
    (some "Team name or max member count must be provided.") none none none none none w
  let nameLength ← strLength name
  let (nameIsValid, w) ← Result.failIf g (decide (nameLength < 4))
    (some "Name must be at least 4 characters long.") none none none none none w
  let (maxMemberCountIsValid, w) ← Result.failIf g (numLe maxMemberCount 10)
    (some "Max member count must be greater than 10.") none none none none none w
  let dataValidation := Result.merge
    [nameIsUnique, params1IsValid, params21IsValid, nameIsValid, maxMemberCountIsValid]
  if dataValidation.isError then
    let failed ← Result.fail dataValidation
    return (failed, w)
  -- Retrieves owner and team
  let owner := w.store.userFindUniqueByEmail ownerEmail
  let team := w.store.teamFindUnique teamName
  -- Validates existence and ownership
  let (ownerExists, w) ← Result.failIf g owner.isNone (some "Owner does not exist.") (some 404)
    none none none none w
  let (teamExists, w) ← Result.failIf g team.isNone (some "Team does not exist.") (some 404)
    none none none none w
  let validation := Result.merge [ownerExists, teamExists]
  if validation.isError then
    let failed ← Result.fail validation
    return (failed, w)
  match owner, team with
  | some owner, some team =>
    let (ownerIsTeamOwner, w) ← Result.failIf g (team.ownerId != owner.id)
      (some "Forbidden. Only team owner can update the team.") (some 403) none none none none w
    if ownerIsTeamOwner.isError then
      let failed ← Result.fail ownerIsTeamOwner
      return (failed, w)
    -- Updates team
    let (updatedTeam, store) ← w.store.teamUpdate team.id name maxMemberCount
    let w : World := ⟨store, w.log, w.console⟩
    let (updatedTeamExists, w) ← Result.failIf g false (some "Failed to update team.") (some 500)
      none none none none w
    if updatedTeamExists.isError then
      let failed ← Result.fail updatedTeamExists
      return (failed, w)
    -- `if (!updatedTeam) throw ...` is not taken: `updatedTeam` is a row
    let dto ← mapToTeamDTO w.store updatedTeam owner true
    return (Result.ok (some dto), w)
  | _, _ =>
    -- not reached: `validation` has returned for a missing owner or team
    .error (Fault.typeError "Cannot read properties of null (reading ownerId)")

/-- The function `deleteTeam`. -/
def deleteTeam (g : Globals) (teamName ownerEmail : Option String) (w : World) :
    Except Fault (Result × World) := do
  -- Validates data
  let (paramsIsValid, w) ← Result.failIf g (strFalsy teamName || strFalsy ownerEmail)
    (some "Team name and owner must be provided.") none none none none none w
  if paramsIsValid.isError then
    let failed ← Result.fail paramsIsValid
    return (failed, w)
  -- Retrieves owner and team
  let owner := w.store.userFindUniqueByEmail ownerEmail
  let team := w.store.teamFindUnique teamName
  -- Validates existence and ownership
  let (ownerExists, w) ← Result.failIf g owner.isNone (some "Owner does not exist.") (some 404)
    none none none none w
  let (teamExists, w) ← Result.failIf g team.isNone (some "Team does not exist.") (some 404)
    none none none none w
  let validation := Result.merge [ownerExists, teamExists]
  if validation.isError then
    let failed ← Result.fail validation
    return (failed, w)
  match owner, team with
  | some owner, some team =>
    let (ownerIsTeamOwner, w) ← Result.failIf g (team.ownerId != owner.id)
      (some "Forbidden. Only team owner can delete the team.") (some 403) none none none none w
    if ownerIsTeamOwner.isError then
      let failed ← Result.fail ownerIsTeamOwner
      return (failed, w)
    -- Deletes team memberships and team
    let teamMemberships := w.store.membershipFindMany team.id
    let store := w.store.membershipDeleteMany (teamMemberships.map fun membership => membership.id)
    let store ← store.teamDelete team.id
    return (Result.ok none, ⟨store, w.log, w.console⟩)
  | _, _ =>
    -- not reached: `validation` has returned for a missing owner or team
    .error (Fault.typeError "Cannot read properties of null (reading ownerId)")

/-- The function `getTeam`. Inside `mapToTeamDTO`, `owner.name` throws a TypeError when the
included owner is `null`. -/
def getTeam (g : Globals) (name : Option String) (w : World) :
    Except Fault (Result × World) := do
  -- Validates data
  let (nameIsValid, w) ← Result.failIf g (strFalsy name) (some "Team name must be provided.")
    none none none none none w
  if nameIsValid.isError then
    let failed ← Result.fail nameIsValid
    return (failed, w)
  -- Retrieves team
  let team := w.store.teamFindUniqueWithOwner name
  let (teamExists, w) ← Result.failIf g team.isNone (some "Team does not exist.") (some 404)
    none none none none w
  if teamExists.isError then
    let failed ← Result.fail teamExists
    return (failed, w)
  match team with
  | some (team, some owner) =>
    let dto ← mapToTeamDTO w.store team owner true
    return (Result.ok (some dto), w)
  | some (_, none) => .error (Fault.typeError "Cannot read properties of null (reading name)")
  | none =>
    -- not reached: `teamExists` has returned for a missing team
    .error (Fault.typeError "Cannot read properties of null (reading id)")

/-- The function `getAllTeams`: every team is mapped with `includeMembers` left at its
default `false`. -/
def getAllTeams (w : World) : Except Fault (Result × World) := do
  let teams := w.store.teamFindManyWithOwner
  let dtos ← teams.mapM fun team =>
    match team.2 with
    | some owner => mapToTeamDTO w.store team.1 owner false
    | none => .error (Fault.typeError "Cannot read properties of null (reading name)")
  return (Result.ok (some (JsVal.arr dtos)), w)

/-! ## teamRequestController.js -/

/-- The function `createTeamRequest`. `message = none` is an omitted argument, for which
the default `""` applies. -/
def createTeamRequest (g : Globals) (email teamName : Option String) (message : Option String)
    (w : World) : Except Fault (Result × World) := do
  let message := message.getD ""
  -- Validates data
  let (paramsIsValid, w) ← Result.failIf g (strFalsy email || strFalsy teamName)
    (some "User and team name must be provided.") none none none none none w
  if paramsIsValid.isError then
    let failed ← Result.fail paramsIsValid
    return (failed, w)
  -- Retrieves user and team
  let user := w.store.userFindUniqueByEmail email
  let team := w.store.teamFindUnique teamName
  -- Validates existence
  let (userExists, w) ← Result.failIf g user.isNone (some "User does not exist.") (some 404)
    none none none none w
  let (teamExists, w) ← Result.failIf g team.isNone (some "Team does not exist.") (some 404)
    none none none none w
  let existenceValidation := Result.merge [userExists, teamExists]
  if existenceValidation.isError then
    let failed ← Result.fail existenceValidation
    return (failed, w)
  match user, team with
  | some user, some team =>
    -- Creates team request
    let (_, store) := w.store.requestCreate team.id user.id message
    let w : World := ⟨store, w.log, w.console⟩
    let (requestCreated, w) ← Result.failIf g false (some "Failed to create team request.")
      (some 500) none none none none w
    if requestCreated.isError then
      let failed ← Result.fail requestCreated
      return (failed, w)
    return (Result.ok none, w)
  | _, _ =>
    -- not reached: `existenceValidation` has returned for a missing user or team
    .error (Fault.typeError "Cannot read properties of null (reading id)")

/-- The call `Result.fail("Team request does not exist.", 404)` of `acceptTeamRequest`:
`Result.fail` reads `result.error`, which is `undefined` on a string, and
`undefined.map(...)` throws a TypeError. -/
def Result.failString (_message : String) (_code : Int) : Except Fault Result :=
  .error (Fault.typeError "Cannot read properties of undefined (reading map)")

/-- The end of `acceptTeamRequest`, from the check of the count that `deleteMany` reported
onwards. -/
def acceptTeamRequestAfterDelete (g : Globals) (team : Team) (request : TeamRequest)
    (count : Nat) (w : World) : Except Fault (Result × World) := do
  let (resultIsValid, w) ← Result.failIf g (decide (count < 1)) (some "Team request not found.")
    (some 404) none none none none w
  if resultIsValid.isError then
    let failed ← Result.fail resultIsValid
    return (failed, w)
  -- Adds user to team memberships
  let store := w.store.membershipCreate team.id request.userId
  return (Result.ok none, ⟨store, w.log, w.console⟩)

/-- The function `acceptTeamRequest`. -/
def acceptTeamRequest (g : Globals) (ownerEmail teamName name : Option String) (w : World) :
    Except Fault (Result × World) := do
  -- Validates data
  let (paramsIsValid, w) ← Result.failIf g
    (strFalsy ownerEmail || strFalsy teamName || strFalsy name)
    (some "Owner, user and team name must be provided.") none none none none none w
  if paramsIsValid.isError then
    let failed ← Result.fail paramsIsValid
    return (failed, w)
  -- Retrieves owner, user and team
  let owner := w.store.userFindUniqueByEmail ownerEmail
  let team := w.store.teamFindUnique teamName
  let user := w.store.userFindUniqueByName name
  -- Validates existence and ownership
  let (userExists, w) ← Result.failIf g user.isNone (some "Team request does not exist.")
    (some 404) none none none none w
  let (ownerExists, w) ← Result.failIf g owner.isNone (some "Owner does not exist.") (some 404)
    none none none none w
  let (teamExists, w) ← Result.failIf g team.isNone (some "Team does not exist.") (some 404)
    none none none none w
  let validation := Result.merge [userExists, ownerExists, teamExists]
  if validation.isError then
    let failed ← Result.fail validation
    return (failed, w)
  match owner, team, user with
  | some owner, some team, some user =>
    let (ownerIsTeamOwner, w) ← Result.failIf g (team.ownerId != owner.id)
      (some "Forbidden. Only team owner can accept requests.") (some 403) none none none none w
    if ownerIsTeamOwner.isError then
      let failed ← Result.fail ownerIsTeamOwner
      return (failed, w)
    -- Accepts the first pending request (if any)
    match w.store.requestFindFirst team.id user.id with
    | none =>
      let failed ← Result.failString "Team request does not exist." 404
      return (failed, w)
    | some request =>
      -- Deletes the accepted request
      let (count, store) := w.store.requestDeleteManyById request.id
      acceptTeamRequestAfterDelete g team request count ⟨store, w.log, w.console⟩
  | _, _, _ =>
    -- not reached: `validation` has returned for a missing owner, team or user
    .error (Fault.typeError "Cannot read properties of null (reading ownerId)")

/-- The function `deleteTeamRequest`. -/
def deleteTeamRequest (g : Globals) (ownerEmail teamName name : Option String) (w : World) :
    Except Fault (Result × World) := do
  -- Validates data
  let (paramsIsValid, w) ← Result.failIf g
    (strFalsy ownerEmail || strFalsy teamName || strFalsy name)
    (some "Owner, user and team name must be provided.") none none none none none w
  if paramsIsValid.isError then
    let failed ← Result.fail paramsIsValid
    return (failed, w)
  -- Retrieves owner, user and team
  let owner := w.store.userFindUniqueByEmail ownerEmail
  let team := w.store.teamFindUnique teamName
  let user := w.store.userFindUniqueByName name
  -- Validates existence and ownership
  let (userExists, w) ← Result.failIf g user.isNone (some "User does not exist.") (some 404)
    none none none none w
  let (ownerExists, w) ← Result.failIf g owner.isNone (some "Owner does not exist.") (some 404)
    none none none none w
  let (teamExists, w) ← Result.failIf g team.isNone (some "Team does not exist.") (some 404)
    none none none none w
  let validation := Result.merge [userExists, ownerExists, teamExists]
  if validation.isError then
    let failed ← Result.fail validation
    return (failed, w)
  match owner, team, user with
  | some owner, some team, some user =>
    let (ownerIsTeamOwner, w) ← Result.failIf g (team.ownerId != owner.id)
      (some "Forbidden. Only team owner can delete requests.") (some 403) none none none none w
    if ownerIsTeamOwner.isError then
      let failed ← Result.fail ownerIsTeamOwner
      return (failed, w)
    -- Deletes team request
    let (count, store) := w.store.requestDeleteManyByPair team.id user.id
    let w : World := ⟨store, w.log, w.console⟩
    let (resultIsValid, w) ← Result.failIf g (decide (count < 1))
      (some "Team request not found.") (some 404) none none none none w
    if resultIsValid.isError then
      let failed ← Result.fail resultIsValid
      return (failed, w)
    return (Result.ok none, w)
  | _, _, _ =>
    -- not reached: `validation` has returned for a missing owner, team or user
    .error (Fault.typeError "Cannot read properties of null (reading ownerId)")

/-! ## The Entity Store interface: users, ordering and requests -/

/-- Modelled from the spec: the relation `teamMemberships: {include: {team: true}}` of a
user (§6, relation includes): the memberships of the user, each with its team row. -/
def Store.userTeamMemberships (s : Store) (userId : Nat) : List (TeamMembership × Team) :=
  (s.memberships.filter fun m => m.userId == userId).filterMap fun m =>
    (s.teams.find? fun t => t.id == m.teamId).map fun t => (m, t)

/-- The order `orderBy: {score: 'desc'}`: `a` may stand before `b`. -/
def scoreDesc (a b : User) : Prop :=
  b.score ≤ a.score

instance : DecidableRel scoreDesc :=
  fun a b => inferInstanceAs (Decidable (b.score ≤ a.score))

instance : IsTotal User scoreDesc :=
  ⟨fun a b => Int.le_total b.score a.score⟩

instance : IsTrans User scoreDesc :=
  ⟨fun _ _ _ hab hbc => Int.le_trans hbc hab⟩

/-- Modelled from the spec: `prisma.user.findMany({include: {teamMemberships: {include:
{team: true}}}, orderBy: {score: 'desc'}})` (§4.2: all users ordered by score descending,
equal scores in the order of the store). -/
def Store.userFindManyOrderByScoreDesc (s : Store) : List UserObj :=
  (s.users.insertionSort scoreDesc).map fun u => ⟨u, some (s.userTeamMemberships u.id)⟩

/-- Modelled from the spec: `prisma.user.create({data: {email, hashedPassword, name,
score}})` (§6). The store assigns the id and enforces the uniqueness of email and name
(§3), throwing when it is violated. -/
def Store.userCreate (s : Store) (email hashedPassword name : String) (score : Int) :
    Except Fault (User × Store) :=
  if s.users.any fun u => u.email == email || u.name == name then
    .error (Fault.storeError "Unique constraint failed on the fields: (email) or (name)")
  else
    .ok (⟨s.nextId, email, name, hashedPassword, score⟩,
      ⟨s.users ++ [⟨s.nextId, email, name, hashedPassword, score⟩], s.teams, s.memberships,
        s.requests, s.nextId + 1⟩)

/-- Modelled from the spec: `prisma.teamRequest.findMany({where: {teamId}, include: {user:
true}})` (§6): the requests of the team, each with its user row (`none` when no user has
the id). -/
def Store.requestFindManyWithUser (s : Store) (teamId : Nat) :
    List (TeamRequest × Option User) :=
  (s.requests.filter fun r => r.teamId == teamId).map fun r =>
    (r, s.users.find? fun u => u.id == r.userId)

/-! ## userController.js, continued -/

/-- The function `getUser`. The user is looked up by email when the email is truthy and by
name otherwise; the query includes the team memberships with their teams. -/
def getUser (g : Globals) (email name : Option String) (w : World) :
    Except Fault (Result × World) := do
  -- Determines wether to use email or username
  let (queryIsValid, w) ← Result.failIf g (strFalsy email && strFalsy name)
    (some "Email or name must be provided.") none none none none none w
  if queryIsValid.isError then
    let failed ← Result.fail queryIsValid
    return (failed, w)
  -- Retrieves user
  let user := if strFalsy email then w.store.userFindUniqueByName name
    else w.store.userFindUniqueByEmail email
  let (userExists, w) ← Result.failIf g user.isNone (some "User does not exist.") (some 404)
    none none none none w
  if userExists.isError then
    let failed ← Result.fail userExists
    return (failed, w)
  match user with
  | some user =>
    let dto ← mapToUserDTO w.store ⟨user, some (w.store.userTeamMemberships user.id)⟩ true none
    return (Result.ok (some dto), w)
  | none =>
    -- not reached: `userExists` has returned for a missing user
    .error (Fault.typeError "Cannot read properties of null (reading score)")

/-- The function `getAllUsers`: the users in descending score order, each mapped with its
0-based index. -/
def getAllUsers (w : World) : Except Fault (Result × World) := do
  -- Retrieves all users
  let users := w.store.userFindManyOrderByScoreDesc
  let dtos ← users.enum.mapM fun indexed => mapToUserDTO w.store indexed.2 true (some indexed.1)
  return (Result.ok (some (JsVal.arr dtos)), w)

/-! ## teamRequestController.js, continued -/

/-- The function `mapToTeamRequestDTO`: `teamRequest.user.name` throws a TypeError when the
included user is `null`. -/
def mapToTeamRequestDTO (teamRequest : TeamRequest × Option User) : Except Fault JsVal :=
  match teamRequest.2 with
  | some user =>
    .ok (JsVal.obj [("name", JsVal.str user.name), ("message", JsVal.str teamRequest.1.message)])
  | none => .error (Fault.typeError "Cannot read properties of null (reading name)")

/-- The function `getAllTeamRequests`. The argument `team.ownerId !== owner.id` of the
first `failIf` is evaluated before anything is checked: `team.ownerId` throws a TypeError
when the team is `null`, and `owner.id` when the owner is `null`. -/
def getAllTeamRequests (g : Globals) (ownerEmail teamName : Option String) (w : World) :
    Except Fault (Result × World) := do
  -- Retrieves owner and team
  let owner := w.store.userFindUniqueByEmail ownerEmail
  let team := w.store.teamFindUnique teamName
  -- Validates existence and ownership
  let teamOwnerId ← match team with
    | some team => (pure team.ownerId : Except Fault Nat)
    | none => .error (Fault.typeError "Cannot read properties of null (reading ownerId)")
  let ownerId ← match owner with
    | some owner => (pure owner.id : Except Fault Nat)
    | none => .error (Fault.typeError "Cannot read properties of null (reading id)")
  let (ownerIsTeamOwner, w) ← Result.failIf g (teamOwnerId != ownerId)
    (some "Forbidden. Only team owner can fetch join requests.") (some 403) none none none none w
  let (teamExists, w) ← Result.failIf g team.isNone (some "Team does not exist.") (some 404)
    none none none none w
  let validation := Result.merge [teamExists, ownerIsTeamOwner]
  if validation.isError then
    let failed ← Result.fail validation
    return (failed, w)
  match team with
  | some team =>
    -- Retrieves join requests
    let teamRequests := w.store.requestFindManyWithUser team.id
    let dtos ← teamRequests.mapM fun req => mapToTeamRequestDTO req
    return (Result.ok (some (JsVal.arr dtos)), w)
  | none =>
    -- not reached: `team.ownerId` has thrown for a missing team
    .error (Fault.typeError "Cannot read properties of null (reading id)")

/-! ## authController.js -/

/-- The external capabilities of `authController.js`: `bcrypt.hash(password, 10)`,
`bcrypt.compare(password, hash)`, `jwt.sign({email, name}, secret, options)` and the value
of `Math.floor(Math.random() * 100)`. -/
structure AuthLib where
  hash : String → String
  compare : String → String → Bool
  sign : String → String → String
  randomPercent : Nat

/-- A character of the class `[a-zA-Z0-9_.+-]`. -/
def isEmailLocalChar (c : Char) : Bool :=
  c.isAlphanum || c == '_' || c == '.' || c == '+' || c == '-'

/-- A character of the class `[a-zA-Z0-9-]`. -/
def isEmailDomainChar (c : Char) : Bool :=
  c.isAlphanum || c == '-'

/-- A character of the class `[a-zA-Z0-9-.]`. -/
def isEmailTailChar (c : Char) : Bool :=
  c.isAlphanum || c == '-' || c == '.'

/-- The test of the regular expression `^[a-zA-Z0-9_.+-]+@[a-zA-Z0-9-]+\.[a-zA-Z0-9-.]+$`.
No class before the `@` contains `@` and the class after it contains no `.`, so a match
splits the string at its first `@` and then at the first `.` after it. -/
def emailFormatTest (email : String) : Bool :=
  let chars := email.toList
  match chars.dropWhile fun c => c != '@' with
  | [] => false
  | _ :: afterAt =>
    match afterAt.dropWhile fun c => c != '.' with
    | [] => false
    | _ :: tail =>
      let localPart := chars.takeWhile fun c => c != '@'
      let domain := afterAt.takeWhile fun c => c != '.'
      !localPart.isEmpty && localPart.all isEmailLocalChar
        && !domain.isEmpty && domain.all isEmailDomainChar
        && !tail.isEmpty && tail.all isEmailTailChar

/-- The function `register`. `emailFormat.test(null)` tests the string "null". -/
def register (g : Globals) (lib : AuthLib) (email name password : Option String) (w : World) :
    Except Fault (Result × World) := do
  -- Validates data
  let emailExists := w.store.userFindUniqueByEmail email
  let nameExists := w.store.userFindUniqueByName name
  let (emailIsUnique, w) ← Result.failIf g emailExists.isSome (some "Email already exists.")
    (some 409) none none none none w
  let (nameIsUnique, w) ← Result.failIf g nameExists.isSome (some "Name already exists.")
    (some 409) none none none none w
  let (emailIsValid, w) ← Result.failIf g (!emailFormatTest (email.getD "null"))
    (some "Invalid email format.") none none none none none w
  let nameLength ← strLength name
  let (nameIsValid, w) ← Result.failIf g (decide (nameLength < 4))
    (some "Name must be at least 4 characters long.") none none none none none w
  let passwordLength ← strLength password
  let (passwordIsValid, w) ← Result.failIf g (decide (passwordLength < 8))
    (some "Password must be at least 8 characters long.") none none none none none w
  let dataValidation := Result.merge
    [emailIsUnique, nameIsUnique, emailIsValid, nameIsValid, passwordIsValid]
  if dataValidation.isError then
    let failed ← Result.fail dataValidation
    return (failed, w)
  match email, name, password with
  | some email, some name, some password =>
    -- Hashes password
    let hashedPassword := lib.hash password
    -- Creates user
    let score : Int := ((lib.randomPercent % 100 : Nat) : Int) + 1
    let (user, store) ← w.store.userCreate email hashedPassword name score
    let w : World := ⟨store, w.log, w.console⟩
    let (userExists, w) ← Result.failIf g false (some "Failed registering user.") (some 409)
      none none none none w
    if userExists.isError then
      let failed ← Result.fail userExists
      return (failed, w)
    -- Generates JWT token
    let token := lib.sign user.email user.name
    return (Result.ok (some (JsVal.obj [("token", JsVal.str token)])), w)
  | _, _, _ =>
    -- not reached: `name.length` and `password.length` have thrown for `null`,
    -- and a `null` email fails the format rule
    .error (Fault.storeError "Invalid prisma.user.create() invocation")

/-- The function `signin`. -/
def signin (g : Globals) (lib : AuthLib) (email : Option String) (password : String)
    (w : World) : Except Fault (Result × World) := do
  -- Finds user by email
  let user := w.store.userFindUniqueByEmail email
  let (userIsValid, w) ← Result.failIf g user.isNone
    (some "Wrong combination of email and password, or user does not exist.") (some 401)
    (some "User does not exist.") (some 404) none none w
  if userIsValid.isError then
    let failed ← Result.fail userIsValid
    return (failed, w)
  match user with
  | some user =>
    -- Verifies password
    let passwordIsValid := lib.compare password user.hashedPassword
    let (passwordIsValidResult, w) ← Result.failIf g (!passwordIsValid)
      (some "Wrong combination of email and password, or user does not exist.") (some 401)
      (some "Bad password.") none none none w
    if passwordIsValidResult.isError then
      let failed ← Result.fail passwordIsValidResult
      return (failed, w)
    -- Generates JWT token
    let token := lib.sign user.email user.name
    return (Result.ok (some (JsVal.obj [("token", JsVal.str token)])), w)
  | none =>
    -- not reached: `userIsValid` has returned for a missing user
    .error (Fault.typeError "Cannot read properties of null (reading hashedPassword)")

/-! ## The membership constraint of the store, and sequences of calls -/

/-- Modelled from the spec: `prisma.teamMembership.create({data: {teamId, userId}})` under
the constraint that §3 states for TeamMembership, "uniqueness implied (one row per user per
team)"; the Prisma schema, which declares the constraints of the store, is not under src/.
The store throws when it already holds a membership of the pair, as for its other unique
fields (§5: "the store's unique-constraint enforcement is the authoritative guard"), and
inserts the row otherwise. -/
def Store.membershipCreateUnique (s : Store) (teamId userId : Nat) : Except Fault Store :=
  if s.memberships.any fun m => m.teamId == teamId && m.userId == userId then
    .error (Fault.storeError "Unique constraint failed on the fields: (teamId, userId)")
  else
    .ok (s.membershipCreate teamId userId)

/-- A step that can throw, with the world that a throw leaves behind. -/
def atWorld {α : Type} (w : World) (step : Except Fault α) : Except (Fault × World) α :=
  match step with
  | .ok a => .ok a
  | .error fault => .error (fault, w)

/-- The function `acceptTeamRequest` with `prisma.teamMembership.create` as the parameter
`create`. A throw carries the world it leaves behind: the request is deleted before the
membership is created, so a throw of `create` leaves the store without the request. -/
def acceptTeamRequestWith (create : Store → Nat → Nat → Except Fault Store) (g : Globals)
    (ownerEmail teamName name : Option String) (w : World) :
    Except (Fault × World) (Result × World) := do
  -- Validates data
  let (paramsIsValid, w) ← atWorld w (Result.failIf g
    (strFalsy ownerEmail || strFalsy teamName || strFalsy name)
    (some "Owner, user and team name must be provided.") none none none none none w)
  if paramsIsValid.isError then
    let failed ← atWorld w (Result.fail paramsIsValid)
    return (failed, w)
  -- Retrieves owner, user and team
  let owner := w.store.userFindUniqueByEmail ownerEmail
  let team := w.store.teamFindUnique teamName
  let user := w.store.userFindUniqueByName name
  -- Validates existence and ownership
  let (userExists, w) ← atWorld w (Result.failIf g user.isNone
    (some "Team request does not exist.") (some 404) none none none none w)
  let (ownerExists, w) ← atWorld w (Result.failIf g owner.isNone
    (some "Owner does not exist.") (some 404) none none none none w)
  let (teamExists, w) ← atWorld w (Result.failIf g team.isNone
    (some "Team does not exist.") (some 404) none none none none w)
  let validation := Result.merge [userExists, ownerExists, teamExists]
  if validation.isError then
    let failed ← atWorld w (Result.fail validation)
    return (failed, w)
  match owner, team, user with
  | some owner, some team, some user =>
    let (ownerIsTeamOwner, w) ← atWorld w (Result.failIf g (team.ownerId != owner.id)
      (some "Forbidden. Only team owner can accept requests.") (some 403) none none none none w)
    if ownerIsTeamOwner.isError then
      let failed ← atWorld w (Result.fail ownerIsTeamOwner)
      return (failed, w)
    -- Accepts the first pending request (if any)
    match w.store.requestFindFirst team.id user.id with
    | none =>
      let failed ← atWorld w (Result.failString "Team request does not exist." 404)
      return (failed, w)
    | some request =>
      -- Deletes the accepted request
      let (count, store) := w.store.requestDeleteManyById request.id
      let w : World := ⟨store, w.log, w.console⟩
      let (resultIsValid, w) ← atWorld w (Result.failIf g (decide (count < 1))
        (some "Team request not found.") (some 404) none none none none w)
      if resultIsValid.isError then
        let failed ← atWorld w (Result.fail resultIsValid)
        return (failed, w)
      -- Adds user to team memberships
      let store ← atWorld w (create w.store team.id request.userId)
      return (Result.ok none, ⟨store, w.log, w.console⟩)
  | _, _, _ =>
    -- not reached: `validation` has returned for a missing owner, team or user
    .error (Fault.typeError "Cannot read properties of null (reading ownerId)", w)

/-- A call of one of the domain operations that write to the store, with its arguments. -/
inductive Op where
  | register (lib : AuthLib) (email name password : Option String)
  | createTeam (ownerEmail name : Option String) (maxMemberCount : Option Int)
  | updateTeam (teamName ownerEmail : Option String) (updateData : Option UpdateData)
  | deleteTeam (teamName ownerEmail : Option String)
  | createTeamRequest (email teamName message : Option String)
  | acceptTeamRequest (ownerEmail teamName name : Option String)
  | deleteTeamRequest (ownerEmail teamName name : Option String)

/-- The call itself, on a store whose `prisma.teamMembership.create` is `create`. The six
functions other than `acceptTeamRequest` make no call of it (the nested insert of
`Store.teamCreate` is for a new team, whose pairs have no row). In these definitions each
of their throws precedes their first write to the store (after a write, `mapToTeamDTO`
returns and `Store.teamDelete` finds the team that was looked up), so the world that a
throw of theirs leaves behind has the store of the call. -/
def Op.run (create : Store → Nat → Nat → Except Fault Store) (g : Globals) (op : Op)
    (w : World) : Except (Fault × World) (Result × World) :=
  match op with
  | .register lib email name password =>
    atWorld w (SecureAPI.register g lib email name password w)
  | .createTeam ownerEmail name maxMemberCount =>
    atWorld w (SecureAPI.createTeam g ownerEmail name maxMemberCount w)
  | .updateTeam teamName ownerEmail updateData =>
    atWorld w (SecureAPI.updateTeam g teamName ownerEmail updateData w)
  | .deleteTeam teamName ownerEmail => atWorld w (SecureAPI.deleteTeam g teamName ownerEmail w)
  | .createTeamRequest email teamName message =>
    atWorld w (SecureAPI.createTeamRequest g email teamName message w)
  | .acceptTeamRequest ownerEmail teamName name =>
    acceptTeamRequestWith create g ownerEmail teamName name w
  | .deleteTeamRequest ownerEmail teamName name =>
    atWorld w (SecureAPI.deleteTeamRequest g ownerEmail teamName name w)

/-- The world after one call, whether it returns or throws. -/
def stepOp (create : Store → Nat → Nat → Except Fault Store) (g : Globals) (op : Op)
    (w : World) : World :=
  match op.run create g w with
  | .ok (_, w1) => w1
  | .error (_, w1) => w1

/-- The world after a sequence of calls, made one after the other. -/
def runOps (create : Store → Nat → Nat → Except Fault Store) (g : Globals) (ops : List Op)
    (w : World) : World :=
  match ops with
  | [] => w
  | op :: rest => runOps create g rest (stepOp create g op w)

/-- At most one TeamMembership row per (teamId, userId) pair. -/
def Store.membershipsUnique (s : Store) : Prop :=
  (s.memberships.map fun m => (m.teamId, m.userId)).Nodup

instance (s : Store) : Decidable s.membershipsUnique := by
  unfold Store.membershipsUnique
  infer_instance

/-- The identifiers of the teams, and the team identifiers of the memberships, are below
the next identifier that the store assigns. -/
def Store.teamIdsBelowNext (s : Store) : Prop :=
  (∀ m ∈ s.memberships, m.teamId < s.nextId) ∧ ∀ t ∈ s.teams, t.id < s.nextId

/-- What `failIf` returns under the globals of the application, whose logger does not
throw: the Result and the world after the call. -/
def appFailIf (nodeEnv : Option String) (captureStack : String → String) (predicate : Bool)
    (externalMessage : Option String) (externalCode : Option Int)
    (internalMessage : Option String) (internalCode : Option Int)
    (error : Option Cause) (req : Option JsVal) (w : World) : Result × World :=
  match Result.failIf (appGlobals nodeEnv captureStack) predicate externalMessage externalCode
    internalMessage internalCode error req w with
  | .ok out => out
  | .error _ => (⟨JsVal.null, none⟩, w)

/-- The record that `errorFactory` hands to `global.logger.error` for its arguments (the
same expression as in `errorFactory`, named so that theorems can refer to it). -/
def errorFactoryRecord (g : Globals) (externalMessage : String) (externalCode : Int)
    (internalMessage : String) (error : Option Cause) (req : Option JsVal) : LogRecord :=
  ⟨internalMessage, internalMessage, ⟨externalCode, externalMessage⟩, "errorFactory",
    JsVal.obj (match error with
      | some c => c.details
      | none => []),
    (match req with
      | some r => if r.truthy then r else JsVal.str "N/A"
      | none => JsVal.str "N/A"),
    strOr (match error with
        | some c => c.stack.getD (g.captureStack internalMessage)
        | none => g.captureStack internalMessage)
      (strOr (g.captureStack internalMessage) "N/A")⟩

/-- The Results the program builds: what `failIf` returns and merges of such Results. -/
inductive Built : Result → Prop where
  | failIf (g : Globals) (predicate : Bool) (externalMessage : Option String)
      (externalCode : Option Int) (internalMessage : Option String) (internalCode : Option Int)
      (error : Option Cause) (req : Option JsVal) (w w1 : World) (r : Result) :
      Result.failIf g predicate externalMessage externalCode internalMessage internalCode
        error req w = .ok (r, w1) → Built r
  | merge (results : List Result) : (∀ r ∈ results, Built r) → Built (Result.merge results)

/-! ## Theorems: Result -/

theorem merge_errors_foldl (results : List Result) (init : List ErrItem) :
    results.foldl
      (fun errors result => if result.isError then errors ++ result.error.getD [] else errors) init
    = init ++ ((results.filter fun r => r.isError).map fun r => r.error.getD []).flatten := by
  induction results generalizing init with
  | nil => simp
  | cons r rs ih =>
    simp only [List.foldl_cons, ih]
    by_cases h : r.isError = true
    · simp [h, List.filter_cons]
    · simp [h, List.filter_cons]

theorem isError_errors_ne_nil (r : Result) (h : r.isError = true) : r.error.getD [] ≠ [] := by
  unfold Result.isError at h
  cases hr : r.error with
  | none => simp [hr] at h
  | some es =>
    simp [hr] at h
    simpa using List.ne_nil_of_length_pos h

theorem isSuccess_eq_not_isError (r : Result) : r.isSuccess = !r.isError := by
  unfold Result.isSuccess Result.isError
  cases r.error with
  | none => rfl
  | some es => cases es <;> simp

theorem merge_eq_of_failed (results : List Result) (h : ∃ r ∈ results, r.isError = true) :
    Result.merge results
      = ⟨JsVal.null, some ((results.filter fun r => r.isError).map fun r => r.error.getD []).flatten⟩ := by
  obtain ⟨r, hr, hre⟩ := h
  have hne : ((results.filter fun r => r.isError).map fun r => r.error.getD []).flatten ≠ [] := by
    intro hnil
    rw [List.flatten_eq_nil_iff] at hnil
    have := hnil (r.error.getD []) (List.mem_map.mpr ⟨r, List.mem_filter.mpr ⟨hr, hre⟩, rfl⟩)
    exact isError_errors_ne_nil r hre this
  unfold Result.merge
  simp only [merge_errors_foldl, List.nil_append]
  have hlen : (((results.filter fun r => r.isError).map fun r => r.error.getD []).flatten.length != 0)
      = true := by
    have hpos := List.length_pos.mpr hne
    generalize (((results.filter fun r => r.isError).map fun r => r.error.getD []).flatten).length
      = n at hpos
    cases n with
    | zero => omega
    | succ k => rfl
  simp only [hlen, if_true, Result.constructor, List.nil_append]

theorem merge_eq_of_success (results : List Result) (h : ∀ r ∈ results, r.isError = false) :
    Result.merge results
      = ⟨(if ((results.map fun r => r.value).filter fun v => v.strictNeNull).length ≤ 1
            then ((results.map fun r => r.value).filter fun v => v.strictNeNull)[0]?.getD
              JsVal.undefined
            else JsVal.arr ((results.map fun r => r.value).filter fun v => v.strictNeNull)),
          none⟩ := by
  have hfe : (results.filter fun r => r.isError) = [] := by
    rw [List.filter_eq_nil_iff]
    intro r hr
    simp [h r hr]
  have hfs : (results.filter fun r => r.isSuccess) = results := by
    rw [List.filter_eq_self]
    intro r hr
    simp [isSuccess_eq_not_isError, h r hr]
  unfold Result.merge
  simp only [merge_errors_foldl, hfe, hfs, List.map_nil, List.flatten_nil, List.append_nil,
    List.length_nil, Result.constructor]
  rfl

/-- C1: when at least one input Result is failed, `Result.merge` returns the failed Result
with `null` value whose error list is the concatenation, in input order, of the error lists
of the failed inputs; the values of the inputs play no part. -/
theorem merge_failed_concat (results : List Result) (h : ∃ r ∈ results, r.isError = true) :
    Result.merge results
        = ⟨JsVal.null,
            some ((results.filter fun r => r.isError).map fun r => r.error.getD []).flatten⟩
      ∧ (Result.merge results).isError = true
      ∧ (Result.merge results).value = JsVal.null := by
  have heq := merge_eq_of_failed results h
  refine ⟨heq, ?_, ?_⟩
  · obtain ⟨r, hr, hre⟩ := h
    have hne : ((results.filter fun r => r.isError).map fun r => r.error.getD []).flatten ≠ [] := by
      intro hnil
      rw [List.flatten_eq_nil_iff] at hnil
      exact isError_errors_ne_nil r hre
        (hnil (r.error.getD []) (List.mem_map.mpr ⟨r, List.mem_filter.mpr ⟨hr, hre⟩, rfl⟩))
    rw [heq]
    have hpos := List.length_pos.mpr hne
    simp only [Result.isError]
    exact decide_eq_true hpos
  · rw [heq]

/-- A witness for `merge_failed_concat`: `merge([ok(v), failIf(true, "E1"),
failIf(true, "E2")])` is the failed Result with the errors E1, E2 in input order. -/
theorem merge_failed_concat_witness :
    Result.merge
        [Result.ok (some (JsVal.str "v")),
          ⟨JsVal.null, some [ErrItem.error "E1" (some 400) (some ⟨400, "E1"⟩) "Error: E1"]⟩,
          ⟨JsVal.null, some [ErrItem.error "E2" (some 400) (some ⟨400, "E2"⟩) "Error: E2"]⟩]
      = ⟨JsVal.null, some [ErrItem.error "E1" (some 400) (some ⟨400, "E1"⟩) "Error: E1",
          ErrItem.error "E2" (some 400) (some ⟨400, "E2"⟩) "Error: E2"]⟩ :=
  (merge_failed_concat
    [Result.ok (some (JsVal.str "v")),
      ⟨JsVal.null, some [ErrItem.error "E1" (some 400) (some ⟨400, "E1"⟩) "Error: E1"]⟩,
      ⟨JsVal.null, some [ErrItem.error "E2" (some 400) (some ⟨400, "E2"⟩) "Error: E2"]⟩]
    (by decide)).1

/-- C2: when no input Result is failed, `Result.merge` returns a success Result (error
`null`); its value is the single non-null value itself when exactly one input carries one,
and the array of all non-null values in input order when two or more do. -/
theorem merge_success_values (results : List Result) (h : ∀ r ∈ results, r.isError = false) :
    (Result.merge results).isSuccess = true
      ∧ (Result.merge results).error = none
      ∧ (∀ v, ((results.map fun r => r.value).filter fun v => v.strictNeNull) = [v] →
          (Result.merge results).value = v)
      ∧ (2 ≤ ((results.map fun r => r.value).filter fun v => v.strictNeNull).length →
          (Result.merge results).value
            = JsVal.arr ((results.map fun r => r.value).filter fun v => v.strictNeNull)) := by
  rw [merge_eq_of_success results h]
  refine ⟨rfl, rfl, ?_, ?_⟩
  · intro v hv
    simp [hv]
  · intro h2
    have : ¬ ((results.map fun r => r.value).filter fun v => v.strictNeNull).length ≤ 1 := by omega
    simp [this]

/-- A witness for `merge_success_values`: `merge([ok("value1"), ok("value2")])` has the
value `["value1", "value2"]`, the test of `result.test.js`. -/
theorem merge_success_values_witness :
    (Result.merge [Result.ok (some (JsVal.str "value1")),
        Result.ok (some (JsVal.str "value2"))]).value
      = JsVal.arr [JsVal.str "value1", JsVal.str "value2"] :=
  (merge_success_values
    [Result.ok (some (JsVal.str "value1")), Result.ok (some (JsVal.str "value2"))]
    (by decide)).2.2.2 (by decide)

theorem merge_all_null (results : List Result)
    (h : ∀ r ∈ results, r.isError = false ∧ r.value = JsVal.null) :
    Result.merge results = ⟨JsVal.undefined, none⟩ := by
  have hv : ((results.map fun r => r.value).filter fun v => v.strictNeNull) = [] := by
    rw [List.filter_eq_nil_iff]
    intro v hv
    obtain ⟨r, hr, rfl⟩ := List.mem_map.mp hv
    simp [(h r hr).2, JsVal.strictNeNull]
  rw [merge_eq_of_success results fun r hr => (h r hr).1, hv]
  rfl

/-- C3: `Result.merge([])`, and the merge of neutral `failIf(false)` Results, is a success
Result whose value is `undefined` (`values[0]` of an empty array), not `null`; merged again
with `ok(v)` that value is not filtered out, and the outcome is `[undefined, v]`. -/
theorem merge_empty_value_undefined :
    Result.merge [] = ⟨JsVal.undefined, none⟩
      ∧ (Result.merge []).isSuccess = true
      ∧ (Result.merge []).value ≠ JsVal.null
      ∧ Result.merge [Result.constructor JsVal.null ErrArg.null,
          Result.constructor JsVal.null ErrArg.null] = ⟨JsVal.undefined, none⟩
      ∧ Result.merge [Result.merge [], Result.ok (some (JsVal.str "v"))]
          = ⟨JsVal.arr [JsVal.undefined, JsVal.str "v"], none⟩ := by
  refine ⟨rfl, rfl, ?_, rfl, rfl⟩
  intro h
  have h2 : (Result.merge []).value = JsVal.undefined := rfl
  rw [h2] at h
  exact JsVal.noConfusion h

theorem failIf_true_of_logger (g : Globals) (hlog : ∀ record, g.logger record = none)
    (externalMessage : Option String) (externalCode : Option Int)
    (internalMessage : Option String) (internalCode : Option Int)
    (error : Option Cause) (req : Option JsVal) (w : World) :
    ∃ w1, Result.failIf g true externalMessage externalCode internalMessage internalCode
          error req w
        = .ok (⟨JsVal.null,
            some [ErrItem.error (internalMessage.getD (externalMessage.getD "Bad request."))
              (some (internalCode.getD (externalCode.getD 400)))
              (some ⟨externalCode.getD 400, externalMessage.getD "Bad request."⟩)
              (g.captureStack (internalMessage.getD (externalMessage.getD "Bad request.")))]⟩, w1)
      ∧ w1.store = w.store := by
  simp only [Result.failIf, errorFactory, hlog, if_true, Option.getD_some, Result.constructor,
    List.nil_append]
  exact ⟨_, rfl, rfl⟩

theorem failIf_false_eq (g : Globals) (externalMessage : Option String)
    (externalCode : Option Int) (internalMessage : Option String) (internalCode : Option Int)
    (error : Option Cause) (req : Option JsVal) (w : World) :
    Result.failIf g false externalMessage externalCode internalMessage internalCode error req w
      = .ok (⟨JsVal.null, none⟩, w) := by
  simp [Result.failIf, Result.constructor]

/-- C4: with a true predicate (and the logger of the application), `Result.failIf` returns
the failed Result with `null` value and exactly one error descriptor: message
`internalMessage`, code `internalCode`, external pair `{externalCode, externalMessage}`; the
defaults are "Bad request.", 400, `externalMessage` and `externalCode`. -/
theorem failIf_true_descriptor (nodeEnv : Option String) (captureStack : String → String)
    (externalMessage : Option String) (externalCode : Option Int)
    (internalMessage : Option String) (internalCode : Option Int)
    (error : Option Cause) (req : Option JsVal) (w : World) :
    ∃ w1, Result.failIf (appGlobals nodeEnv captureStack) true externalMessage externalCode
          internalMessage internalCode error req w
        = .ok (⟨JsVal.null,
            some [ErrItem.error (internalMessage.getD (externalMessage.getD "Bad request."))
              (some (internalCode.getD (externalCode.getD 400)))
              (some ⟨externalCode.getD 400, externalMessage.getD "Bad request."⟩)
              (captureStack (internalMessage.getD (externalMessage.getD "Bad request.")))]⟩, w1)
      ∧ (⟨JsVal.null,
            some [ErrItem.error (internalMessage.getD (externalMessage.getD "Bad request."))
              (some (internalCode.getD (externalCode.getD 400)))
              (some ⟨externalCode.getD 400, externalMessage.getD "Bad request."⟩)
              (captureStack (internalMessage.getD (externalMessage.getD "Bad request.")))]⟩
          : Result).isError = true := by
  obtain ⟨w1, h, _⟩ := failIf_true_of_logger (appGlobals nodeEnv captureStack) (fun _ => rfl)
    externalMessage externalCode internalMessage internalCode error req w
  exact ⟨w1, h, rfl⟩

theorem merge_insert_neutral (xs ys : List Result) :
    Result.merge (xs ++ (⟨JsVal.null, none⟩ : Result) :: ys) = Result.merge (xs ++ ys) := by
  have hv : (((xs ++ (⟨JsVal.null, none⟩ : Result) :: ys).filter
        fun result => result.isSuccess).map fun result => result.value).filter
        (fun value => value.strictNeNull)
      = (((xs ++ ys).filter fun result => result.isSuccess).map fun result => result.value).filter
        (fun value => value.strictNeNull) := by
    simp [List.filter_cons, Result.isSuccess, JsVal.strictNeNull]
  have he : (xs ++ (⟨JsVal.null, none⟩ : Result) :: ys).foldl
        (fun errors result => if result.isError then errors ++ result.error.getD [] else errors) []
      = (xs ++ ys).foldl
        (fun errors result => if result.isError then errors ++ result.error.getD [] else errors)
        [] := by
    simp [List.foldl_append, Result.isError]
  simp only [Result.merge, hv, he]

/-- C5: with a false predicate `Result.failIf` returns, whatever the other arguments and
the logger, the success Result with `null` value and leaves the world (log and console
included) as it was; inserting this neutral Result at any position of a list does not
change what `Result.merge` returns. -/
theorem failIf_false_neutral (g : Globals) (externalMessage : Option String)
    (externalCode : Option Int) (internalMessage : Option String) (internalCode : Option Int)
    (error : Option Cause) (req : Option JsVal) (w : World) (xs ys : List Result) :
    Result.failIf g false externalMessage externalCode internalMessage internalCode error req w
        = .ok (⟨JsVal.null, none⟩, w)
      ∧ (⟨JsVal.null, none⟩ : Result).isSuccess = true
      ∧ Result.merge (xs ++ (⟨JsVal.null, none⟩ : Result) :: ys) = Result.merge (xs ++ ys) :=
  ⟨failIf_false_eq g externalMessage externalCode internalMessage internalCode error req w,
    rfl, merge_insert_neutral xs ys⟩

theorem failIf_errors_have_external (g : Globals) (predicate : Bool)
    (externalMessage : Option String) (externalCode : Option Int)
    (internalMessage : Option String) (internalCode : Option Int)
    (error : Option Cause) (req : Option JsVal) (w w1 : World) (r : Result)
    (h : Result.failIf g predicate externalMessage externalCode internalMessage internalCode
      error req w = .ok (r, w1)) :
    ∀ e ∈ r.error.getD [], ∃ ext, e.external = some ext := by
  cases predicate with
  | false =>
    rw [failIf_false_eq] at h
    cases h
    simp
  | true =>
    simp only [Result.failIf, errorFactory, if_true, Option.getD_some] at h
    split at h
    · cases h
    · rename_i e w2 heq
      split at heq
      · cases heq
      · cases heq
        cases h
        intro e he
        simp only [Result.constructor, List.nil_append, Option.getD_some,
          List.mem_singleton] at he
        subst he
        exact ⟨_, rfl⟩

theorem merge_errors_subset (results : List Result) :
    ∀ e ∈ (Result.merge results).error.getD [], ∃ r ∈ results, e ∈ r.error.getD [] := by
  intro e he
  by_cases h : ∃ r ∈ results, r.isError = true
  · rw [merge_eq_of_failed results h] at he
    simp only [Option.getD_some, List.mem_flatten, List.mem_map, List.mem_filter] at he
    obtain ⟨l, ⟨r, ⟨hr, _⟩, rfl⟩, hel⟩ := he
    exact ⟨r, hr, hel⟩
  · have h2 : ∀ r ∈ results, r.isError = false := by
      intro r hr
      cases hre : r.isError with
      | false => rfl
      | true => exact absurd ⟨r, hr, hre⟩ h
    rw [merge_eq_of_success results h2] at he
    simp at he

theorem built_errors_have_external (r : Result) (hb : Built r) :
    ∀ e ∈ r.error.getD [], ∃ ext, e.external = some ext := by
  induction hb with
  | failIf g predicate externalMessage externalCode internalMessage internalCode error req w w1
      r h =>
    exact failIf_errors_have_external g predicate externalMessage externalCode internalMessage
      internalCode error req w w1 r h
  | merge results _ ih =>
    intro e he
    obtain ⟨r, hr, her⟩ := merge_errors_subset results e he
    exact ih r hr e her

/-- C6: for a failed Result `r` built by `failIf` and `merge`, `Result.fail(r)` returns a
failed Result with `null` value whose error list pairs off with the error list of `r`,
element by element in the same order, each output element being the plain object
`{code, message}` of the external pair of the matching descriptor. -/
theorem fail_external_projection (r : Result) (hb : Built r) (hf : r.isError = true) :
    ∃ errs outs, r.error = some errs
      ∧ Result.fail r = .ok ⟨JsVal.null, some outs⟩
      ∧ (⟨JsVal.null, some outs⟩ : Result).isError = true
      ∧ outs.length = errs.length
      ∧ List.Forall₂
          (fun err out => ∃ ext, err.external = some ext
            ∧ out = ErrItem.plain ext.code ext.message) errs outs := by
  have hext := built_errors_have_external r hb
  cases hr : r.error with
  | none => simp [Result.isError, hr] at hf
  | some errs =>
    rw [hr] at hext
    simp only [Option.getD_some] at hext
    refine ⟨errs, errs.map (fun err =>
      match err.external with
      | some ext => ErrItem.plain ext.code ext.message
      | none => ErrItem.plain 500 err.message), rfl, ?_, ?_, ?_, ?_⟩
    · simp [Result.fail, hr, Result.constructor]
    · simp only [Result.isError, hr] at hf
      simpa [Result.isError] using hf
    · simp
    · rw [List.forall₂_map_right_iff]
      apply List.forall₂_same.mpr
      intro e he
      obtain ⟨ext, hx⟩ := hext e he
      exact ⟨ext, hx, by rw [hx]⟩

/-- A witness for `fail_external_projection`: the merge of two `failIf(true, ...)` Results
with internal and external pairs that differ. -/
theorem fail_external_projection_witness :
    ∃ errs outs,
      (Result.merge
        [⟨JsVal.null, some [ErrItem.error "Internal error" (some 404)
            (some ⟨500, "External error"⟩) "Error: Internal error"]⟩,
          ⟨JsVal.null, some [ErrItem.error "E2" (some 400) (some ⟨400, "E2"⟩) "Error: E2"]⟩]).error
        = some errs
      ∧ Result.fail (Result.merge
        [⟨JsVal.null, some [ErrItem.error "Internal error" (some 404)
            (some ⟨500, "External error"⟩) "Error: Internal error"]⟩,
          ⟨JsVal.null, some [ErrItem.error "E2" (some 400) (some ⟨400, "E2"⟩) "Error: E2"]⟩])
        = .ok ⟨JsVal.null, some outs⟩
      ∧ (⟨JsVal.null, some outs⟩ : Result).isError = true
      ∧ outs.length = errs.length
      ∧ List.Forall₂
          (fun err out => ∃ ext, err.external = some ext
            ∧ out = ErrItem.plain ext.code ext.message) errs outs :=
  fail_external_projection _
    (Built.merge _ (by
      intro r hr
      simp only [List.mem_cons, List.mem_singleton, List.not_mem_nil, or_false] at hr
      rcases hr with rfl | rfl
      · exact Built.failIf (appGlobals none fun m => "Error: " ++ m) true (some "External error")
          (some 500) (some "Internal error") (some 404) none none ⟨⟨[], [], [], [], 0⟩, [], []⟩ _ _
          rfl
      · exact Built.failIf (appGlobals none fun m => "Error: " ++ m) true (some "E2")
          none none none none none ⟨⟨[], [], [], [], 0⟩, [], []⟩ _ _ rfl))
    (by rfl)

/-- C7: for every value and every error argument of the constructor (`null`, a single
error, an empty or non-empty array), exactly one of `isSuccess()` and `isError()` is true,
and `isSuccess()` holds exactly when the error list is `null` or empty. -/
theorem isSuccess_isError_exclusive (value : JsVal) (error : ErrArg) :
    (((Result.constructor value error).isSuccess = true
          ∧ (Result.constructor value error).isError = false)
        ∨ ((Result.constructor value error).isSuccess = false
          ∧ (Result.constructor value error).isError = true))
      ∧ ((Result.constructor value error).isSuccess = true
          ↔ (Result.constructor value error).error = none
            ∨ (Result.constructor value error).error = some []) := by
  generalize Result.constructor value error = r
  constructor
  · rw [isSuccess_eq_not_isError]
    cases r.isError <;> simp
  · unfold Result.isSuccess
    cases r.error with
    | none => simp
    | some es => cases es <;> simp

/-! ## Theorems: createTeam -/

theorem failIf_app (nodeEnv : Option String) (captureStack : String → String) (predicate : Bool)
    (externalMessage : Option String) (externalCode : Option Int)
    (internalMessage : Option String) (internalCode : Option Int)
    (error : Option Cause) (req : Option JsVal) (w : World) :
    ∃ w1, Result.failIf (appGlobals nodeEnv captureStack) predicate externalMessage externalCode
          internalMessage internalCode error req w
        = .ok (⟨JsVal.null,
            if predicate = true then
              some [ErrItem.error (internalMessage.getD (externalMessage.getD "Bad request."))
                (some (internalCode.getD (externalCode.getD 400)))
                (some ⟨externalCode.getD 400, externalMessage.getD "Bad request."⟩)
                (captureStack (internalMessage.getD (externalMessage.getD "Bad request.")))]
            else none⟩, w1)
      ∧ w1.store = w.store ∧ (predicate = false → w1 = w) := by
  cases predicate with
  | false =>
    exact ⟨w, by simp [failIf_false_eq], rfl, fun _ => rfl⟩
  | true =>
    obtain ⟨w1, h, hs⟩ := failIf_true_of_logger (appGlobals nodeEnv captureStack) (fun _ => rfl)
      externalMessage externalCode internalMessage internalCode error req w
    exact ⟨w1, by simpa using h, hs, fun hp => by cases hp⟩

theorem validation_fail_eq (p1 p2 p3 p4 : Bool) (m1 m2 m3 m4 : String) (c1 c2 c3 c4 : Option Int)
    (x1 x2 x3 x4 : External) (s1 s2 s3 s4 : String)
    (h : p1 = true ∨ p2 = true ∨ p3 = true ∨ p4 = true) :
    (Result.merge
        [⟨JsVal.null, if p1 = true then some [ErrItem.error m1 c1 (some x1) s1] else none⟩,
          ⟨JsVal.null, if p2 = true then some [ErrItem.error m2 c2 (some x2) s2] else none⟩,
          ⟨JsVal.null, if p3 = true then some [ErrItem.error m3 c3 (some x3) s3] else none⟩,
          ⟨JsVal.null, if p4 = true then some [ErrItem.error m4 c4 (some x4) s4] else none⟩]).isError
        = true
      ∧ Result.fail (Result.merge
        [⟨JsVal.null, if p1 = true then some [ErrItem.error m1 c1 (some x1) s1] else none⟩,
          ⟨JsVal.null, if p2 = true then some [ErrItem.error m2 c2 (some x2) s2] else none⟩,
          ⟨JsVal.null, if p3 = true then some [ErrItem.error m3 c3 (some x3) s3] else none⟩,
          ⟨JsVal.null, if p4 = true then some [ErrItem.error m4 c4 (some x4) s4] else none⟩])
        = .ok ⟨JsVal.null, some (
            (if p1 = true then [ErrItem.plain x1.code x1.message] else [])
              ++ (if p2 = true then [ErrItem.plain x2.code x2.message] else [])
              ++ (if p3 = true then [ErrItem.plain x3.code x3.message] else [])
              ++ (if p4 = true then [ErrItem.plain x4.code x4.message] else []))⟩ := by
  cases p1 <;> cases p2 <;> cases p3 <;> cases p4 <;> first
    | (exfalso; simp at h; done)
    | exact ⟨rfl, rfl⟩

theorem validation_pass_eq :
    (Result.merge
        [⟨JsVal.null, none⟩, ⟨JsVal.null, none⟩, ⟨JsVal.null, none⟩, ⟨JsVal.null, none⟩]).isError
      = false := rfl

theorem strFalsy_some (s : String) : strFalsy (some s) = (s == "") := rfl

theorem numFalsy_some (n : Int) : numFalsy (some n) = (n == 0) := rfl

theorem numLe_some (n bound : Int) : numLe (some n) bound = decide (n ≤ bound) := rfl

theorem strLength_some (s : String) : strLength (some s) = .ok (jsLength s) := rfl

/-- C8: for every owner email, string name and number `maxMemberCount`, if at least one of
the four validation rules of `createTeam` is violated, `createTeam` returns the failed
Result whose error list holds the external errors of all violated rules, in the order
409 name exists, 400 parameters missing, 400 name too short, 400 max member count too low,
and the store is unchanged. -/
theorem createTeam_reports_all_violations (nodeEnv : Option String)
    (captureStack : String → String) (ownerEmail : Option String) (name : String)
    (maxMemberCount : Int) (w : World)
    (h : (w.store.teamFindUnique (some name)).isSome = true
      ∨ (strFalsy ownerEmail || name == "" || maxMemberCount == 0) = true
      ∨ decide (jsLength name < 4) = true
      ∨ decide (maxMemberCount ≤ 10) = true) :
    ∃ w1, createTeam (appGlobals nodeEnv captureStack) ownerEmail (some name)
          (some maxMemberCount) w
        = .ok (⟨JsVal.null, some (
            (if (w.store.teamFindUnique (some name)).isSome = true
              then [ErrItem.plain 409 "Team name already exists."] else [])
            ++ (if (strFalsy ownerEmail || name == "" || maxMemberCount == 0) = true
              then [ErrItem.plain 400 "Team name, owner, and max member count must be provided."]
              else [])
            ++ (if decide (jsLength name < 4) = true
              then [ErrItem.plain 400 "Name must be at least 4 characters long."] else [])
            ++ (if decide (maxMemberCount ≤ 10) = true
              then [ErrItem.plain 400 "Max member count must be greater than 10."] else []))⟩,
          w1)
      ∧ w1.store = w.store := by
  obtain ⟨w1, h1, hs1, _⟩ := failIf_app nodeEnv captureStack
    (w.store.teamFindUnique (some name)).isSome (some "Team name already exists.") (some 409)
    none none none none w
  obtain ⟨w2, h2, hs2, _⟩ := failIf_app nodeEnv captureStack
    (strFalsy ownerEmail || name == "" || maxMemberCount == 0)
    (some "Team name, owner, and max member count must be provided.") none none none none none w1
  obtain ⟨w3, h3, hs3, _⟩ := failIf_app nodeEnv captureStack (decide (jsLength name < 4))
    (some "Name must be at least 4 characters long.") none none none none none w2
  obtain ⟨w4, h4, hs4, _⟩ := failIf_app nodeEnv captureStack (decide (maxMemberCount ≤ 10))
    (some "Max member count must be greater than 10.") none none none none none w3
  simp only [Option.getD_some, Option.getD_none] at h1 h2 h3 h4
  refine ⟨w4, ?_, by rw [hs4, hs3, hs2, hs1]⟩
  have hv := validation_fail_eq (w.store.teamFindUnique (some name)).isSome
    (strFalsy ownerEmail || name == "" || maxMemberCount == 0) (decide (jsLength name < 4))
    (decide (maxMemberCount ≤ 10)) "Team name already exists."
    "Team name, owner, and max member count must be provided."
    "Name must be at least 4 characters long." "Max member count must be greater than 10."
    (some 409) (some 400) (some 400) (some 400) ⟨409, "Team name already exists."⟩
    ⟨400, "Team name, owner, and max member count must be provided."⟩
    ⟨400, "Name must be at least 4 characters long."⟩
    ⟨400, "Max member count must be greater than 10."⟩
    (captureStack "Team name already exists.")
    (captureStack "Team name, owner, and max member count must be provided.")
    (captureStack "Name must be at least 4 characters long.")
    (captureStack "Max member count must be greater than 10.") h
  simp only [createTeam, strFalsy_some, numFalsy_some, numLe_some, strLength_some, bind,
    Except.bind, h1, h2, h3, h4, hv.1, hv.2, if_true, pure, Except.pure]

/-- A witness for `createTeam_reports_all_violations`: the name exists and the max member
count is 10, so the 409 error comes first and the max-member-count error follows. -/
theorem createTeam_reports_all_violations_witness :
    ∃ w1, createTeam (appGlobals none fun m => "Error: " ++ m) (some "owner@jest.co")
          (some "JestTeam") (some 10)
          ⟨⟨[⟨1, "owner@jest.co", "TeamOwner", "hash", 10⟩], [⟨2, "JestTeam", 15, 1⟩],
            [⟨3, 2, 1⟩], [], 4⟩, [], []⟩
        = .ok (⟨JsVal.null, some [ErrItem.plain 409 "Team name already exists.",
            ErrItem.plain 400 "Max member count must be greater than 10."]⟩, w1)
      ∧ w1.store = ⟨[⟨1, "owner@jest.co", "TeamOwner", "hash", 10⟩], [⟨2, "JestTeam", 15, 1⟩],
            [⟨3, 2, 1⟩], [], 4⟩ :=
  createTeam_reports_all_violations none (fun m => "Error: " ++ m) (some "owner@jest.co")
    "JestTeam" 10
    ⟨⟨[⟨1, "owner@jest.co", "TeamOwner", "hash", 10⟩], [⟨2, "JestTeam", 15, 1⟩],
      [⟨3, 2, 1⟩], [], 4⟩, [], []⟩ (by decide)

theorem jsLength_empty : jsLength "" = 0 := rfl

theorem str_ne_empty_of_jsLength (name : String) (h : 4 ≤ jsLength name) :
    (name == "") = false := by
  cases hn : name == "" with
  | false => rfl
  | true =>
    have : name = "" := by simpa using hn
    subst this
    rw [jsLength_empty] at h
    omega

theorem createTeam_validation_passes (e name : String) (maxMemberCount : Int) (s : Store)
    (hname : s.teamFindUnique (some name) = none) (he : e ≠ "") (hlen : 4 ≤ jsLength name)
    (hm : 10 < maxMemberCount) :
    (s.teamFindUnique (some name)).isSome = false
      ∧ (e == "" || name == "" || maxMemberCount == 0) = false
      ∧ decide (jsLength name < 4) = false
      ∧ decide (maxMemberCount ≤ 10) = false := by
  refine ⟨by rw [hname]; rfl, ?_, ?_, ?_⟩
  · have h0 : (maxMemberCount == 0) = false := by
      simp only [beq_eq_false_iff_ne, ne_eq]
      omega
    have h1 : (e == "") = false := by simpa using he
    simp only [str_ne_empty_of_jsLength name hlen, h0, h1, Bool.or_self]
  · exact decide_eq_false (by omega)
  · exact decide_eq_false (by omega)

/-- C10: for an input that passes the four validation rules of `createTeam` but whose
owner email matches no user, `createTeam` returns the failed Result whose error list is
exactly `[{code: 500, message: "Failed to create team."}]` (the internal message
"User does not exist." and code 404 are not in it), and the store is unchanged. -/
theorem createTeam_unknown_owner (nodeEnv : Option String) (captureStack : String → String)
    (e name : String) (maxMemberCount : Int) (w : World)
    (hname : w.store.teamFindUnique (some name) = none) (he : e ≠ "")
    (hlen : 4 ≤ jsLength name) (hm : 10 < maxMemberCount)
    (howner : w.store.userFindUniqueByEmail (some e) = none) :
    ∃ w1, createTeam (appGlobals nodeEnv captureStack) (some e) (some name)
          (some maxMemberCount) w
        = .ok (⟨JsVal.null, some [ErrItem.plain 500 "Failed to create team."]⟩, w1)
      ∧ w1.store = w.store := by
  obtain ⟨hp1, hp2, hp3, hp4⟩ :=
    createTeam_validation_passes e name maxMemberCount w.store hname he hlen hm
  obtain ⟨w1, h1, hs1, _⟩ := failIf_app nodeEnv captureStack true (some "Failed to create team.")
    (some 500) (some "User does not exist.") (some 404) none none w
  simp only [Option.getD_some, if_true] at h1
  refine ⟨w1, ?_, hs1⟩
  simp only [createTeam, strFalsy_some, numFalsy_some, numLe_some, strLength_some, bind,
    Except.bind, hp1, hp2, hp3, hp4, failIf_false_eq, validation_pass_eq, howner,
    Option.isNone_none, h1, pure, Except.pure]
  rfl

/-- A witness for `createTeam_unknown_owner`: a valid name and count, an email no user has. -/
theorem createTeam_unknown_owner_witness :
    ∃ w1, createTeam (appGlobals none fun m => "Error: " ++ m) (some "nobody@jest.co")
          (some "NewTeam") (some 11)
          ⟨⟨[⟨1, "owner@jest.co", "TeamOwner", "hash", 10⟩], [⟨2, "JestTeam", 15, 1⟩],
            [⟨3, 2, 1⟩], [], 4⟩, [], []⟩
        = .ok (⟨JsVal.null, some [ErrItem.plain 500 "Failed to create team."]⟩, w1)
      ∧ w1.store = ⟨[⟨1, "owner@jest.co", "TeamOwner", "hash", 10⟩], [⟨2, "JestTeam", 15, 1⟩],
            [⟨3, 2, 1⟩], [], 4⟩ :=
  createTeam_unknown_owner none (fun m => "Error: " ++ m) "nobody@jest.co" "NewTeam" 11
    ⟨⟨[⟨1, "owner@jest.co", "TeamOwner", "hash", 10⟩], [⟨2, "JestTeam", 15, 1⟩],
      [⟨3, 2, 1⟩], [], 4⟩, [], []⟩ (by decide) (by decide) (by decide) (by decide) (by decide)

theorem find_user_by_id (users : List User) (u : User)
    (hnd : (users.map fun x => x.id).Nodup) (hu : u ∈ users) :
    (users.find? fun x => x.id == u.id) = some u := by
  induction users with
  | nil => cases hu
  | cons x xs ih =>
    simp only [List.map_cons, List.nodup_cons, List.mem_map, not_exists, not_and] at hnd
    rcases List.mem_cons.mp hu with rfl | hmem
    · simp
    · have hne : (x.id == u.id) = false := by
        simp only [beq_eq_false_iff_ne, ne_eq]
        intro heq
        exact hnd.1 u hmem heq.symm
      rw [List.find?_cons, hne]
      exact ih hnd.2 hmem

theorem teamFindUnique_none_any (s : Store) (name : String)
    (h : s.teamFindUnique (some name) = none) :
    (s.teams.any fun t => t.name == name) = false := by
  simp only [Store.teamFindUnique, List.find?_eq_none] at h
  rw [Bool.eq_false_iff]
  intro hany
  obtain ⟨t, ht, htn⟩ := List.any_eq_true.mp hany
  exact h t ht htn

theorem userFindUniqueByEmail_some (s : Store) (e : String) (owner : User)
    (h : s.userFindUniqueByEmail (some e) = some owner) : owner ∈ s.users ∧ owner.email = e := by
  simp only [Store.userFindUniqueByEmail] at h
  exact ⟨List.mem_of_find?_eq_some h, by simpa using List.find?_some h⟩

theorem membershipFindManyWithUser_created (s : Store) (owner : User) (name : String)
    (maxMemberCount : Int) (hwf : s.WF) (hu : owner ∈ s.users) :
    Store.membershipFindManyWithUser
        ⟨s.users, s.teams ++ [⟨s.nextId, name, maxMemberCount, owner.id⟩],
          s.memberships ++ [⟨s.nextId + 1, s.nextId, owner.id⟩], s.requests, s.nextId + 2⟩ s.nextId
      = [(⟨s.nextId + 1, s.nextId, owner.id⟩, owner)] := by
  obtain ⟨hid, _, _, _, _, _, hteams, hmem, _⟩ := hwf
  have hold : (s.memberships.filter fun m => m.teamId == s.nextId) = [] := by
    rw [List.filter_eq_nil_iff]
    intro m hm
    obtain ⟨_, ⟨t, ht, hteq⟩, _⟩ := hmem m hm
    simp only [beq_iff_eq]
    intro heq
    have := (hteams t ht).1
    omega
  simp only [Store.membershipFindManyWithUser, List.filter_append, hold, List.nil_append,
    List.filter_cons, List.filter_nil, beq_self_eq_true, if_true, List.filterMap_cons,
    List.filterMap_nil, find_user_by_id s.users owner hid hu, Option.map_some']

theorem mapToTeamDTO_created (s : Store) (owner : User) (name : String) (maxMemberCount : Int)
    (hwf : s.WF) (hu : owner ∈ s.users) :
    mapToTeamDTO
        ⟨s.users, s.teams ++ [⟨s.nextId, name, maxMemberCount, owner.id⟩],
          s.memberships ++ [⟨s.nextId + 1, s.nextId, owner.id⟩], s.requests, s.nextId + 2⟩
        ⟨s.nextId, name, maxMemberCount, owner.id⟩ owner true
      = .ok (JsVal.obj [("name", JsVal.str name), ("ownerName", JsVal.str owner.name),
          ("totalScore", JsVal.num owner.score), ("memberNumber", JsVal.num 1),
          ("availableMemberNumber", JsVal.num (maxMemberCount - 1)),
          ("members", JsVal.arr [JsVal.obj [
            ("rank", JsVal.num ((s.userCountScoreGt owner.score : Int) + 1)),
            ("name", JsVal.str owner.name), ("score", JsVal.num owner.score)]])]) := by
  have hscore : (if (0 + owner.score != 0) = true then 0 + owner.score else 0) = owner.score := by
    by_cases h0 : owner.score = 0
    · simp [h0]
    · simp [h0]
  simp only [mapToTeamDTO, membershipFindManyWithUser_created s owner name maxMemberCount hwf hu,
    List.foldl_cons, List.foldl_nil, hscore, List.length_singleton, Nat.cast_one, if_true,
    List.mapM_cons, List.mapM_nil, mapToUserDTO, Option.getD_none, beq_self_eq_true,
    Store.userCountScoreGt, bind, Except.bind, pure, Except.pure, Bool.false_eq_true, if_false,
    List.cons_append, List.nil_append]

/-- C9: in a store that satisfies its constraints, holds a user `owner` with email `e` and
no team named `n`, with `n` at least 4 characters long and `m > 10`, `createTeam(e, n, m)`
returns the success Result whose Team DTO has name `n`, the name and the score of the owner,
`memberNumber` 1, `availableMemberNumber` `m - 1` and the one-element `members` list with
the User DTO of the owner; the store gains exactly one Team (owned by the owner) and one
TeamMembership (that team, the owner), and nothing else changes. -/
theorem createTeam_success (nodeEnv : Option String) (captureStack : String → String)
    (e n : String) (m : Int) (owner : User) (w : World) (hwf : w.store.WF)
    (howner : w.store.userFindUniqueByEmail (some e) = some owner)
    (hname : w.store.teamFindUnique (some n) = none)
    (hlen : 4 ≤ jsLength n) (hm : 10 < m) :
    createTeam (appGlobals nodeEnv captureStack) (some e) (some n) (some m) w
      = .ok (⟨JsVal.obj [("name", JsVal.str n), ("ownerName", JsVal.str owner.name),
            ("totalScore", JsVal.num owner.score), ("memberNumber", JsVal.num 1),
            ("availableMemberNumber", JsVal.num (m - 1)),
            ("members", JsVal.arr [JsVal.obj [
              ("rank", JsVal.num ((w.store.userCountScoreGt owner.score : Int) + 1)),
              ("name", JsVal.str owner.name), ("score", JsVal.num owner.score)]])], none⟩,
          ⟨⟨w.store.users, w.store.teams ++ [⟨w.store.nextId, n, m, owner.id⟩],
            w.store.memberships ++ [⟨w.store.nextId + 1, w.store.nextId, owner.id⟩],
            w.store.requests, w.store.nextId + 2⟩, w.log, w.console⟩) := by
  obtain ⟨hu, hemail⟩ := userFindUniqueByEmail_some w.store e owner howner
  have he : e ≠ "" := by
    rw [← hemail]
    exact (hwf.2.2.2.2.2.1 owner hu).2
  obtain ⟨hp1, hp2, hp3, hp4⟩ := createTeam_validation_passes e n m w.store hname he hlen hm
  have hneutral : (⟨JsVal.null, none⟩ : Result).isError = false := rfl
  simp only [createTeam, strFalsy_some, numFalsy_some, numLe_some, strLength_some, bind,
    Except.bind, hp1, hp2, hp3, hp4, failIf_false_eq, validation_pass_eq, howner,
    Option.isNone_some, pure, Except.pure, hneutral, Bool.false_eq_true, if_false,
    Store.teamCreate, teamFindUnique_none_any w.store n hname,
    mapToTeamDTO_created w.store owner n m hwf hu, Result.ok, Option.getD_some,
    Result.constructor]

/-- A witness for `createTeam_success`: `maxMemberCount = 11` gives `memberNumber` 1 and
`availableMemberNumber` 10; the owner has rank 2 because one user has a higher score. -/
theorem createTeam_success_witness :
    createTeam (appGlobals none fun m => "Error: " ++ m) (some "owner@jest.co") (some "NewTeam")
        (some 11)
        ⟨⟨[⟨1, "owner@jest.co", "TeamOwner", "hash", 10⟩, ⟨2, "user1@jest.co", "MemberOne", "hash", 50⟩],
          [⟨3, "JestTeam", 15, 1⟩], [⟨4, 3, 1⟩], [], 5⟩, [], []⟩
      = .ok (⟨JsVal.obj [("name", JsVal.str "NewTeam"), ("ownerName", JsVal.str "TeamOwner"),
            ("totalScore", JsVal.num 10), ("memberNumber", JsVal.num 1),
            ("availableMemberNumber", JsVal.num 10),
            ("members", JsVal.arr [JsVal.obj [("rank", JsVal.num 2),
              ("name", JsVal.str "TeamOwner"), ("score", JsVal.num 10)]])], none⟩,
          ⟨⟨[⟨1, "owner@jest.co", "TeamOwner", "hash", 10⟩,
              ⟨2, "user1@jest.co", "MemberOne", "hash", 50⟩],
            [⟨3, "JestTeam", 15, 1⟩, ⟨5, "NewTeam", 11, 1⟩], [⟨4, 3, 1⟩, ⟨6, 5, 1⟩], [], 7⟩,
            [], []⟩) :=
  createTeam_success none (fun m => "Error: " ++ m) "owner@jest.co" "NewTeam" 11
    ⟨1, "owner@jest.co", "TeamOwner", "hash", 10⟩
    ⟨⟨[⟨1, "owner@jest.co", "TeamOwner", "hash", 10⟩, ⟨2, "user1@jest.co", "MemberOne", "hash", 50⟩],
      [⟨3, "JestTeam", 15, 1⟩], [⟨4, 3, 1⟩], [], 5⟩, [], []⟩
    (by decide) (by decide) (by decide) (by decide) (by decide)

/-! ## Theorems: updateTeam, deleteTeam, getTeam -/

theorem fail_of_isError (r : Result) (h : r.isError = true) :
    ∃ r1, Result.fail r = .ok r1 ∧ r1.isError = true ∧ r1.value = JsVal.null := by
  cases hr : r.error with
  | none => simp [Result.isError, hr] at h
  | some es =>
    refine ⟨_, by simp only [Result.fail, hr]; rfl, ?_, rfl⟩
    simp only [Result.isError, hr] at h
    simpa [Result.isError, Result.constructor] using h

theorem neutral_isError : (⟨JsVal.null, none⟩ : Result).isError = false := rfl

theorem single_isError (e : ErrItem) : (⟨JsVal.null, some [e]⟩ : Result).isError = true := rfl

theorem fail_single (m : String) (c : Option Int) (x : External) (st : String) :
    Result.fail ⟨JsVal.null, some [ErrItem.error m c (some x) st]⟩
      = .ok ⟨JsVal.null, some [ErrItem.plain x.code x.message]⟩ := rfl

theorem strFalsy_none : strFalsy none = true := rfl

theorem numFalsy_none : numFalsy none = true := rfl

theorem numLe_none_ten : numLe none 10 = true := rfl

theorem strLength_none :
    strLength none = .error (Fault.typeError "Cannot read properties of null (reading length)") :=
  rfl

theorem createTeam_null_name_eq (nodeEnv : Option String) (captureStack : String → String)
    (ownerEmail : Option String) (maxMemberCount : Option Int) (w : World) :
    createTeam (appGlobals nodeEnv captureStack) ownerEmail none maxMemberCount w
      = .error (Fault.typeError "Cannot read properties of null (reading length)") := by
  obtain ⟨w1, h1, _, _⟩ := failIf_app nodeEnv captureStack true
    (some "Team name, owner, and max member count must be provided.") none none none none none w
  have hnone : w.store.teamFindUnique none = none := rfl
  simp only [createTeam, hnone, Option.isSome_none, failIf_false_eq, strFalsy_none, Bool.or_true,
    Bool.true_or, h1, strLength_none, bind, Except.bind]

/-- C11: `createTeam` called with the name `null` throws a TypeError (at `name.length`),
for every owner email, max member count and world; it returns no Result. -/
theorem createTeam_null_name_throws (nodeEnv : Option String) (captureStack : String → String)
    (ownerEmail : Option String) (maxMemberCount : Option Int) (w : World) :
    createTeam (appGlobals nodeEnv captureStack) ownerEmail none maxMemberCount w
        = .error (Fault.typeError "Cannot read properties of null (reading length)")
      ∧ ∀ r w1, createTeam (appGlobals nodeEnv captureStack) ownerEmail none maxMemberCount w
        ≠ .ok (r, w1) := by
  have h := createTeam_null_name_eq nodeEnv captureStack ownerEmail maxMemberCount w
  refine ⟨h, ?_⟩
  intro r w1 hok
  rw [h] at hok
  cases hok

theorem validation5_fail_eq (p1 p2 p3 p4 p5 : Bool) (m1 m2 m3 m4 m5 : String)
    (c1 c2 c3 c4 c5 : Option Int) (x1 x2 x3 x4 x5 : External) (s1 s2 s3 s4 s5 : String)
    (h : p1 = true ∨ p2 = true ∨ p3 = true ∨ p4 = true ∨ p5 = true) :
    (Result.merge
        [⟨JsVal.null, if p1 = true then some [ErrItem.error m1 c1 (some x1) s1] else none⟩,
          ⟨JsVal.null, if p2 = true then some [ErrItem.error m2 c2 (some x2) s2] else none⟩,
          ⟨JsVal.null, if p3 = true then some [ErrItem.error m3 c3 (some x3) s3] else none⟩,
          ⟨JsVal.null, if p4 = true then some [ErrItem.error m4 c4 (some x4) s4] else none⟩,
          ⟨JsVal.null, if p5 = true then some [ErrItem.error m5 c5 (some x5) s5] else none⟩]).isError
        = true
      ∧ Result.fail (Result.merge
        [⟨JsVal.null, if p1 = true then some [ErrItem.error m1 c1 (some x1) s1] else none⟩,
          ⟨JsVal.null, if p2 = true then some [ErrItem.error m2 c2 (some x2) s2] else none⟩,
          ⟨JsVal.null, if p3 = true then some [ErrItem.error m3 c3 (some x3) s3] else none⟩,
          ⟨JsVal.null, if p4 = true then some [ErrItem.error m4 c4 (some x4) s4] else none⟩,
          ⟨JsVal.null, if p5 = true then some [ErrItem.error m5 c5 (some x5) s5] else none⟩])
        = .ok ⟨JsVal.null, some (
            (if p1 = true then [ErrItem.plain x1.code x1.message] else [])
              ++ (if p2 = true then [ErrItem.plain x2.code x2.message] else [])
              ++ (if p3 = true then [ErrItem.plain x3.code x3.message] else [])
              ++ (if p4 = true then [ErrItem.plain x4.code x4.message] else [])
              ++ (if p5 = true then [ErrItem.plain x5.code x5.message] else []))⟩ := by
  cases p1 <;> cases p2 <;> cases p3 <;> cases p4 <;> cases p5 <;> first
    | (exfalso; simp at h; done)
    | exact ⟨rfl, rfl⟩

theorem validation5_pass_eq :
    (Result.merge
        [⟨JsVal.null, none⟩, ⟨JsVal.null, none⟩, ⟨JsVal.null, none⟩, ⟨JsVal.null, none⟩,
          ⟨JsVal.null, none⟩]).isError
      = false := rfl

theorem validation2_pass_eq :
    (Result.merge [⟨JsVal.null, none⟩, ⟨JsVal.null, none⟩]).isError = false := rfl

theorem validation3_pass_eq :
    (Result.merge [⟨JsVal.null, none⟩, ⟨JsVal.null, none⟩, ⟨JsVal.null, none⟩]).isError
      = false := rfl

/-- C12: `updateTeam` applies no partial update. Called with only a new name (no
`maxMemberCount`) it returns a failed Result holding the 400 error "Max member count must be
greater than 10." (`null <= 10` is true) and leaves the store unchanged; called with only a
new `maxMemberCount` (no name) it throws a TypeError at `name.length`. -/
theorem updateTeam_partial_update_fails (nodeEnv : Option String)
    (captureStack : String → String) (teamName ownerEmail : Option String) (n : String)
    (m : Int) (w : World) :
    (∃ errs w1, updateTeam (appGlobals nodeEnv captureStack) teamName ownerEmail
          (some ⟨some n, none⟩) w = .ok (⟨JsVal.null, some errs⟩, w1)
        ∧ ErrItem.plain 400 "Max member count must be greater than 10." ∈ errs
        ∧ w1.store = w.store)
      ∧ updateTeam (appGlobals nodeEnv captureStack) teamName ownerEmail (some ⟨none, some m⟩) w
        = .error (Fault.typeError "Cannot read properties of null (reading length)") := by
  constructor
  · obtain ⟨w1, h1, hs1, _⟩ := failIf_app nodeEnv captureStack
      (w.store.teamFindUnique (some n)).isSome (some "Team name already exists.") (some 409)
      none none none none w
    obtain ⟨w2, h2, hs2, _⟩ := failIf_app nodeEnv captureStack
      (strFalsy teamName || strFalsy ownerEmail)
      (some "Team name and owner must be provided.") none none none none none w1
    obtain ⟨w3, h3, hs3, _⟩ := failIf_app nodeEnv captureStack
      (strFalsy (some n) && numFalsy none)
      (some "Team name or max member count must be provided.") none none none none none w2
    obtain ⟨w4, h4, hs4, _⟩ := failIf_app nodeEnv captureStack (decide (jsLength n < 4))
      (some "Name must be at least 4 characters long.") none none none none none w3
    obtain ⟨w5, h5, hs5, _⟩ := failIf_app nodeEnv captureStack (numLe none 10)
      (some "Max member count must be greater than 10.") none none none none none w4
    simp only [Option.getD_some, Option.getD_none] at h1 h2 h3 h4 h5
    have hv := validation5_fail_eq (w.store.teamFindUnique (some n)).isSome
      (strFalsy teamName || strFalsy ownerEmail) (strFalsy (some n) && numFalsy none)
      (decide (jsLength n < 4)) (numLe none 10) "Team name already exists."
      "Team name and owner must be provided." "Team name or max member count must be provided."
      "Name must be at least 4 characters long." "Max member count must be greater than 10."
      (some 409) (some 400) (some 400) (some 400) (some 400) ⟨409, "Team name already exists."⟩
      ⟨400, "Team name and owner must be provided."⟩
      ⟨400, "Team name or max member count must be provided."⟩
      ⟨400, "Name must be at least 4 characters long."⟩
      ⟨400, "Max member count must be greater than 10."⟩
      (captureStack "Team name already exists.")
      (captureStack "Team name and owner must be provided.")
      (captureStack "Team name or max member count must be provided.")
      (captureStack "Name must be at least 4 characters long.")
      (captureStack "Max member count must be greater than 10.")
      (Or.inr (Or.inr (Or.inr (Or.inr rfl))))
    refine ⟨(if (w.store.teamFindUnique (some n)).isSome = true
          then [ErrItem.plain 409 "Team name already exists."] else [])
        ++ (if (strFalsy teamName || strFalsy ownerEmail) = true
          then [ErrItem.plain 400 "Team name and owner must be provided."] else [])
        ++ (if (strFalsy (some n) && numFalsy none) = true
          then [ErrItem.plain 400 "Team name or max member count must be provided."] else [])
        ++ (if decide (jsLength n < 4) = true
          then [ErrItem.plain 400 "Name must be at least 4 characters long."] else [])
        ++ (if numLe none 10 = true
          then [ErrItem.plain 400 "Max member count must be greater than 10."] else []),
      w5, ?_, ?_, by rw [hs5, hs4, hs3, hs2, hs1]⟩
    · simp only [updateTeam, strLength_some, bind, Except.bind, h1, h2, h3, h4, h5, hv.1, hv.2,
        if_true, pure, Except.pure]
    · simp [numLe_none_ten]
  · obtain ⟨w2, h2, _, _⟩ := failIf_app nodeEnv captureStack
      (strFalsy teamName || strFalsy ownerEmail)
      (some "Team name and owner must be provided.") none none none none none w
    obtain ⟨w3, h3, _, _⟩ := failIf_app nodeEnv captureStack
      (strFalsy none && numFalsy (some m))
      (some "Team name or max member count must be provided.") none none none none none w2
    have hnone : w.store.teamFindUnique none = none := rfl
    simp only [updateTeam, hnone, Option.isSome_none, failIf_false_eq, h2, h3, strLength_none,
      bind, Except.bind, pure, Except.pure]

theorem beq_empty_false (s : String) (h : s ≠ "") : (s == "") = false := by
  simpa using h

theorem bne_true_of_ne (a b : Nat) (h : a ≠ b) : (a != b) = true := by
  simpa [bne_iff_ne] using h

theorem bne_false_of_eq (a b : Nat) (h : a = b) : (a != b) = false := by
  simp [h]

theorem updateTeam_validation_passes (teamName email n : String) (m : Int) (s : Store)
    (htn : teamName ≠ "") (hem : email ≠ "") (hnew : s.teamFindUnique (some n) = none)
    (hlen : 4 ≤ jsLength n) (hm : 10 < m) :
    (s.teamFindUnique (some n)).isSome = false
      ∧ (teamName == "" || email == "") = false
      ∧ (n == "" && m == 0) = false
      ∧ decide (jsLength n < 4) = false
      ∧ decide (m ≤ 10) = false := by
  refine ⟨by rw [hnew]; rfl, ?_, ?_, decide_eq_false (by omega), decide_eq_false (by omega)⟩
  · simp only [beq_empty_false teamName htn, beq_empty_false email hem, Bool.or_self]
  · simp only [str_ne_empty_of_jsLength n hlen, Bool.false_and]

/-- C13: for an existing team `t` and an existing user `u` whose id differs from
`t.ownerId`, `updateTeam` (with update data that passes validation) and `deleteTeam`, invoked
with the email of `u`, return the failed Result whose error list is exactly the one 403
error, and the store is unchanged. -/
theorem non_owner_update_delete_forbidden (nodeEnv : Option String)
    (captureStack : String → String) (teamName email n : String) (m : Int) (t : Team)
    (u : User) (w : World)
    (hteam : w.store.teamFindUnique (some teamName) = some t)
    (huser : w.store.userFindUniqueByEmail (some email) = some u)
    (hne : u.id ≠ t.ownerId) (htn : teamName ≠ "") (hem : email ≠ "")
    (hnew : w.store.teamFindUnique (some n) = none) (hlen : 4 ≤ jsLength n) (hm : 10 < m) :
    (∃ w1, updateTeam (appGlobals nodeEnv captureStack) (some teamName) (some email)
          (some ⟨some n, some m⟩) w
        = .ok (⟨JsVal.null,
            some [ErrItem.plain 403 "Forbidden. Only team owner can update the team."]⟩, w1)
        ∧ w1.store = w.store)
      ∧ (∃ w1, deleteTeam (appGlobals nodeEnv captureStack) (some teamName) (some email) w
        = .ok (⟨JsVal.null,
            some [ErrItem.plain 403 "Forbidden. Only team owner can delete the team."]⟩, w1)
        ∧ w1.store = w.store) := by
  obtain ⟨hp1, hp2, hp3, hp4, hp5⟩ :=
    updateTeam_validation_passes teamName email n m w.store htn hem hnew hlen hm
  have hown : (t.ownerId != u.id) = true := bne_true_of_ne _ _ (Ne.symm hne)
  constructor
  · obtain ⟨w1, h1, hs1, _⟩ := failIf_app nodeEnv captureStack true
      (some "Forbidden. Only team owner can update the team.") (some 403) none none none none w
    simp only [Option.getD_some, Option.getD_none, if_true] at h1
    refine ⟨w1, ?_, hs1⟩
    simp only [updateTeam, strFalsy_some, numFalsy_some, numLe_some, strLength_some, bind,
      Except.bind, hp1, hp2, hp3, hp4, hp5, failIf_false_eq, validation5_pass_eq,
      validation2_pass_eq, huser, hteam, Option.isNone_some, hown, h1, single_isError,
      fail_single, pure, Except.pure, Bool.false_eq_true, if_false, if_true]
  · obtain ⟨w1, h1, hs1, _⟩ := failIf_app nodeEnv captureStack true
      (some "Forbidden. Only team owner can delete the team.") (some 403) none none none none w
    simp only [Option.getD_some, Option.getD_none, if_true] at h1
    refine ⟨w1, ?_, hs1⟩
    simp only [deleteTeam, strFalsy_some, bind, Except.bind, hp2, failIf_false_eq,
      neutral_isError, validation2_pass_eq, huser, hteam, Option.isNone_some, hown, h1,
      single_isError, fail_single, pure, Except.pure, Bool.false_eq_true, if_false, if_true]

/-- A witness for `non_owner_update_delete_forbidden`: user 2 is not the owner (user 1) of
"JestTeam". -/
theorem non_owner_update_delete_forbidden_witness :
    (∃ w1, updateTeam (appGlobals none fun m => "Error: " ++ m) (some "JestTeam")
          (some "user1@jest.co") (some ⟨some "NewJestTeam", some 20⟩)
          ⟨⟨[⟨1, "owner@jest.co", "TeamOwner", "hash", 10⟩,
              ⟨2, "user1@jest.co", "MemberOne", "hash", 50⟩],
            [⟨3, "JestTeam", 15, 1⟩], [⟨4, 3, 1⟩, ⟨5, 3, 2⟩], [], 6⟩, [], []⟩
        = .ok (⟨JsVal.null,
            some [ErrItem.plain 403 "Forbidden. Only team owner can update the team."]⟩, w1)
        ∧ w1.store = ⟨[⟨1, "owner@jest.co", "TeamOwner", "hash", 10⟩,
              ⟨2, "user1@jest.co", "MemberOne", "hash", 50⟩],
            [⟨3, "JestTeam", 15, 1⟩], [⟨4, 3, 1⟩, ⟨5, 3, 2⟩], [], 6⟩)
      ∧ (∃ w1, deleteTeam (appGlobals none fun m => "Error: " ++ m) (some "JestTeam")
          (some "user1@jest.co")
          ⟨⟨[⟨1, "owner@jest.co", "TeamOwner", "hash", 10⟩,
              ⟨2, "user1@jest.co", "MemberOne", "hash", 50⟩],
            [⟨3, "JestTeam", 15, 1⟩], [⟨4, 3, 1⟩, ⟨5, 3, 2⟩], [], 6⟩, [], []⟩
        = .ok (⟨JsVal.null,
            some [ErrItem.plain 403 "Forbidden. Only team owner can delete the team."]⟩, w1)
        ∧ w1.store = ⟨[⟨1, "owner@jest.co", "TeamOwner", "hash", 10⟩,
              ⟨2, "user1@jest.co", "MemberOne", "hash", 50⟩],
            [⟨3, "JestTeam", 15, 1⟩], [⟨4, 3, 1⟩, ⟨5, 3, 2⟩], [], 6⟩) :=
  non_owner_update_delete_forbidden none (fun m => "Error: " ++ m) "JestTeam" "user1@jest.co"
    "NewJestTeam" 20 ⟨3, "JestTeam", 15, 1⟩ ⟨2, "user1@jest.co", "MemberOne", "hash", 50⟩
    ⟨⟨[⟨1, "owner@jest.co", "TeamOwner", "hash", 10⟩,
        ⟨2, "user1@jest.co", "MemberOne", "hash", 50⟩],
      [⟨3, "JestTeam", 15, 1⟩], [⟨4, 3, 1⟩, ⟨5, 3, 2⟩], [], 6⟩, [], []⟩
    (by decide) (by decide) (by decide) (by decide) (by decide) (by decide) (by decide)
    (by decide)

theorem teamFindUnique_some (s : Store) (name : String) (t : Team)
    (h : s.teamFindUnique (some name) = some t) : t ∈ s.teams ∧ t.name = name := by
  simp only [Store.teamFindUnique] at h
  exact ⟨List.mem_of_find?_eq_some h, by simpa using List.find?_some h⟩

theorem teams_filter_id_eq (teams : List Team) (t : Team)
    (hnd : (teams.map fun x => x.id).Nodup) (ht : t ∈ teams) :
    (teams.filter fun x => x.id != t.id) = teams.filter fun x => decide (x ≠ t) := by
  apply List.filter_congr
  intro x hx
  by_cases hxt : x = t
  · subst hxt
    simp
  · have hid : x.id ≠ t.id := fun h => hxt (List.inj_on_of_nodup_map hnd hx ht h)
    simp [hxt, hid]

theorem memberships_filter_ids_eq (ms : List TeamMembership) (teamId : Nat)
    (hnd : (ms.map fun x => x.id).Nodup) :
    (ms.filter fun m =>
        !((ms.filter fun m => m.teamId == teamId).map fun membership => membership.id).contains m.id)
      = ms.filter fun m => decide (m.teamId ≠ teamId) := by
  apply List.filter_congr
  intro m hm
  rw [Bool.eq_iff_iff]
  simp only [Bool.not_eq_true', List.contains_eq_any_beq, List.any_eq_false, List.mem_map,
    List.mem_filter, beq_iff_eq, decide_eq_true_eq, ne_eq]
  constructor
  · intro h hmt
    exact h m.id ⟨m, ⟨hm, hmt⟩, rfl⟩ rfl
  · intro hmt x hx hxm
    obtain ⟨m2, ⟨hm2, hm2t⟩, hid⟩ := hx
    have : m2 = m := List.inj_on_of_nodup_map hnd hm2 hm (by rw [hid, hxm])
    subst this
    exact hmt hm2t

theorem teamFindUnique_after_delete (s : Store) (t : Team) (ms : List TeamMembership)
    (hnd : (s.teams.map fun x => x.name).Nodup) (ht : t ∈ s.teams) :
    Store.teamFindUnique
        ⟨s.users, s.teams.filter fun x => decide (x ≠ t), ms, s.requests, s.nextId⟩ (some t.name)
      = none := by
  simp only [Store.teamFindUnique, List.find?_eq_none, List.mem_filter, decide_eq_true_eq,
    beq_iff_eq]
  intro x ⟨hx, hxt⟩ hname
  exact hxt (List.inj_on_of_nodup_map hnd hx ht hname)

/-- C14: for an existing team `t` and its owner, `deleteTeam` returns the success Result
with `null` value; afterwards the row of `t` and the memberships with `teamId = t.id` are
gone, every other team and membership, and all users (and requests), are unchanged, and
`getTeam(t.name)` returns the failed Result with the 404 error "Team does not exist.". -/
theorem deleteTeam_by_owner (nodeEnv : Option String) (captureStack : String → String)
    (teamName email : String) (t : Team) (owner : User) (w : World)
    (hteam : w.store.teamFindUnique (some teamName) = some t)
    (howner : w.store.userFindUniqueByEmail (some email) = some owner)
    (hown : t.ownerId = owner.id) (htn : teamName ≠ "") (hem : email ≠ "")
    (htid : (w.store.teams.map fun x => x.id).Nodup)
    (htname : (w.store.teams.map fun x => x.name).Nodup)
    (hmid : (w.store.memberships.map fun x => x.id).Nodup) :
    deleteTeam (appGlobals nodeEnv captureStack) (some teamName) (some email) w
        = .ok (⟨JsVal.null, none⟩,
            ⟨⟨w.store.users, w.store.teams.filter fun x => decide (x ≠ t),
              w.store.memberships.filter fun x => decide (x.teamId ≠ t.id),
              w.store.requests, w.store.nextId⟩, w.log, w.console⟩)
      ∧ ∃ w2, getTeam (appGlobals nodeEnv captureStack) (some t.name)
            ⟨⟨w.store.users, w.store.teams.filter fun x => decide (x ≠ t),
              w.store.memberships.filter fun x => decide (x.teamId ≠ t.id),
              w.store.requests, w.store.nextId⟩, w.log, w.console⟩
          = .ok (⟨JsVal.null, some [ErrItem.plain 404 "Team does not exist."]⟩, w2)
        ∧ w2.store = ⟨w.store.users, w.store.teams.filter fun x => decide (x ≠ t),
              w.store.memberships.filter fun x => decide (x.teamId ≠ t.id),
              w.store.requests, w.store.nextId⟩ := by
  obtain ⟨ht, hname⟩ := teamFindUnique_some w.store teamName t hteam
  have hp : (teamName == "" || email == "") = false := by
    simp only [beq_empty_false teamName htn, beq_empty_false email hem, Bool.or_self]
  have hbne : (t.ownerId != owner.id) = false := bne_false_of_eq _ _ hown
  have hany : (w.store.teams.any fun x => x.id == t.id) = true :=
    List.any_eq_true.mpr ⟨t, ht, by simp⟩
  constructor
  · simp only [deleteTeam, strFalsy_some, bind, Except.bind, hp, failIf_false_eq,
      neutral_isError, validation2_pass_eq, howner, hteam, Option.isNone_some, hbne, pure,
      Except.pure, Bool.false_eq_true, if_false, Store.membershipFindMany,
      Store.membershipDeleteMany, Store.teamDelete, hany, if_true,
      memberships_filter_ids_eq w.store.memberships t.id hmid,
      teams_filter_id_eq w.store.teams t htid ht, Result.ok, Option.getD_none,
      Result.constructor]
  · have hfind := teamFindUnique_after_delete w.store t
      (w.store.memberships.filter fun x => decide (x.teamId ≠ t.id)) htname ht
    have hpn : (t.name == "") = false := by
      rw [hname]
      exact beq_empty_false teamName htn
    obtain ⟨w2, h2, hs2, _⟩ := failIf_app nodeEnv captureStack true
      (some "Team does not exist.") (some 404) none none none none
      ⟨⟨w.store.users, w.store.teams.filter fun x => decide (x ≠ t),
        w.store.memberships.filter fun x => decide (x.teamId ≠ t.id),
        w.store.requests, w.store.nextId⟩, w.log, w.console⟩
    simp only [Option.getD_some, Option.getD_none, if_true] at h2
    refine ⟨w2, ?_, hs2⟩
    simp only [getTeam, strFalsy_some, hpn, failIf_false_eq, neutral_isError, bind, Except.bind,
      Store.teamFindUniqueWithOwner, hfind, Option.map_none', Option.isNone_none, h2,
      single_isError, fail_single, pure, Except.pure, Bool.false_eq_true, if_false, if_true]

/-- A witness for `deleteTeam_by_owner`: the owner deletes "JestTeam", which has two
memberships, while another team and its membership stay. -/
theorem deleteTeam_by_owner_witness :
    deleteTeam (appGlobals none fun m => "Error: " ++ m) (some "JestTeam") (some "owner@jest.co")
        ⟨⟨[⟨1, "owner@jest.co", "TeamOwner", "hash", 10⟩,
            ⟨2, "user1@jest.co", "MemberOne", "hash", 50⟩],
          [⟨3, "JestTeam", 15, 1⟩, ⟨6, "OtherTeam", 12, 2⟩], [⟨4, 3, 1⟩, ⟨5, 3, 2⟩, ⟨7, 6, 2⟩], [],
          8⟩, [], []⟩
      = .ok (⟨JsVal.null, none⟩,
          ⟨⟨[⟨1, "owner@jest.co", "TeamOwner", "hash", 10⟩,
              ⟨2, "user1@jest.co", "MemberOne", "hash", 50⟩],
            [⟨6, "OtherTeam", 12, 2⟩], [⟨7, 6, 2⟩], [], 8⟩, [], []⟩) :=
  (deleteTeam_by_owner none (fun m => "Error: " ++ m) "JestTeam" "owner@jest.co"
    ⟨3, "JestTeam", 15, 1⟩ ⟨1, "owner@jest.co", "TeamOwner", "hash", 10⟩
    ⟨⟨[⟨1, "owner@jest.co", "TeamOwner", "hash", 10⟩,
        ⟨2, "user1@jest.co", "MemberOne", "hash", 50⟩],
      [⟨3, "JestTeam", 15, 1⟩, ⟨6, "OtherTeam", 12, 2⟩], [⟨4, 3, 1⟩, ⟨5, 3, 2⟩, ⟨7, 6, 2⟩], [],
      8⟩, [], []⟩
    (by decide) (by decide) (by decide) (by decide) (by decide) (by decide) (by decide)
    (by decide)).1

/-! ## Theorems: the Team DTO -/

theorem foldl_scores_eq_sum (members : List (TeamMembership × User)) (acc : Int) :
    members.foldl (fun acc membership => acc + membership.2.score) acc
      = acc + (members.map fun membership => membership.2.score).sum := by
  induction members generalizing acc with
  | nil => simp
  | cons m ms ih =>
    simp only [List.foldl_cons, ih, List.map_cons, List.sum_cons]
    omega

theorem int_or_zero (x : Int) : (if (x != 0) = true then x else 0) = x := by
  by_cases h : x = 0
  · simp [h]
  · simp [h]

theorem mapM_mapToUserDTO (s : Store) (members : List (TeamMembership × User)) :
    (members.mapM fun member => mapToUserDTO s ⟨member.2, none⟩ false none)
      = .ok (members.map fun member =>
          JsVal.obj [("rank", JsVal.num ((s.userCountScoreGt member.2.score : Int) + 1)),
            ("name", JsVal.str member.2.name), ("score", JsVal.num member.2.score)]) := by
  induction members with
  | nil => rfl
  | cons m ms ih =>
    rw [List.mapM_cons, ih]
    simp only [mapToUserDTO, Option.getD_none, beq_self_eq_true, if_true,
      Bool.false_eq_true, if_false, bind, Except.bind, pure, Except.pure, List.map_cons]

theorem mapToTeamDTO_eq (s : Store) (team : Team) (owner : User) (includeMembers : Bool) :
    mapToTeamDTO s team owner includeMembers
      = .ok (JsVal.obj (
          [("name", JsVal.str team.name), ("ownerName", JsVal.str owner.name),
            ("totalScore", JsVal.num
              ((s.membershipFindManyWithUser team.id).map fun m => m.2.score).sum),
            ("memberNumber", JsVal.num ((s.membershipFindManyWithUser team.id).length : Int)),
            ("availableMemberNumber", JsVal.num
              (team.maxMemberCount - ((s.membershipFindManyWithUser team.id).length : Int)))]
          ++ if includeMembers = true then
              [("members", JsVal.arr ((s.membershipFindManyWithUser team.id).map fun member =>
                JsVal.obj [("rank", JsVal.num ((s.userCountScoreGt member.2.score : Int) + 1)),
                  ("name", JsVal.str member.2.name), ("score", JsVal.num member.2.score)]))]
            else [])) := by
  cases includeMembers with
  | false =>
    simp only [mapToTeamDTO, foldl_scores_eq_sum, zero_add, int_or_zero, Bool.false_eq_true,
      if_false, pure, Except.pure, List.append_nil]
  | true =>
    simp only [mapToTeamDTO, foldl_scores_eq_sum, zero_add, int_or_zero, if_true,
      mapM_mapToUserDTO, bind, Except.bind, pure, Except.pure]

theorem findManyWithUser_fst (s : Store) (teamId : Nat)
    (hfk : ∀ m ∈ s.memberships, ∃ u ∈ s.users, u.id = m.userId) :
    (s.membershipFindManyWithUser teamId).map (fun m => m.1)
      = s.memberships.filter fun m => m.teamId == teamId := by
  unfold Store.membershipFindManyWithUser
  have key : ∀ l : List TeamMembership, (∀ m ∈ l, ∃ u ∈ s.users, u.id = m.userId) →
      (l.filterMap fun m => (s.users.find? fun u => u.id == m.userId).map fun u => (m, u)).map
        (fun m => m.1) = l := by
    intro l hl
    induction l with
    | nil => rfl
    | cons m ms ih =>
      obtain ⟨u, hu, hid⟩ := hl m (List.mem_cons_self m ms)
      have hsome : ∃ u2, (s.users.find? fun u => u.id == m.userId) = some u2 := by
        cases hf : s.users.find? fun u => u.id == m.userId with
        | some u2 => exact ⟨u2, rfl⟩
        | none =>
          rw [List.find?_eq_none] at hf
          exact absurd (by simpa using hid) (hf u hu)
      obtain ⟨u2, hu2⟩ := hsome
      simp only [List.filterMap_cons, hu2, Option.map_some', List.map_cons]
      rw [ih fun m2 hm2 => hl m2 (List.mem_cons_of_mem m hm2)]
  exact key _ fun m hm => hfk m (List.mem_filter.mp hm).1

theorem teamDTO_get (n o : String) (ts mn av : Int) (inc : Bool) (x : JsVal) :
    (JsVal.obj ([("name", JsVal.str n), ("ownerName", JsVal.str o), ("totalScore", JsVal.num ts),
          ("memberNumber", JsVal.num mn), ("availableMemberNumber", JsVal.num av)]
        ++ if inc = true then [("members", x)] else [])).get "totalScore" = some (JsVal.num ts)
      ∧ (JsVal.obj ([("name", JsVal.str n), ("ownerName", JsVal.str o),
          ("totalScore", JsVal.num ts), ("memberNumber", JsVal.num mn),
          ("availableMemberNumber", JsVal.num av)]
        ++ if inc = true then [("members", x)] else [])).get "memberNumber" = some (JsVal.num mn)
      ∧ (JsVal.obj ([("name", JsVal.str n), ("ownerName", JsVal.str o),
          ("totalScore", JsVal.num ts), ("memberNumber", JsVal.num mn),
          ("availableMemberNumber", JsVal.num av)]
        ++ if inc = true then [("members", x)] else [])).get "availableMemberNumber"
          = some (JsVal.num av)
      ∧ (JsVal.obj ([("name", JsVal.str n), ("ownerName", JsVal.str o),
          ("totalScore", JsVal.num ts), ("memberNumber", JsVal.num mn),
          ("availableMemberNumber", JsVal.num av)]
        ++ if inc = true then [("members", x)] else [])).get "members"
          = if inc = true then some x else none := by
  cases inc <;> exact ⟨rfl, rfl, rfl, rfl⟩

theorem failIf_app_ok (nodeEnv : Option String) (captureStack : String → String)
    (predicate : Bool) (externalMessage : Option String) (externalCode : Option Int)
    (internalMessage : Option String) (internalCode : Option Int)
    (error : Option Cause) (req : Option JsVal) (w : World) :
    ∃ r1 w1, Result.failIf (appGlobals nodeEnv captureStack) predicate externalMessage
      externalCode internalMessage internalCode error req w = .ok (r1, w1) := by
  obtain ⟨w1, h, _⟩ := failIf_app nodeEnv captureStack predicate externalMessage externalCode
    internalMessage internalCode error req w
  exact ⟨_, w1, h⟩

theorem failIf_app_eq (nodeEnv : Option String) (captureStack : String → String)
    (predicate : Bool) (externalMessage : Option String) (externalCode : Option Int)
    (internalMessage : Option String) (internalCode : Option Int)
    (error : Option Cause) (req : Option JsVal) (w : World) :
    Result.failIf (appGlobals nodeEnv captureStack) predicate externalMessage externalCode
        internalMessage internalCode error req w
      = .ok ((appFailIf nodeEnv captureStack predicate externalMessage externalCode
          internalMessage internalCode error req w).1,
        (appFailIf nodeEnv captureStack predicate externalMessage externalCode
          internalMessage internalCode error req w).2) := by
  obtain ⟨r1, w1, h1⟩ := failIf_app_ok nodeEnv captureStack predicate externalMessage
    externalCode internalMessage internalCode error req w
  simp only [appFailIf, h1]

theorem appFailIf_store (nodeEnv : Option String) (captureStack : String → String)
    (predicate : Bool) (externalMessage : Option String) (externalCode : Option Int)
    (internalMessage : Option String) (internalCode : Option Int)
    (error : Option Cause) (req : Option JsVal) (w : World) :
    (appFailIf nodeEnv captureStack predicate externalMessage externalCode
      internalMessage internalCode error req w).2.store = w.store := by
  obtain ⟨w1, h1, hs1, _⟩ := failIf_app nodeEnv captureStack predicate externalMessage
    externalCode internalMessage internalCode error req w
  simp only [appFailIf, h1, hs1]

theorem fail_isError_of_ok (x r : Result) (h : Result.fail x = .ok r)
    (hx : x.isError = true) : r.isError = true := by
  obtain ⟨r1, h1, he, _⟩ := fail_of_isError x hx
  rw [h1] at h
  cases h
  exact he

theorem ok_value_of_dto (s : Store) (team : Team) (owner : User) (includeMembers : Bool)
    (dto : JsVal) (h : mapToTeamDTO s team owner includeMembers = .ok dto) :
    Result.ok (some dto) = ⟨dto, none⟩ := by
  rw [mapToTeamDTO_eq] at h
  cases h
  rfl

theorem mapM_ok_forall2 {α β : Type} (F : α → Except Fault β) (l : List α) :
    ∀ out : List β, l.mapM F = .ok out → List.Forall₂ (fun x d => F x = .ok d) l out := by
  induction l with
  | nil =>
    intro out h
    simp only [List.mapM_nil, pure, Except.pure] at h
    cases h
    exact List.Forall₂.nil
  | cons x xs ih =>
    intro out h
    rw [List.mapM_cons] at h
    simp only [bind, Except.bind, pure, Except.pure] at h
    split at h
    · cases h
    · rename_i d hd
      split at h
      · cases h
      · rename_i rest hrest
        cases h
        exact List.Forall₂.cons hd (ih rest hrest)

theorem mapToTeamDTO_members (s : Store) (team : Team) (owner : User) (includeMembers : Bool) :
    ∃ dto, mapToTeamDTO s team owner includeMembers = .ok dto
      ∧ (dto.get "members").isSome = includeMembers := by
  refine ⟨_, mapToTeamDTO_eq s team owner includeMembers, ?_⟩
  rw [(teamDTO_get _ _ _ _ _ includeMembers _).2.2.2]
  cases includeMembers <;> rfl

theorem updateTeam_null_name_eq (nodeEnv : Option String) (captureStack : String → String)
    (teamName ownerEmail : Option String) (maxMemberCount : Option Int) (w : World) :
    updateTeam (appGlobals nodeEnv captureStack) teamName ownerEmail
        (some ⟨none, maxMemberCount⟩) w
      = .error (Fault.typeError "Cannot read properties of null (reading length)") := by
  obtain ⟨r2, w2, h2⟩ := failIf_app_ok nodeEnv captureStack
    (strFalsy teamName || strFalsy ownerEmail)
    (some "Team name and owner must be provided.") none none none none none w
  obtain ⟨r3, w3, h3⟩ := failIf_app_ok nodeEnv captureStack
    (strFalsy none && numFalsy maxMemberCount)
    (some "Team name or max member count must be provided.") none none none none none w2
  have hnone : w.store.teamFindUnique none = none := rfl
  simp only [updateTeam, hnone, Option.isSome_none, failIf_false_eq, h2, h3, strLength_none,
    bind, Except.bind, pure, Except.pure]

theorem getTeam_value_is_dto (nodeEnv : Option String) (captureStack : String → String)
    (name : Option String) (w w1 : World) (r : Result)
    (h : getTeam (appGlobals nodeEnv captureStack) name w = .ok (r, w1))
    (hr : r.isError = false) :
    ∃ team owner, w.store.teamFindUniqueWithOwner name = some (team, some owner)
      ∧ mapToTeamDTO w.store team owner true = .ok r.value := by
  simp only [getTeam, failIf_app_eq, bind, Except.bind, pure, Except.pure,
    appFailIf_store] at h
  repeat' split at h
  all_goals (cases h; try simp only [appFailIf_store] at *)
  all_goals first
    | exact absurd (fail_isError_of_ok _ _ (by assumption) (by assumption)) (by simp [hr])
    | (refine ⟨_, _, by assumption, ?_⟩
       rw [ok_value_of_dto _ _ _ _ _ (by assumption)]
       assumption)

theorem createTeam_value_is_dto (nodeEnv : Option String)
    (captureStack : String → String) (ownerEmail name : Option String)
    (maxMemberCount : Option Int) (w w1 : World) (r : Result)
    (h : createTeam (appGlobals nodeEnv captureStack) ownerEmail name maxMemberCount w
      = .ok (r, w1))
    (hr : r.isError = false) :
    ∃ owner n m team, w.store.userFindUniqueByEmail ownerEmail = some owner
      ∧ name = some n ∧ maxMemberCount = some m
      ∧ w.store.teamCreate n m owner.id owner.id = .ok (team, w1.store)
      ∧ mapToTeamDTO w1.store team owner true = .ok r.value := by
  simp only [createTeam, failIf_app_eq, bind, Except.bind, pure, Except.pure,
    appFailIf_store] at h
  repeat' split at h
  all_goals (cases h; try simp only [appFailIf_store] at *)
  all_goals first
    | exact absurd (fail_isError_of_ok _ _ (by assumption) (by assumption)) (by simp [hr])
    | (refine ⟨_, _, _, _, by assumption, rfl, rfl, by assumption, ?_⟩
       rw [ok_value_of_dto _ _ _ _ _ (by assumption)]
       assumption)

theorem updateTeam_value_is_dto (nodeEnv : Option String)
    (captureStack : String → String) (teamName ownerEmail : Option String)
    (updateData : Option UpdateData) (w w1 : World) (r : Result)
    (h : updateTeam (appGlobals nodeEnv captureStack) teamName ownerEmail updateData w
      = .ok (r, w1))
    (hr : r.isError = false) :
    ∃ data owner team updatedTeam, updateData = some data
      ∧ w.store.userFindUniqueByEmail ownerEmail = some owner
      ∧ w.store.teamFindUnique teamName = some team
      ∧ w.store.teamUpdate team.id data.name data.maxMemberCount = .ok (updatedTeam, w1.store)
      ∧ mapToTeamDTO w1.store updatedTeam owner true = .ok r.value := by
  simp only [updateTeam, failIf_app_eq, bind, Except.bind, pure, Except.pure,
    appFailIf_store] at h
  repeat' split at h
  all_goals (cases h; try simp only [appFailIf_store] at *)
  all_goals first
    | exact absurd (fail_isError_of_ok _ _ (by assumption) (by assumption)) (by simp [hr])
    | (refine ⟨_, _, _, _, rfl, by assumption, by assumption, by assumption, ?_⟩
       rw [ok_value_of_dto _ _ _ _ _ (by assumption)]
       assumption)

theorem mapToTeamDTO_no_members (s : Store) (team : Team) (owner : User) :
    ∃ dto, mapToTeamDTO s team owner false = .ok dto ∧ dto.get "members" = none := by
  refine ⟨_, mapToTeamDTO_eq s team owner false, ?_⟩
  rw [(teamDTO_get _ _ _ _ _ false _).2.2.2]
  rfl

theorem getAllTeams_mapM_no_members (s : Store) (l : List (Team × Option User))
    (dtos : List JsVal)
    (h : (l.mapM fun team =>
        match team.2 with
        | some owner => mapToTeamDTO s team.1 owner false
        | none => .error (Fault.typeError "Cannot read properties of null (reading name)"))
      = .ok dtos) :
    dtos.length = l.length ∧ ∀ d ∈ dtos, d.get "members" = none := by
  induction l generalizing dtos with
  | nil =>
    simp only [List.mapM_nil, pure, Except.pure] at h
    cases h
    simp
  | cons x xs ih =>
    obtain ⟨team, owner⟩ := x
    rw [List.mapM_cons] at h
    cases owner with
    | none => simp [bind, Except.bind] at h
    | some owner =>
      obtain ⟨dto, hd, hm⟩ := mapToTeamDTO_no_members s team owner
      simp only [hd, bind, Except.bind, pure, Except.pure] at h
      split at h
      · cases h
      · rename_i rest hrest
        cases h
        obtain ⟨hlen, hall⟩ := ih rest hrest
        refine ⟨by simp [hlen], ?_⟩
        intro d hdmem
        rcases List.mem_cons.mp hdmem with rfl | hmem
        · exact hm
        · exact hall d hmem

theorem getAllTeams_mapM_total (s : Store) (l : List (Team × Option User))
    (hl : ∀ x ∈ l, ∃ owner, x.2 = some owner) :
    ∃ dtos, (l.mapM fun team =>
        match team.2 with
        | some owner => mapToTeamDTO s team.1 owner false
        | none => .error (Fault.typeError "Cannot read properties of null (reading name)"))
      = .ok dtos := by
  induction l with
  | nil => exact ⟨[], rfl⟩
  | cons x xs ih =>
    obtain ⟨dtos, hd⟩ := ih fun y hy => hl y (List.mem_cons_of_mem x hy)
    obtain ⟨owner, ho⟩ := hl x (List.mem_cons_self x xs)
    obtain ⟨dto, hdto, _⟩ := mapToTeamDTO_no_members s x.1 owner
    refine ⟨dto :: dtos, ?_⟩
    rw [List.mapM_cons, hd]
    simp only [ho, hdto, bind, Except.bind, pure, Except.pure]

theorem teamFindManyWithOwner_total (s : Store)
    (hfk : ∀ t ∈ s.teams, ∃ u ∈ s.users, u.id = t.ownerId) :
    ∀ x ∈ s.teamFindManyWithOwner, ∃ owner, x.2 = some owner := by
  intro x hx
  simp only [Store.teamFindManyWithOwner, List.mem_map] at hx
  obtain ⟨t, ht, rfl⟩ := hx
  obtain ⟨u, hu, hid⟩ := hfk t ht
  cases hf : s.users.find? fun u => u.id == t.ownerId with
  | some u2 => exact ⟨u2, rfl⟩
  | none =>
    rw [List.find?_eq_none] at hf
    exact absurd (by simpa using hid) (hf u hu)

theorem dto_has_members (s : Store) (team : Team) (owner : User) (d : JsVal)
    (h : mapToTeamDTO s team owner true = .ok d) : (d.get "members").isSome = true := by
  obtain ⟨dto, hd, hm⟩ := mapToTeamDTO_members s team owner true
  rw [hd] at h
  cases h
  exact hm

theorem getAllTeams_dtos_forall2 (s : Store) (dtos : List JsVal)
    (h : (s.teamFindManyWithOwner.mapM fun team =>
        match team.2 with
        | some owner => mapToTeamDTO s team.1 owner false
        | none => .error (Fault.typeError "Cannot read properties of null (reading name)"))
      = .ok dtos) :
    List.Forall₂
      (fun t d => ∃ owner, (s.users.find? fun u => u.id == t.ownerId) = some owner
        ∧ mapToTeamDTO s t owner false = .ok d) s.teams dtos := by
  have hall := mapM_ok_forall2 _ _ dtos h
  unfold Store.teamFindManyWithOwner at hall
  rw [List.forall₂_map_left_iff] at hall
  refine hall.imp ?_
  intro t d hd
  cases hf : s.users.find? fun u => u.id == t.ownerId with
  | none =>
    simp only [hf] at hd
    cases hd
  | some owner =>
    simp only [hf] at hd
    exact ⟨owner, rfl, hd⟩

/-- C15: for every store, team and owner, `mapToTeamDTO` returns a DTO whose `totalScore`
is the sum of the scores of the members that `findMany` returns (0 for none), whose
`memberNumber` is their number and whose `availableMemberNumber` is
`maxMemberCount - memberNumber`, not clamped, so that the two add up to `maxMemberCount`;
the `members` field is present exactly when `includeMembers` is true. When every membership
refers to an existing user, the members are exactly the memberships of the team. The value
of `getAllTeams` is the array that holds, for each team of the store in order, the DTO
that `mapToTeamDTO` returns for the team and its owner with `includeMembers` false, and
these have no `members` field. The value of a success of `getTeam`, `createTeam` and
`updateTeam` is the DTO that `mapToTeamDTO` returns with `includeMembers` true for the team
found, created or updated and its owner, in the store after the call, and it has the
`members` field. -/
theorem teamDTO_fields_and_members (nodeEnv : Option String) (captureStack : String → String)
    (s : Store) (team : Team) (owner : User) (includeMembers : Bool) :
    (∃ dto, mapToTeamDTO s team owner includeMembers = .ok dto
        ∧ dto.get "totalScore"
          = some (JsVal.num ((s.membershipFindManyWithUser team.id).map fun m => m.2.score).sum)
        ∧ dto.get "memberNumber"
          = some (JsVal.num ((s.membershipFindManyWithUser team.id).length : Int))
        ∧ dto.get "availableMemberNumber"
          = some (JsVal.num
              (team.maxMemberCount - ((s.membershipFindManyWithUser team.id).length : Int)))
        ∧ ((s.membershipFindManyWithUser team.id).length : Int)
            + (team.maxMemberCount - ((s.membershipFindManyWithUser team.id).length : Int))
          = team.maxMemberCount
        ∧ (dto.get "members").isSome = includeMembers)
      ∧ ((∀ m ∈ s.memberships, ∃ u ∈ s.users, u.id = m.userId) →
          (s.membershipFindManyWithUser team.id).map (fun m => m.1)
            = s.memberships.filter fun m => m.teamId == team.id)
      ∧ (∀ w : World, (∀ t ∈ w.store.teams, ∃ u ∈ w.store.users, u.id = t.ownerId) →
          ∃ dtos, getAllTeams w = .ok (⟨JsVal.arr dtos, none⟩, w)
            ∧ dtos.length = w.store.teams.length
            ∧ (∀ d ∈ dtos, d.get "members" = none)
            ∧ List.Forall₂
              (fun t d => ∃ o, (w.store.users.find? fun u => u.id == t.ownerId) = some o
                ∧ mapToTeamDTO w.store t o false = .ok d) w.store.teams dtos)
      ∧ (∀ (w w1 : World) (r : Result), getAllTeams w = .ok (r, w1) →
          ∃ dtos, r.value = JsVal.arr dtos ∧ (∀ d ∈ dtos, d.get "members" = none)
            ∧ List.Forall₂
              (fun t d => ∃ o, (w.store.users.find? fun u => u.id == t.ownerId) = some o
                ∧ mapToTeamDTO w.store t o false = .ok d) w.store.teams dtos)
      ∧ (∀ (name : Option String) (w w1 : World) (r : Result),
          getTeam (appGlobals nodeEnv captureStack) name w = .ok (r, w1) → r.isError = false →
          (r.value.get "members").isSome = true
            ∧ ∃ t o, w.store.teamFindUniqueWithOwner name = some (t, some o)
              ∧ mapToTeamDTO w.store t o true = .ok r.value)
      ∧ (∀ (ownerEmail name : Option String) (maxMemberCount : Option Int) (w w1 : World)
          (r : Result),
          createTeam (appGlobals nodeEnv captureStack) ownerEmail name maxMemberCount w
            = .ok (r, w1) → r.isError = false →
          (r.value.get "members").isSome = true
            ∧ ∃ o n m t, w.store.userFindUniqueByEmail ownerEmail = some o
              ∧ name = some n ∧ maxMemberCount = some m
              ∧ w.store.teamCreate n m o.id o.id = .ok (t, w1.store)
              ∧ mapToTeamDTO w1.store t o true = .ok r.value)
      ∧ (∀ (teamName ownerEmail : Option String) (updateData : Option UpdateData)
          (w w1 : World) (r : Result),
          updateTeam (appGlobals nodeEnv captureStack) teamName ownerEmail updateData w
            = .ok (r, w1) → r.isError = false →
          (r.value.get "members").isSome = true
            ∧ ∃ data o t updated, updateData = some data
              ∧ w.store.userFindUniqueByEmail ownerEmail = some o
              ∧ w.store.teamFindUnique teamName = some t
              ∧ w.store.teamUpdate t.id data.name data.maxMemberCount = .ok (updated, w1.store)
              ∧ mapToTeamDTO w1.store updated o true = .ok r.value) := by
  refine ⟨?_, findManyWithUser_fst s team.id, ?_, ?_, ?_, ?_, ?_⟩
  · obtain ⟨h1, h2, h3, h4⟩ := teamDTO_get team.name owner.name
      ((s.membershipFindManyWithUser team.id).map fun m => m.2.score).sum
      ((s.membershipFindManyWithUser team.id).length : Int)
      (team.maxMemberCount - ((s.membershipFindManyWithUser team.id).length : Int))
      includeMembers
      (JsVal.arr ((s.membershipFindManyWithUser team.id).map fun member =>
        JsVal.obj [("rank", JsVal.num ((s.userCountScoreGt member.2.score : Int) + 1)),
          ("name", JsVal.str member.2.name), ("score", JsVal.num member.2.score)]))
    refine ⟨_, mapToTeamDTO_eq s team owner includeMembers, h1, h2, h3, by omega, ?_⟩
    rw [h4]
    cases includeMembers <;> rfl
  · intro w hfk
    obtain ⟨dtos, hd⟩ := getAllTeams_mapM_total w.store w.store.teamFindManyWithOwner
      (teamFindManyWithOwner_total w.store hfk)
    obtain ⟨hlen, hall⟩ := getAllTeams_mapM_no_members w.store _ dtos hd
    refine ⟨dtos, ?_, ?_, hall, getAllTeams_dtos_forall2 w.store dtos hd⟩
    · simp only [getAllTeams, hd, bind, Except.bind, pure, Except.pure, Result.ok,
        Result.constructor]
    · rw [hlen]
      simp [Store.teamFindManyWithOwner]
  · intro w w1 r h
    simp only [getAllTeams, bind, Except.bind, pure, Except.pure] at h
    split at h
    · cases h
    · rename_i dtos hd
      cases h
      exact ⟨dtos, rfl, (getAllTeams_mapM_no_members w.store _ dtos hd).2,
        getAllTeams_dtos_forall2 w.store dtos hd⟩
  · intro name w w1 r h hr
    obtain ⟨t, o, hfind, hdto⟩ := getTeam_value_is_dto nodeEnv captureStack name w w1 r h hr
    exact ⟨dto_has_members _ _ _ _ hdto, t, o, hfind, hdto⟩
  · intro ownerEmail name maxMemberCount w w1 r h hr
    obtain ⟨o, n, m, t, ho, hn, hm, hc, hdto⟩ :=
      createTeam_value_is_dto nodeEnv captureStack ownerEmail name maxMemberCount w w1 r h hr
    exact ⟨dto_has_members _ _ _ _ hdto, o, n, m, t, ho, hn, hm, hc, hdto⟩
  · intro teamName ownerEmail updateData w w1 r h hr
    obtain ⟨data, o, t, updated, hd, ho, ht, hu, hdto⟩ :=
      updateTeam_value_is_dto nodeEnv captureStack teamName ownerEmail updateData w w1 r h hr
    exact ⟨dto_has_members _ _ _ _ hdto, data, o, t, updated, hd, ho, ht, hu, hdto⟩

/-- A witness for `teamDTO_fields_and_members`: a team with two members; every membership
has its user and every team its owner. The one DTO of `getAllTeams` is the DTO that
`mapToTeamDTO` returns for the team and its owner. -/
theorem teamDTO_fields_and_members_witness :
    (Store.membershipFindManyWithUser
          ⟨[⟨1, "owner@jest.co", "TeamOwner", "hash", 10⟩,
              ⟨2, "user1@jest.co", "MemberOne", "hash", 50⟩],
            [⟨3, "JestTeam", 15, 1⟩], [⟨4, 3, 1⟩, ⟨5, 3, 2⟩], [], 6⟩ 3).map (fun m => m.1)
        = [⟨4, 3, 1⟩, ⟨5, 3, 2⟩]
      ∧ ∃ dtos, getAllTeams
            ⟨⟨[⟨1, "owner@jest.co", "TeamOwner", "hash", 10⟩,
                ⟨2, "user1@jest.co", "MemberOne", "hash", 50⟩],
              [⟨3, "JestTeam", 15, 1⟩], [⟨4, 3, 1⟩, ⟨5, 3, 2⟩], [], 6⟩, [], []⟩
          = .ok (⟨JsVal.arr dtos, none⟩,
              ⟨⟨[⟨1, "owner@jest.co", "TeamOwner", "hash", 10⟩,
                  ⟨2, "user1@jest.co", "MemberOne", "hash", 50⟩],
                [⟨3, "JestTeam", 15, 1⟩], [⟨4, 3, 1⟩, ⟨5, 3, 2⟩], [], 6⟩, [], []⟩)
        ∧ dtos.length = 1
        ∧ (∀ d ∈ dtos, d.get "members" = none)
        ∧ List.Forall₂
          (fun t d => ∃ o,
            (([⟨1, "owner@jest.co", "TeamOwner", "hash", 10⟩,
                ⟨2, "user1@jest.co", "MemberOne", "hash", 50⟩] : List User).find?
              fun u => u.id == t.ownerId) = some o
            ∧ mapToTeamDTO
                ⟨[⟨1, "owner@jest.co", "TeamOwner", "hash", 10⟩,
                    ⟨2, "user1@jest.co", "MemberOne", "hash", 50⟩],
                  [⟨3, "JestTeam", 15, 1⟩], [⟨4, 3, 1⟩, ⟨5, 3, 2⟩], [], 6⟩ t o false = .ok d)
          [⟨3, "JestTeam", 15, 1⟩] dtos :=
  ⟨(teamDTO_fields_and_members none (fun m => "Error: " ++ m)
      ⟨[⟨1, "owner@jest.co", "TeamOwner", "hash", 10⟩,
          ⟨2, "user1@jest.co", "MemberOne", "hash", 50⟩],
        [⟨3, "JestTeam", 15, 1⟩], [⟨4, 3, 1⟩, ⟨5, 3, 2⟩], [], 6⟩
      ⟨3, "JestTeam", 15, 1⟩ ⟨1, "owner@jest.co", "TeamOwner", "hash", 10⟩ false).2.1
      (by decide),
    (teamDTO_fields_and_members none (fun m => "Error: " ++ m)
      ⟨[⟨1, "owner@jest.co", "TeamOwner", "hash", 10⟩,
          ⟨2, "user1@jest.co", "MemberOne", "hash", 50⟩],
        [⟨3, "JestTeam", 15, 1⟩], [⟨4, 3, 1⟩, ⟨5, 3, 2⟩], [], 6⟩
      ⟨3, "JestTeam", 15, 1⟩ ⟨1, "owner@jest.co", "TeamOwner", "hash", 10⟩ false).2.2.1
      ⟨⟨[⟨1, "owner@jest.co", "TeamOwner", "hash", 10⟩,
          ⟨2, "user1@jest.co", "MemberOne", "hash", 50⟩],
        [⟨3, "JestTeam", 15, 1⟩], [⟨4, 3, 1⟩, ⟨5, 3, 2⟩], [], 6⟩, [], []⟩
      (by decide)⟩

/-! ## Theorems: team requests -/

theorem three_params_present (a b c : String) (ha : a ≠ "") (hb : b ≠ "") (hc : c ≠ "") :
    (a == "" || b == "" || c == "") = false := by
  simp only [beq_empty_false a ha, beq_empty_false b hb, beq_empty_false c hc, Bool.or_self]

theorem two_params_present (a b : String) (ha : a ≠ "") (hb : b ≠ "") :
    (a == "" || b == "") = false := by
  simp only [beq_empty_false a ha, beq_empty_false b hb, Bool.or_self]

theorem requestFindFirst_some (s : Store) (teamId userId : Nat) (req : TeamRequest)
    (h : s.requestFindFirst teamId userId = some req) :
    req ∈ s.requests ∧ req.teamId = teamId ∧ req.userId = userId := by
  simp only [Store.requestFindFirst] at h
  have hp := List.find?_some h
  simp only [Bool.and_eq_true, beq_iff_eq] at hp
  exact ⟨List.mem_of_find?_eq_some h, hp.1, hp.2⟩

theorem acceptTeamRequest_no_request_eq (nodeEnv : Option String)
    (captureStack : String → String) (ownerEmail teamName name : String) (owner user : User)
    (team : Team) (w : World)
    (howner : w.store.userFindUniqueByEmail (some ownerEmail) = some owner)
    (hteam : w.store.teamFindUnique (some teamName) = some team)
    (huser : w.store.userFindUniqueByName (some name) = some user)
    (hown : team.ownerId = owner.id)
    (hoe : ownerEmail ≠ "") (htn : teamName ≠ "") (hn : name ≠ "")
    (hreq : w.store.requestFindFirst team.id user.id = none) :
    acceptTeamRequest (appGlobals nodeEnv captureStack) (some ownerEmail) (some teamName)
        (some name) w
      = .error (Fault.typeError "Cannot read properties of undefined (reading map)") := by
  simp only [acceptTeamRequest, strFalsy_some, three_params_present _ _ _ hoe htn hn,
    failIf_false_eq, neutral_isError, bind, Except.bind, howner, hteam, huser,
    Option.isNone_some, validation3_pass_eq, bne_false_of_eq _ _ hown, hreq, Result.failString,
    pure, Except.pure, Bool.false_eq_true, if_false]

/-- C16: when the owner, the team (owned by that owner) and the requesting user exist but
no TeamRequest exists for the pair, `acceptTeamRequest` throws a TypeError: its
`Result.fail("Team request does not exist.", 404)` reads `.error` of a string. No Result,
and so no 404 error, is returned. -/
theorem acceptTeamRequest_missing_request_throws (nodeEnv : Option String)
    (captureStack : String → String) (ownerEmail teamName name : String) (owner user : User)
    (team : Team) (w : World)
    (howner : w.store.userFindUniqueByEmail (some ownerEmail) = some owner)
    (hteam : w.store.teamFindUnique (some teamName) = some team)
    (huser : w.store.userFindUniqueByName (some name) = some user)
    (hown : team.ownerId = owner.id)
    (hoe : ownerEmail ≠ "") (htn : teamName ≠ "") (hn : name ≠ "")
    (hreq : w.store.requestFindFirst team.id user.id = none) :
    acceptTeamRequest (appGlobals nodeEnv captureStack) (some ownerEmail) (some teamName)
          (some name) w
        = .error (Fault.typeError "Cannot read properties of undefined (reading map)")
      ∧ ∀ r w1, acceptTeamRequest (appGlobals nodeEnv captureStack) (some ownerEmail)
          (some teamName) (some name) w ≠ .ok (r, w1) := by
  have h := acceptTeamRequest_no_request_eq nodeEnv captureStack ownerEmail teamName name owner
    user team w howner hteam huser hown hoe htn hn hreq
  refine ⟨h, ?_⟩
  intro r w1 hok
  rw [h] at hok
  cases hok

/-- A witness for `acceptTeamRequest_missing_request_throws`: the store holds the owner, the
team and the user "MemberThree", and no request. -/
theorem acceptTeamRequest_missing_request_throws_witness :
    acceptTeamRequest (appGlobals none fun m => "Error: " ++ m) (some "owner@jest.co")
          (some "JestTeam") (some "MemberThree")
          ⟨⟨[⟨1, "owner@jest.co", "TeamOwner", "hash", 10⟩,
              ⟨2, "user3@jest.co", "MemberThree", "hash", 10⟩],
            [⟨3, "JestTeam", 15, 1⟩], [⟨4, 3, 1⟩], [], 5⟩, [], []⟩
        = .error (Fault.typeError "Cannot read properties of undefined (reading map)")
      ∧ ∀ r w1, acceptTeamRequest (appGlobals none fun m => "Error: " ++ m)
          (some "owner@jest.co") (some "JestTeam") (some "MemberThree")
          ⟨⟨[⟨1, "owner@jest.co", "TeamOwner", "hash", 10⟩,
              ⟨2, "user3@jest.co", "MemberThree", "hash", 10⟩],
            [⟨3, "JestTeam", 15, 1⟩], [⟨4, 3, 1⟩], [], 5⟩, [], []⟩ ≠ .ok (r, w1) :=
  acceptTeamRequest_missing_request_throws none (fun m => "Error: " ++ m) "owner@jest.co"
    "JestTeam" "MemberThree" ⟨1, "owner@jest.co", "TeamOwner", "hash", 10⟩
    ⟨2, "user3@jest.co", "MemberThree", "hash", 10⟩ ⟨3, "JestTeam", 15, 1⟩
    ⟨⟨[⟨1, "owner@jest.co", "TeamOwner", "hash", 10⟩,
        ⟨2, "user3@jest.co", "MemberThree", "hash", 10⟩],
      [⟨3, "JestTeam", 15, 1⟩], [⟨4, 3, 1⟩], [], 5⟩, [], []⟩
    (by decide) (by decide) (by decide) (by decide) (by decide) (by decide) (by decide)
    (by decide)

theorem requests_filter_id_eq (requests : List TeamRequest) (req : TeamRequest)
    (hnd : (requests.map fun x => x.id).Nodup) (hr : req ∈ requests) :
    (requests.filter fun r => !(r.id == req.id)) = requests.filter fun r => decide (r ≠ req) := by
  apply List.filter_congr
  intro x hx
  by_cases hxr : x = req
  · subst hxr
    simp
  · have hid : x.id ≠ req.id := fun h => hxr (List.inj_on_of_nodup_map hnd hx hr h)
    simp [hxr, hid]

theorem request_count_pos (requests : List TeamRequest) (req : TeamRequest)
    (hr : req ∈ requests) :
    decide ((requests.filter fun r => r.id == req.id).length < 1) = false := by
  have hmem : req ∈ requests.filter fun r => r.id == req.id :=
    List.mem_filter.mpr ⟨hr, by simp⟩
  have hpos := List.length_pos_of_mem hmem
  exact decide_eq_false (by omega)

/-- C17 as stated fails: with two TeamRequests of the same (team, user) pair in the store,
`acceptTeamRequest` returns success and a TeamRequest of the pair is still present. -/
theorem acceptTeamRequest_duplicate_request_remains :
    ∃ w1, acceptTeamRequest (appGlobals none fun m => "Error: " ++ m) (some "owner@jest.co")
          (some "JestTeam") (some "MemberThree")
          ⟨⟨[⟨1, "owner@jest.co", "TeamOwner", "hash", 10⟩,
              ⟨2, "user3@jest.co", "MemberThree", "hash", 10⟩],
            [⟨3, "JestTeam", 15, 1⟩], [⟨4, 3, 1⟩],
            [⟨5, 3, 2, "Please let me join"⟩, ⟨6, 3, 2, "Please let me join"⟩], 7⟩, [], []⟩
        = .ok (⟨JsVal.null, none⟩, w1)
      ∧ w1.store.requests = [⟨6, 3, 2, "Please let me join"⟩]
      ∧ ∃ r ∈ w1.store.requests, r.teamId = 3 ∧ r.userId = 2 :=
  ⟨⟨⟨[⟨1, "owner@jest.co", "TeamOwner", "hash", 10⟩,
        ⟨2, "user3@jest.co", "MemberThree", "hash", 10⟩],
      [⟨3, "JestTeam", 15, 1⟩], [⟨4, 3, 1⟩, ⟨7, 3, 2⟩],
      [⟨6, 3, 2, "Please let me join"⟩], 8⟩, [], []⟩,
    rfl, rfl, ⟨6, 3, 2, "Please let me join"⟩, by decide, rfl, rfl⟩

theorem acceptTeamRequest_found_eq (nodeEnv : Option String)
    (captureStack : String → String) (ownerEmail teamName name : String) (owner user : User)
    (team : Team) (req : TeamRequest) (w : World)
    (howner : w.store.userFindUniqueByEmail (some ownerEmail) = some owner)
    (hteam : w.store.teamFindUnique (some teamName) = some team)
    (huser : w.store.userFindUniqueByName (some name) = some user)
    (hown : team.ownerId = owner.id)
    (hoe : ownerEmail ≠ "") (htn : teamName ≠ "") (hn : name ≠ "")
    (hreq : w.store.requestFindFirst team.id user.id = some req) :
    acceptTeamRequest (appGlobals nodeEnv captureStack) (some ownerEmail) (some teamName)
        (some name) w
      = .ok (⟨JsVal.null, none⟩,
          ⟨⟨w.store.users, w.store.teams,
            w.store.memberships ++ [⟨w.store.nextId, team.id, user.id⟩],
            w.store.requests.filter fun r => !(r.id == req.id), w.store.nextId + 1⟩,
            w.log, w.console⟩) := by
  obtain ⟨hmem, _, huid⟩ := requestFindFirst_some w.store team.id user.id req hreq
  simp only [acceptTeamRequest, strFalsy_some, three_params_present _ _ _ hoe htn hn,
    failIf_false_eq, neutral_isError, bind, Except.bind, howner, hteam, huser,
    Option.isNone_some, validation3_pass_eq, bne_false_of_eq _ _ hown, hreq,
    Store.requestDeleteManyById, acceptTeamRequestAfterDelete,
    request_count_pos w.store.requests req hmem, Store.membershipCreate, huid, pure,
    Except.pure, Bool.false_eq_true, if_false, Result.ok, Option.getD_none,
    Result.constructor]

/-- C17, amended: in a store with unique request ids in which exactly one TeamRequest
`req` exists for (team, requesting user), and the caller is the owner of the team,
`acceptTeamRequest` returns the success Result with `null` value; afterwards no TeamRequest
of the pair is present, one TeamMembership for (team, requesting user) has been added, and
all other rows are unchanged. -/
theorem acceptTeamRequest_accepts_only_request (nodeEnv : Option String)
    (captureStack : String → String) (ownerEmail teamName name : String) (owner user : User)
    (team : Team) (req : TeamRequest) (w : World)
    (howner : w.store.userFindUniqueByEmail (some ownerEmail) = some owner)
    (hteam : w.store.teamFindUnique (some teamName) = some team)
    (huser : w.store.userFindUniqueByName (some name) = some user)
    (hown : team.ownerId = owner.id)
    (hoe : ownerEmail ≠ "") (htn : teamName ≠ "") (hn : name ≠ "")
    (hreq : req ∈ w.store.requests ∧ req.teamId = team.id ∧ req.userId = user.id)
    (huniq : ∀ r ∈ w.store.requests, r.teamId = team.id → r.userId = user.id → r = req)
    (hnd : (w.store.requests.map fun x => x.id).Nodup) :
    acceptTeamRequest (appGlobals nodeEnv captureStack) (some ownerEmail) (some teamName)
          (some name) w
        = .ok (⟨JsVal.null, none⟩,
            ⟨⟨w.store.users, w.store.teams,
              w.store.memberships ++ [⟨w.store.nextId, team.id, user.id⟩],
              w.store.requests.filter fun r => decide (r ≠ req), w.store.nextId + 1⟩,
              w.log, w.console⟩)
      ∧ ∀ r ∈ w.store.requests.filter fun r => decide (r ≠ req),
          ¬ (r.teamId = team.id ∧ r.userId = user.id) := by
  have hfind : w.store.requestFindFirst team.id user.id = some req := by
    cases hf : w.store.requestFindFirst team.id user.id with
    | none =>
      simp only [Store.requestFindFirst, List.find?_eq_none] at hf
      exact absurd (by simp [hreq.2.1, hreq.2.2]) (hf req hreq.1)
    | some r2 =>
      obtain ⟨h1, h2, h3⟩ := requestFindFirst_some w.store team.id user.id r2 hf
      rw [huniq r2 h1 h2 h3]
  refine ⟨?_, ?_⟩
  · rw [acceptTeamRequest_found_eq nodeEnv captureStack ownerEmail teamName name owner user team
      req w howner hteam huser hown hoe htn hn hfind,
      requests_filter_id_eq w.store.requests req hnd hreq.1]
  · intro r hr hpair
    obtain ⟨hrmem, hrne⟩ := List.mem_filter.mp hr
    have : r = req := huniq r hrmem hpair.1 hpair.2
    simp [this] at hrne

/-- A witness for `acceptTeamRequest_accepts_only_request`: the only request of the pair
is accepted; afterwards the request of another user is still there and the membership
(team 3, user 2) exists. -/
theorem acceptTeamRequest_accepts_only_request_witness :
    acceptTeamRequest (appGlobals none fun m => "Error: " ++ m) (some "owner@jest.co")
        (some "JestTeam") (some "MemberThree")
        ⟨⟨[⟨1, "owner@jest.co", "TeamOwner", "hash", 10⟩,
            ⟨2, "user3@jest.co", "MemberThree", "hash", 10⟩,
            ⟨5, "user4@jest.co", "MemberFour", "hash", 20⟩],
          [⟨3, "JestTeam", 15, 1⟩], [⟨4, 3, 1⟩],
          [⟨6, 3, 5, "me too"⟩, ⟨7, 3, 2, "Please let me join"⟩], 8⟩, [], []⟩
      = .ok (⟨JsVal.null, none⟩,
          ⟨⟨[⟨1, "owner@jest.co", "TeamOwner", "hash", 10⟩,
              ⟨2, "user3@jest.co", "MemberThree", "hash", 10⟩,
              ⟨5, "user4@jest.co", "MemberFour", "hash", 20⟩],
            [⟨3, "JestTeam", 15, 1⟩], [⟨4, 3, 1⟩, ⟨8, 3, 2⟩], [⟨6, 3, 5, "me too"⟩], 9⟩,
            [], []⟩) :=
  (acceptTeamRequest_accepts_only_request none (fun m => "Error: " ++ m) "owner@jest.co"
    "JestTeam" "MemberThree" ⟨1, "owner@jest.co", "TeamOwner", "hash", 10⟩
    ⟨2, "user3@jest.co", "MemberThree", "hash", 10⟩ ⟨3, "JestTeam", 15, 1⟩
    ⟨7, 3, 2, "Please let me join"⟩
    ⟨⟨[⟨1, "owner@jest.co", "TeamOwner", "hash", 10⟩,
        ⟨2, "user3@jest.co", "MemberThree", "hash", 10⟩,
        ⟨5, "user4@jest.co", "MemberFour", "hash", 20⟩],
      [⟨3, "JestTeam", 15, 1⟩], [⟨4, 3, 1⟩],
      [⟨6, 3, 5, "me too"⟩, ⟨7, 3, 2, "Please let me join"⟩], 8⟩, [], []⟩
    (by decide) (by decide) (by decide) (by decide) (by decide) (by decide) (by decide)
    (by decide) (by decide) (by decide)).1

theorem validation3_fail_eq (p1 p2 p3 : Bool) (m1 m2 m3 : String) (c1 c2 c3 : Option Int)
    (x1 x2 x3 : External) (s1 s2 s3 : String)
    (h : p1 = true ∨ p2 = true ∨ p3 = true) :
    (Result.merge
        [⟨JsVal.null, if p1 = true then some [ErrItem.error m1 c1 (some x1) s1] else none⟩,
          ⟨JsVal.null, if p2 = true then some [ErrItem.error m2 c2 (some x2) s2] else none⟩,
          ⟨JsVal.null, if p3 = true then some [ErrItem.error m3 c3 (some x3) s3] else none⟩]).isError
        = true
      ∧ Result.fail (Result.merge
        [⟨JsVal.null, if p1 = true then some [ErrItem.error m1 c1 (some x1) s1] else none⟩,
          ⟨JsVal.null, if p2 = true then some [ErrItem.error m2 c2 (some x2) s2] else none⟩,
          ⟨JsVal.null, if p3 = true then some [ErrItem.error m3 c3 (some x3) s3] else none⟩])
        = .ok ⟨JsVal.null, some (
            (if p1 = true then [ErrItem.plain x1.code x1.message] else [])
              ++ (if p2 = true then [ErrItem.plain x2.code x2.message] else [])
              ++ (if p3 = true then [ErrItem.plain x3.code x3.message] else []))⟩ := by
  cases p1 <;> cases p2 <;> cases p3 <;> first
    | (exfalso; simp at h; done)
    | exact ⟨rfl, rfl⟩

theorem existence3_fails (nodeEnv : Option String) (captureStack : String → String)
    (p1 p2 p3 : Bool) (m1 : String) (w : World) (h : p1 = true ∨ p2 = true ∨ p3 = true) :
    ∃ wa wb wc,
      Result.failIf (appGlobals nodeEnv captureStack) p1 (some m1) (some 404) none none none
          none w
        = .ok (⟨JsVal.null, if p1 = true then
            some [ErrItem.error m1 (some 404) (some ⟨404, m1⟩) (captureStack m1)] else none⟩, wa)
      ∧ Result.failIf (appGlobals nodeEnv captureStack) p2 (some "Owner does not exist.")
          (some 404) none none none none wa
        = .ok (⟨JsVal.null, if p2 = true then
            some [ErrItem.error "Owner does not exist." (some 404)
              (some ⟨404, "Owner does not exist."⟩) (captureStack "Owner does not exist.")]
            else none⟩, wb)
      ∧ Result.failIf (appGlobals nodeEnv captureStack) p3 (some "Team does not exist.")
          (some 404) none none none none wb
        = .ok (⟨JsVal.null, if p3 = true then
            some [ErrItem.error "Team does not exist." (some 404)
              (some ⟨404, "Team does not exist."⟩) (captureStack "Team does not exist.")]
            else none⟩, wc)
      ∧ wc.store = w.store
      ∧ (Result.merge
          [⟨JsVal.null, if p1 = true then
              some [ErrItem.error m1 (some 404) (some ⟨404, m1⟩) (captureStack m1)] else none⟩,
            ⟨JsVal.null, if p2 = true then
              some [ErrItem.error "Owner does not exist." (some 404)
                (some ⟨404, "Owner does not exist."⟩) (captureStack "Owner does not exist.")]
              else none⟩,
            ⟨JsVal.null, if p3 = true then
              some [ErrItem.error "Team does not exist." (some 404)
                (some ⟨404, "Team does not exist."⟩) (captureStack "Team does not exist.")]
              else none⟩]).isError = true
      ∧ Result.fail (Result.merge
          [⟨JsVal.null, if p1 = true then
              some [ErrItem.error m1 (some 404) (some ⟨404, m1⟩) (captureStack m1)] else none⟩,
            ⟨JsVal.null, if p2 = true then
              some [ErrItem.error "Owner does not exist." (some 404)
                (some ⟨404, "Owner does not exist."⟩) (captureStack "Owner does not exist.")]
              else none⟩,
            ⟨JsVal.null, if p3 = true then
              some [ErrItem.error "Team does not exist." (some 404)
                (some ⟨404, "Team does not exist."⟩) (captureStack "Team does not exist.")]
              else none⟩])
        = .ok ⟨JsVal.null, some (
            (if p1 = true then [ErrItem.plain 404 m1] else [])
              ++ (if p2 = true then [ErrItem.plain 404 "Owner does not exist."] else [])
              ++ (if p3 = true then [ErrItem.plain 404 "Team does not exist."] else []))⟩ := by
  obtain ⟨wa, ha, hsa, _⟩ := failIf_app nodeEnv captureStack p1 (some m1) (some 404)
    none none none none w
  obtain ⟨wb, hb, hsb, _⟩ := failIf_app nodeEnv captureStack p2 (some "Owner does not exist.")
    (some 404) none none none none wa
  obtain ⟨wc, hc, hsc, _⟩ := failIf_app nodeEnv captureStack p3 (some "Team does not exist.")
    (some 404) none none none none wb
  simp only [Option.getD_some, Option.getD_none] at ha hb hc
  have hv := validation3_fail_eq p1 p2 p3 m1 "Owner does not exist." "Team does not exist."
    (some 404) (some 404) (some 404) ⟨404, m1⟩ ⟨404, "Owner does not exist."⟩
    ⟨404, "Team does not exist."⟩ (captureStack m1) (captureStack "Owner does not exist.")
    (captureStack "Team does not exist.") h
  exact ⟨wa, wb, wc, ha, hb, hc, by rw [hsc, hsb, hsa], hv.1, hv.2⟩

/-- C18: for an existing team, an existing requesting user and an existing caller whose id
differs from the owner id of the team, `acceptTeamRequest` and `deleteTeamRequest` return
the failed Result whose error list is exactly the one 403 error, and the store is
unchanged. The ownership check comes after the existence checks: when the requesting user,
the caller or the team does not exist, the Result holds only the 404 errors of the missing
entities, and the store is unchanged as well. -/
theorem non_owner_request_forbidden (nodeEnv : Option String) (captureStack : String → String)
    (ownerEmail teamName name : String) (w : World)
    (hoe : ownerEmail ≠ "") (htn : teamName ≠ "") (hn : name ≠ "") :
    (∀ (caller user : User) (team : Team),
        w.store.userFindUniqueByEmail (some ownerEmail) = some caller →
        w.store.teamFindUnique (some teamName) = some team →
        w.store.userFindUniqueByName (some name) = some user →
        caller.id ≠ team.ownerId →
        (∃ w1, acceptTeamRequest (appGlobals nodeEnv captureStack) (some ownerEmail)
              (some teamName) (some name) w
            = .ok (⟨JsVal.null,
                some [ErrItem.plain 403 "Forbidden. Only team owner can accept requests."]⟩, w1)
            ∧ w1.store = w.store)
          ∧ (∃ w1, deleteTeamRequest (appGlobals nodeEnv captureStack) (some ownerEmail)
              (some teamName) (some name) w
            = .ok (⟨JsVal.null,
                some [ErrItem.plain 403 "Forbidden. Only team owner can delete requests."]⟩, w1)
            ∧ w1.store = w.store))
      ∧ ((w.store.userFindUniqueByName (some name)).isNone = true
            ∨ (w.store.userFindUniqueByEmail (some ownerEmail)).isNone = true
            ∨ (w.store.teamFindUnique (some teamName)).isNone = true →
          (∃ w1, acceptTeamRequest (appGlobals nodeEnv captureStack) (some ownerEmail)
              (some teamName) (some name) w
            = .ok (⟨JsVal.null, some (
                (if (w.store.userFindUniqueByName (some name)).isNone = true
                  then [ErrItem.plain 404 "Team request does not exist."] else [])
                ++ (if (w.store.userFindUniqueByEmail (some ownerEmail)).isNone = true
                  then [ErrItem.plain 404 "Owner does not exist."] else [])
                ++ (if (w.store.teamFindUnique (some teamName)).isNone = true
                  then [ErrItem.plain 404 "Team does not exist."] else []))⟩, w1)
            ∧ w1.store = w.store)
          ∧ (∃ w1, deleteTeamRequest (appGlobals nodeEnv captureStack) (some ownerEmail)
              (some teamName) (some name) w
            = .ok (⟨JsVal.null, some (
                (if (w.store.userFindUniqueByName (some name)).isNone = true
                  then [ErrItem.plain 404 "User does not exist."] else [])
                ++ (if (w.store.userFindUniqueByEmail (some ownerEmail)).isNone = true
                  then [ErrItem.plain 404 "Owner does not exist."] else [])
                ++ (if (w.store.teamFindUnique (some teamName)).isNone = true
                  then [ErrItem.plain 404 "Team does not exist."] else []))⟩, w1)
            ∧ w1.store = w.store)) := by
  have hparams := three_params_present _ _ _ hoe htn hn
  constructor
  · intro caller user team hcaller hteam huser hne
    have hown : (team.ownerId != caller.id) = true := bne_true_of_ne _ _ (Ne.symm hne)
    constructor
    · obtain ⟨w1, h1, hs1, _⟩ := failIf_app nodeEnv captureStack true
        (some "Forbidden. Only team owner can accept requests.") (some 403) none none none
        none w
      simp only [Option.getD_some, Option.getD_none, if_true] at h1
      refine ⟨w1, ?_, hs1⟩
      simp only [acceptTeamRequest, strFalsy_some, hparams, failIf_false_eq, neutral_isError,
        bind, Except.bind, hcaller, hteam, huser, Option.isNone_some, validation3_pass_eq, hown,
        h1, single_isError, fail_single, pure, Except.pure, Bool.false_eq_true, if_false,
        if_true]
    · obtain ⟨w1, h1, hs1, _⟩ := failIf_app nodeEnv captureStack true
        (some "Forbidden. Only team owner can delete requests.") (some 403) none none none
        none w
      simp only [Option.getD_some, Option.getD_none, if_true] at h1
      refine ⟨w1, ?_, hs1⟩
      simp only [deleteTeamRequest, strFalsy_some, hparams, failIf_false_eq, neutral_isError,
        bind, Except.bind, hcaller, hteam, huser, Option.isNone_some, validation3_pass_eq, hown,
        h1, single_isError, fail_single, pure, Except.pure, Bool.false_eq_true, if_false,
        if_true]
  · intro hmissing
    constructor
    · obtain ⟨wa, wb, wc, ha, hb, hc, hs, hE, hF⟩ := existence3_fails nodeEnv captureStack
        (w.store.userFindUniqueByName (some name)).isNone
        (w.store.userFindUniqueByEmail (some ownerEmail)).isNone
        (w.store.teamFindUnique (some teamName)).isNone "Team request does not exist." w
        hmissing
      refine ⟨wc, ?_, hs⟩
      simp only [acceptTeamRequest, strFalsy_some, hparams, failIf_false_eq, neutral_isError,
        bind, Except.bind, ha, hb, hc, hE, hF, pure, Except.pure, Bool.false_eq_true, if_false,
        if_true]
    · obtain ⟨wa, wb, wc, ha, hb, hc, hs, hE, hF⟩ := existence3_fails nodeEnv captureStack
        (w.store.userFindUniqueByName (some name)).isNone
        (w.store.userFindUniqueByEmail (some ownerEmail)).isNone
        (w.store.teamFindUnique (some teamName)).isNone "User does not exist." w hmissing
      refine ⟨wc, ?_, hs⟩
      simp only [deleteTeamRequest, strFalsy_some, hparams, failIf_false_eq, neutral_isError,
        bind, Except.bind, ha, hb, hc, hE, hF, pure, Except.pure, Bool.false_eq_true, if_false,
        if_true]

/-- A witness for `non_owner_request_forbidden`: "MemberThree" (user 2), who does not own
"JestTeam", calls both functions for the request of user 5. -/
theorem non_owner_request_forbidden_witness :
    (∃ w1, acceptTeamRequest (appGlobals none fun m => "Error: " ++ m) (some "user3@jest.co")
          (some "JestTeam") (some "MemberFour")
          ⟨⟨[⟨1, "owner@jest.co", "TeamOwner", "hash", 10⟩,
              ⟨2, "user3@jest.co", "MemberThree", "hash", 10⟩,
              ⟨5, "user4@jest.co", "MemberFour", "hash", 20⟩],
            [⟨3, "JestTeam", 15, 1⟩], [⟨4, 3, 1⟩], [⟨6, 3, 5, "Please let me join"⟩], 7⟩, [], []⟩
        = .ok (⟨JsVal.null,
            some [ErrItem.plain 403 "Forbidden. Only team owner can accept requests."]⟩, w1)
        ∧ w1.store = ⟨[⟨1, "owner@jest.co", "TeamOwner", "hash", 10⟩,
              ⟨2, "user3@jest.co", "MemberThree", "hash", 10⟩,
              ⟨5, "user4@jest.co", "MemberFour", "hash", 20⟩],
            [⟨3, "JestTeam", 15, 1⟩], [⟨4, 3, 1⟩], [⟨6, 3, 5, "Please let me join"⟩], 7⟩)
      ∧ (∃ w1, deleteTeamRequest (appGlobals none fun m => "Error: " ++ m)
          (some "user3@jest.co") (some "JestTeam") (some "MemberFour")
          ⟨⟨[⟨1, "owner@jest.co", "TeamOwner", "hash", 10⟩,
              ⟨2, "user3@jest.co", "MemberThree", "hash", 10⟩,
              ⟨5, "user4@jest.co", "MemberFour", "hash", 20⟩],
            [⟨3, "JestTeam", 15, 1⟩], [⟨4, 3, 1⟩], [⟨6, 3, 5, "Please let me join"⟩], 7⟩, [], []⟩
        = .ok (⟨JsVal.null,
            some [ErrItem.plain 403 "Forbidden. Only team owner can delete requests."]⟩, w1)
        ∧ w1.store = ⟨[⟨1, "owner@jest.co", "TeamOwner", "hash", 10⟩,
              ⟨2, "user3@jest.co", "MemberThree", "hash", 10⟩,
              ⟨5, "user4@jest.co", "MemberFour", "hash", 20⟩],
            [⟨3, "JestTeam", 15, 1⟩], [⟨4, 3, 1⟩], [⟨6, 3, 5, "Please let me join"⟩], 7⟩) :=
  (non_owner_request_forbidden none (fun m => "Error: " ++ m) "user3@jest.co" "JestTeam"
    "MemberFour"
    ⟨⟨[⟨1, "owner@jest.co", "TeamOwner", "hash", 10⟩,
        ⟨2, "user3@jest.co", "MemberThree", "hash", 10⟩,
        ⟨5, "user4@jest.co", "MemberFour", "hash", 20⟩],
      [⟨3, "JestTeam", 15, 1⟩], [⟨4, 3, 1⟩], [⟨6, 3, 5, "Please let me join"⟩], 7⟩, [], []⟩
    (by decide) (by decide) (by decide)).1
    ⟨2, "user3@jest.co", "MemberThree", "hash", 10⟩ ⟨5, "user4@jest.co", "MemberFour", "hash", 20⟩
    ⟨3, "JestTeam", 15, 1⟩ (by decide) (by decide) (by decide) (by decide)

/-- C19: when the caller owns the existing team and the requesting user exists,
`deleteTeamRequest` deletes the TeamRequest rows of the (team, requester) pair and only
those: if at least one row matches, it returns the success Result with `null` value and the
store without the matching rows; if none matches, it returns the failed Result with exactly
the 404 error "Team request not found." and the store is unchanged. Users, teams and
memberships are the same in both cases. -/
theorem deleteTeamRequest_by_owner (nodeEnv : Option String) (captureStack : String → String)
    (ownerEmail teamName name : String) (owner user : User) (team : Team) (w : World)
    (howner : w.store.userFindUniqueByEmail (some ownerEmail) = some owner)
    (hteam : w.store.teamFindUnique (some teamName) = some team)
    (huser : w.store.userFindUniqueByName (some name) = some user)
    (hown : team.ownerId = owner.id)
    (hoe : ownerEmail ≠ "") (htn : teamName ≠ "") (hn : name ≠ "") :
    ((∃ r ∈ w.store.requests, r.teamId = team.id ∧ r.userId = user.id) →
        deleteTeamRequest (appGlobals nodeEnv captureStack) (some ownerEmail) (some teamName)
            (some name) w
          = .ok (⟨JsVal.null, none⟩,
              ⟨⟨w.store.users, w.store.teams, w.store.memberships,
                w.store.requests.filter fun r => !(r.teamId == team.id && r.userId == user.id),
                w.store.nextId⟩, w.log, w.console⟩)
          ∧ ∀ r ∈ w.store.requests.filter
                fun r => !(r.teamId == team.id && r.userId == user.id),
              ¬ (r.teamId = team.id ∧ r.userId = user.id))
      ∧ ((∀ r ∈ w.store.requests, ¬ (r.teamId = team.id ∧ r.userId = user.id)) →
        ∃ w1, deleteTeamRequest (appGlobals nodeEnv captureStack) (some ownerEmail)
            (some teamName) (some name) w
          = .ok (⟨JsVal.null, some [ErrItem.plain 404 "Team request not found."]⟩, w1)
          ∧ w1.store = w.store) := by
  have hparams := three_params_present _ _ _ hoe htn hn
  have hbne := bne_false_of_eq _ _ hown
  constructor
  · intro hex
    obtain ⟨r0, hr0, hpair⟩ := hex
    have hcount : decide ((w.store.requests.filter
        fun r => r.teamId == team.id && r.userId == user.id).length < 1) = false := by
      have hmem : r0 ∈ w.store.requests.filter
          fun r => r.teamId == team.id && r.userId == user.id :=
        List.mem_filter.mpr ⟨hr0, by simp [hpair.1, hpair.2]⟩
      have hpos := List.length_pos_of_mem hmem
      exact decide_eq_false (by omega)
    constructor
    · simp only [deleteTeamRequest, strFalsy_some, hparams, failIf_false_eq, neutral_isError,
        bind, Except.bind, howner, hteam, huser, Option.isNone_some, validation3_pass_eq, hbne,
        Store.requestDeleteManyByPair, hcount, pure, Except.pure, Bool.false_eq_true, if_false,
        Result.ok, Option.getD_none, Result.constructor]
    · intro r hr hp
      have := (List.mem_filter.mp hr).2
      simp [hp.1, hp.2] at this
  · intro hnone
    have hfilter : (w.store.requests.filter
        fun r => r.teamId == team.id && r.userId == user.id) = [] := by
      rw [List.filter_eq_nil_iff]
      intro r hr
      simpa using hnone r hr
    have hkeep : (w.store.requests.filter
        fun r => !(r.teamId == team.id && r.userId == user.id)) = w.store.requests := by
      rw [List.filter_eq_self]
      intro r hr
      have := hnone r hr
      simp only [Bool.not_eq_true', Bool.and_eq_false_iff, beq_eq_false_iff_ne, ne_eq]
      by_cases ht : r.teamId = team.id
      · exact Or.inr fun hu => this ⟨ht, hu⟩
      · exact Or.inl ht
    obtain ⟨w1, h1, hs1, _⟩ := failIf_app nodeEnv captureStack true
      (some "Team request not found.") (some 404) none none none none
      ⟨⟨w.store.users, w.store.teams, w.store.memberships, w.store.requests, w.store.nextId⟩,
        w.log, w.console⟩
    simp only [Option.getD_some, Option.getD_none, if_true] at h1
    refine ⟨w1, ?_, hs1⟩
    simp only [deleteTeamRequest, strFalsy_some, hparams, failIf_false_eq, neutral_isError, bind,
      Except.bind, howner, hteam, huser, Option.isNone_some, validation3_pass_eq, hbne,
      Store.requestDeleteManyByPair, hfilter, hkeep, List.length_nil, Nat.lt_one_iff,
      decide_True, h1, single_isError, fail_single, pure, Except.pure, Bool.false_eq_true,
      if_false, if_true]

/-- A witness for `deleteTeamRequest_by_owner`: both requests of the pair (team 3, user 2)
are deleted, the request of user 5 stays. -/
theorem deleteTeamRequest_by_owner_witness :
    deleteTeamRequest (appGlobals none fun m => "Error: " ++ m) (some "owner@jest.co")
        (some "JestTeam") (some "MemberThree")
        ⟨⟨[⟨1, "owner@jest.co", "TeamOwner", "hash", 10⟩,
            ⟨2, "user3@jest.co", "MemberThree", "hash", 10⟩,
            ⟨5, "user4@jest.co", "MemberFour", "hash", 20⟩],
          [⟨3, "JestTeam", 15, 1⟩], [⟨4, 3, 1⟩],
          [⟨6, 3, 2, "a"⟩, ⟨7, 3, 5, "b"⟩, ⟨8, 3, 2, "c"⟩], 9⟩, [], []⟩
      = .ok (⟨JsVal.null, none⟩,
          ⟨⟨[⟨1, "owner@jest.co", "TeamOwner", "hash", 10⟩,
              ⟨2, "user3@jest.co", "MemberThree", "hash", 10⟩,
              ⟨5, "user4@jest.co", "MemberFour", "hash", 20⟩],
            [⟨3, "JestTeam", 15, 1⟩], [⟨4, 3, 1⟩], [⟨7, 3, 5, "b"⟩], 9⟩, [], []⟩) :=
  ((deleteTeamRequest_by_owner none (fun m => "Error: " ++ m) "owner@jest.co" "JestTeam"
    "MemberThree" ⟨1, "owner@jest.co", "TeamOwner", "hash", 10⟩
    ⟨2, "user3@jest.co", "MemberThree", "hash", 10⟩ ⟨3, "JestTeam", 15, 1⟩
    ⟨⟨[⟨1, "owner@jest.co", "TeamOwner", "hash", 10⟩,
        ⟨2, "user3@jest.co", "MemberThree", "hash", 10⟩,
        ⟨5, "user4@jest.co", "MemberFour", "hash", 20⟩],
      [⟨3, "JestTeam", 15, 1⟩], [⟨4, 3, 1⟩],
      [⟨6, 3, 2, "a"⟩, ⟨7, 3, 5, "b"⟩, ⟨8, 3, 2, "c"⟩], 9⟩, [], []⟩
    (by decide) (by decide) (by decide) (by decide) (by decide) (by decide) (by decide)).1
    (by decide)).1

/-- C20: `createTeamRequest` checks no existing request. Whenever the user and the team
exist, it returns the success Result and appends a TeamRequest row, also when the store
already holds a request of the same (team, user) pair; no "Team request already exists."
error is returned. -/
theorem createTeamRequest_allows_duplicates (nodeEnv : Option String)
    (captureStack : String → String) (email teamName : String) (message : Option String)
    (user : User) (team : Team) (w : World)
    (huser : w.store.userFindUniqueByEmail (some email) = some user)
    (hteam : w.store.teamFindUnique (some teamName) = some team)
    (hem : email ≠ "") (htn : teamName ≠ "") :
    createTeamRequest (appGlobals nodeEnv captureStack) (some email) (some teamName) message w
      = .ok (⟨JsVal.null, none⟩,
          ⟨⟨w.store.users, w.store.teams, w.store.memberships,
            w.store.requests ++ [⟨w.store.nextId, team.id, user.id, message.getD ""⟩],
            w.store.nextId + 1⟩, w.log, w.console⟩) := by
  simp only [createTeamRequest, strFalsy_some, two_params_present _ _ hem htn, failIf_false_eq,
    neutral_isError, bind, Except.bind, huser, hteam, Option.isNone_some, validation2_pass_eq,
    Store.requestCreate, pure, Except.pure, Bool.false_eq_true, if_false, Result.ok,
    Option.getD_none, Result.constructor]

/-- A witness for `createTeamRequest_allows_duplicates`: the store already holds a request
of (team 3, user 2); the call succeeds and a second row of the pair is stored. -/
theorem createTeamRequest_allows_duplicates_witness :
    createTeamRequest (appGlobals none fun m => "Error: " ++ m) (some "user3@jest.co")
        (some "JestTeam") (some "Please let me join")
        ⟨⟨[⟨1, "owner@jest.co", "TeamOwner", "hash", 10⟩,
            ⟨2, "user3@jest.co", "MemberThree", "hash", 10⟩],
          [⟨3, "JestTeam", 15, 1⟩], [⟨4, 3, 1⟩], [⟨5, 3, 2, "Please let me join"⟩], 6⟩, [], []⟩
      = .ok (⟨JsVal.null, none⟩,
          ⟨⟨[⟨1, "owner@jest.co", "TeamOwner", "hash", 10⟩,
              ⟨2, "user3@jest.co", "MemberThree", "hash", 10⟩],
            [⟨3, "JestTeam", 15, 1⟩], [⟨4, 3, 1⟩],
            [⟨5, 3, 2, "Please let me join"⟩, ⟨6, 3, 2, "Please let me join"⟩], 7⟩, [], []⟩) :=
  createTeamRequest_allows_duplicates none (fun m => "Error: " ++ m) "user3@jest.co" "JestTeam"
    (some "Please let me join") ⟨2, "user3@jest.co", "MemberThree", "hash", 10⟩
    ⟨3, "JestTeam", 15, 1⟩
    ⟨⟨[⟨1, "owner@jest.co", "TeamOwner", "hash", 10⟩,
        ⟨2, "user3@jest.co", "MemberThree", "hash", 10⟩],
      [⟨3, "JestTeam", 15, 1⟩], [⟨4, 3, 1⟩], [⟨5, 3, 2, "Please let me join"⟩], 6⟩, [], []⟩
    (by decide) (by decide) (by decide) (by decide)

/-! ## Theorems: getAllTeamRequests -/

theorem getAllTeamRequests_no_team_eq (g : Globals) (ownerEmail teamName : Option String)
    (w : World) (hteam : w.store.teamFindUnique teamName = none) :
    getAllTeamRequests g ownerEmail teamName w
      = .error (Fault.typeError "Cannot read properties of null (reading ownerId)") := by
  simp only [getAllTeamRequests, hteam, bind, Except.bind]

/-- C21: for every owner email and every team name that matches no team,
`getAllTeamRequests` throws a TypeError: `team.ownerId` is read on `null` before the
existence of the team is checked. No Result, and so no 404 error "Team does not exist.",
is returned. -/
theorem getAllTeamRequests_missing_team_throws (g : Globals)
    (ownerEmail teamName : Option String) (w : World)
    (hteam : w.store.teamFindUnique teamName = none) :
    getAllTeamRequests g ownerEmail teamName w
        = .error (Fault.typeError "Cannot read properties of null (reading ownerId)")
      ∧ ∀ r w1, getAllTeamRequests g ownerEmail teamName w ≠ .ok (r, w1) := by
  have h := getAllTeamRequests_no_team_eq g ownerEmail teamName w hteam
  refine ⟨h, ?_⟩
  intro r w1 hok
  rw [h] at hok
  cases hok

/-- A witness for `getAllTeamRequests_missing_team_throws`: the call of the test
`should throw an error if team does not exist`, with the team name "bad". -/
theorem getAllTeamRequests_missing_team_throws_witness :
    getAllTeamRequests (appGlobals none fun m => "Error: " ++ m) (some "owner@jest.co")
          (some "bad")
          ⟨⟨[⟨1, "owner@jest.co", "TeamOwner", "hash", 10⟩], [⟨2, "JestTeam", 15, 1⟩],
            [⟨3, 2, 1⟩], [], 4⟩, [], []⟩
        = .error (Fault.typeError "Cannot read properties of null (reading ownerId)")
      ∧ ∀ r w1, getAllTeamRequests (appGlobals none fun m => "Error: " ++ m)
          (some "owner@jest.co") (some "bad")
          ⟨⟨[⟨1, "owner@jest.co", "TeamOwner", "hash", 10⟩], [⟨2, "JestTeam", 15, 1⟩],
            [⟨3, 2, 1⟩], [], 4⟩, [], []⟩ ≠ .ok (r, w1) :=
  getAllTeamRequests_missing_team_throws (appGlobals none fun m => "Error: " ++ m)
    (some "owner@jest.co") (some "bad")
    ⟨⟨[⟨1, "owner@jest.co", "TeamOwner", "hash", 10⟩], [⟨2, "JestTeam", 15, 1⟩],
      [⟨3, 2, 1⟩], [], 4⟩, [], []⟩ (by decide)

/-! ## Theorems: logging, signin and double `fail` -/

theorem failIf_true_of_logger_throws (g : Globals) (fault : Fault)
    (hlog : ∀ record, g.logger record = some fault)
    (externalMessage : Option String) (externalCode : Option Int)
    (internalMessage : Option String) (internalCode : Option Int)
    (error : Option Cause) (req : Option JsVal) (w : World) :
    Result.failIf g true externalMessage externalCode internalMessage internalCode error req w
      = .error fault := by
  simp only [Result.failIf, errorFactory, hlog, if_true]

/-- C25 as stated fails: with a logging sink that throws on every record,
`Result.failIf(true, "E1")` throws the fault of the sink and returns no Result. -/
theorem failIf_throws_when_logger_throws :
    Result.failIf ⟨fun _ => some (Fault.loggerFailure "transport closed"), none,
        fun m => "Error: " ++ m⟩ true (some "E1") none none none none none
        ⟨⟨[], [], [], [], 1⟩, [], []⟩
      = .error (Fault.loggerFailure "transport closed") := by
  rfl

/-- C25, amended: for every argument list with a true predicate, `Result.failIf` (through
`errorFactory`) returns the failed Result with its one error descriptor, and appends the
record to the log, when the logging sink returns normally on the record; when the sink
throws on the record, `failIf` throws the fault of the sink and returns no Result. -/
theorem failIf_true_follows_logger (g : Globals)
    (externalMessage : Option String) (externalCode : Option Int)
    (internalMessage : Option String) (internalCode : Option Int)
    (error : Option Cause) (req : Option JsVal) (w : World) :
    (g.logger (errorFactoryRecord g (externalMessage.getD "Bad request.")
          (externalCode.getD 400) (internalMessage.getD (externalMessage.getD "Bad request."))
          error req) = none →
        ∃ w1, Result.failIf g true externalMessage externalCode internalMessage internalCode
            error req w
          = .ok (⟨JsVal.null,
              some [ErrItem.error (internalMessage.getD (externalMessage.getD "Bad request."))
                (some (internalCode.getD (externalCode.getD 400)))
                (some ⟨externalCode.getD 400, externalMessage.getD "Bad request."⟩)
                (g.captureStack (internalMessage.getD (externalMessage.getD "Bad request.")))]⟩,
              w1)
          ∧ w1.store = w.store
          ∧ w1.log = w.log ++ [errorFactoryRecord g (externalMessage.getD "Bad request.")
              (externalCode.getD 400)
              (internalMessage.getD (externalMessage.getD "Bad request.")) error req])
      ∧ (∀ fault, g.logger (errorFactoryRecord g (externalMessage.getD "Bad request.")
          (externalCode.getD 400) (internalMessage.getD (externalMessage.getD "Bad request."))
          error req) = some fault →
        Result.failIf g true externalMessage externalCode internalMessage internalCode
            error req w
          = .error fault) := by
  constructor
  · intro hlog
    simp only [errorFactoryRecord] at hlog
    simp only [Result.failIf, errorFactory, hlog, if_true, Option.getD_some, Result.constructor,
      List.nil_append]
    exact ⟨_, rfl, rfl, rfl⟩
  · intro fault hlog
    simp only [errorFactoryRecord] at hlog
    simp only [Result.failIf, errorFactory, hlog, if_true, Option.getD_some]

/-- A witness for `failIf_true_follows_logger`: the logger of the application returns
normally, and `failIf(true, "E1")` returns the Result with the descriptor of "E1". -/
theorem failIf_true_follows_logger_witness :
    ∃ w1, Result.failIf (appGlobals none fun m => "Error: " ++ m) true (some "E1") none none
          none none none ⟨⟨[], [], [], [], 1⟩, [], []⟩
        = .ok (⟨JsVal.null,
            some [ErrItem.error "E1" (some 400) (some ⟨400, "E1"⟩) "Error: E1"]⟩, w1)
      ∧ w1.store = ⟨[], [], [], [], 1⟩
      ∧ w1.log = [] ++ [errorFactoryRecord (appGlobals none fun m => "Error: " ++ m) "E1" 400
          "E1" none none] :=
  (failIf_true_follows_logger (appGlobals none fun m => "Error: " ++ m) (some "E1") none none
    none none none ⟨⟨[], [], [], [], 1⟩, [], []⟩).1 rfl

/-- C26: `signin` returns the same failed Result for an email that no user has and for the
email of a user whose password does not compare equal: the value is `null` and the error
list is exactly the plain object with code 401 and the message "Wrong combination of email
and password, or user does not exist."; the internal messages and codes are not in it, and
the store is unchanged. -/
theorem signin_failures_indistinguishable (nodeEnv : Option String)
    (captureStack : String → String) (lib : AuthLib) (email : Option String)
    (password : String) (w : World) :
    (w.store.userFindUniqueByEmail email = none →
        ∃ w1, signin (appGlobals nodeEnv captureStack) lib email password w
            = .ok (⟨JsVal.null, some [ErrItem.plain 401
                "Wrong combination of email and password, or user does not exist."]⟩, w1)
          ∧ w1.store = w.store)
      ∧ (∀ user, w.store.userFindUniqueByEmail email = some user →
        lib.compare password user.hashedPassword = false →
        ∃ w1, signin (appGlobals nodeEnv captureStack) lib email password w
            = .ok (⟨JsVal.null, some [ErrItem.plain 401
                "Wrong combination of email and password, or user does not exist."]⟩, w1)
          ∧ w1.store = w.store) := by
  constructor
  · intro hnone
    obtain ⟨w1, h1, hs1, _⟩ := failIf_app nodeEnv captureStack true
      (some "Wrong combination of email and password, or user does not exist.") (some 401)
      (some "User does not exist.") (some 404) none none w
    simp only [Option.getD_some, if_true] at h1
    refine ⟨w1, ?_, hs1⟩
    simp only [signin, hnone, Option.isNone_none, h1, single_isError, fail_single, bind,
      Except.bind, pure, Except.pure, if_true]
  · intro user hsome hcmp
    obtain ⟨w1, h1, hs1, _⟩ := failIf_app nodeEnv captureStack true
      (some "Wrong combination of email and password, or user does not exist.") (some 401)
      (some "Bad password.") none none none w
    simp only [Option.getD_some, Option.getD_none, if_true] at h1
    refine ⟨w1, ?_, hs1⟩
    simp only [signin, hsome, Option.isNone_some, failIf_false_eq, neutral_isError, hcmp,
      Bool.not_false, h1, single_isError, fail_single, bind, Except.bind, pure, Except.pure,
      if_true, Bool.false_eq_true, if_false]

/-- A witness for `signin_failures_indistinguishable`: one registered user; the same Result
for an unknown email and for the known email with a password that does not compare equal. -/
theorem signin_failures_indistinguishable_witness :
    (∃ w1, signin (appGlobals none fun m => "Error: " ++ m)
            ⟨fun p => "hash:" ++ p, fun p h => "hash:" ++ p == h, fun e n => e ++ "/" ++ n, 41⟩
            (some "nobody@jest.co") "password1"
            ⟨⟨[⟨1, "user@jest.co", "User", "hash:password1", 42⟩], [], [], [], 2⟩, [], []⟩
          = .ok (⟨JsVal.null, some [ErrItem.plain 401
              "Wrong combination of email and password, or user does not exist."]⟩, w1)
        ∧ w1.store = ⟨[⟨1, "user@jest.co", "User", "hash:password1", 42⟩], [], [], [], 2⟩)
      ∧ (∃ w1, signin (appGlobals none fun m => "Error: " ++ m)
            ⟨fun p => "hash:" ++ p, fun p h => "hash:" ++ p == h, fun e n => e ++ "/" ++ n, 41⟩
            (some "user@jest.co") "password2"
            ⟨⟨[⟨1, "user@jest.co", "User", "hash:password1", 42⟩], [], [], [], 2⟩, [], []⟩
          = .ok (⟨JsVal.null, some [ErrItem.plain 401
              "Wrong combination of email and password, or user does not exist."]⟩, w1)
        ∧ w1.store = ⟨[⟨1, "user@jest.co", "User", "hash:password1", 42⟩], [], [], [], 2⟩) :=
  ⟨(signin_failures_indistinguishable none (fun m => "Error: " ++ m)
      ⟨fun p => "hash:" ++ p, fun p h => "hash:" ++ p == h, fun e n => e ++ "/" ++ n, 41⟩
      (some "nobody@jest.co") "password1"
      ⟨⟨[⟨1, "user@jest.co", "User", "hash:password1", 42⟩], [], [], [], 2⟩, [], []⟩).1
      (by decide),
    (signin_failures_indistinguishable none (fun m => "Error: " ++ m)
      ⟨fun p => "hash:" ++ p, fun p h => "hash:" ++ p == h, fun e n => e ++ "/" ++ n, 41⟩
      (some "user@jest.co") "password2"
      ⟨⟨[⟨1, "user@jest.co", "User", "hash:password1", 42⟩], [], [], [], 2⟩, [], []⟩).2
      ⟨1, "user@jest.co", "User", "hash:password1", 42⟩ (by decide) (by decide)⟩

/-- C30: for every failed Result `r` built by `failIf` and `merge`, with the external pairs
`exts` of its descriptors, `Result.fail(r)` lists `{code, message}` of each pair, and
`Result.fail(Result.fail(r))` lists the same messages in the same order, each with code
500; the two are equal exactly when every external code of `r` is 500. -/
theorem fail_twice_codes_500 (r : Result) (hb : Built r) (hf : r.isError = true) :
    ∃ exts : List External,
      r.error.map (List.map ErrItem.external) = some (exts.map some)
      ∧ Result.fail r = .ok ⟨JsVal.null, some (exts.map fun x => ErrItem.plain x.code x.message)⟩
      ∧ (Result.fail r).bind Result.fail
          = .ok ⟨JsVal.null, some (exts.map fun x => ErrItem.plain 500 x.message)⟩
      ∧ ((Result.fail r).bind Result.fail = Result.fail r ↔ ∀ x ∈ exts, x.code = 500) := by
  have hext := built_errors_have_external r hb
  cases hr : r.error with
  | none => simp [Result.isError, hr] at hf
  | some errs =>
    rw [hr] at hext
    simp only [Option.getD_some] at hext
    have h1 : Result.fail r = .ok ⟨JsVal.null,
        some ((errs.map fun e => e.external.getD ⟨500, e.message⟩).map
          fun x => ErrItem.plain x.code x.message)⟩ := by
      simp only [Result.fail, hr, Result.constructor, List.nil_append, List.map_map]
      congr 3
      apply List.map_congr_left
      intro e he
      obtain ⟨ext, hx⟩ := hext e he
      simp [hx]
    have h2 : (Result.fail r).bind Result.fail = .ok ⟨JsVal.null,
        some ((errs.map fun e => e.external.getD ⟨500, e.message⟩).map
          fun x => ErrItem.plain 500 x.message)⟩ := by
      rw [h1]
      simp only [Except.bind, Result.fail, Result.constructor, List.nil_append, List.map_map]
      congr 3
    refine ⟨errs.map fun e => e.external.getD ⟨500, e.message⟩, ?_, h1, h2, ?_⟩
    · simp only [Option.map_some', List.map_map]
      congr 1
      apply List.map_congr_left
      intro e he
      obtain ⟨ext, hx⟩ := hext e he
      simp [hx]
    · rw [h2, h1]
      generalize (errs.map fun e => e.external.getD ⟨500, e.message⟩) = exts
      constructor
      · intro h x hx
        have hl : (exts.map fun x => ErrItem.plain 500 x.message)
            = exts.map fun x => ErrItem.plain x.code x.message := by
          injection h with h
          injection h with _ h
          injection h
        have := List.map_inj_left.mp hl x hx
        injection this with hc _
        exact hc.symm
      · intro h
        congr 3
        apply List.map_congr_left
        intro x hx
        rw [h x hx]

/-- A witness for `fail_twice_codes_500`: the Result of `failIf(true, "Team does not
exist.", 404)`, whose second `fail` reports code 500 where the first reports 404. -/
theorem fail_twice_codes_500_witness :
    ∃ exts : List External,
      (⟨JsVal.null, some [ErrItem.error "Team does not exist." (some 404)
          (some ⟨404, "Team does not exist."⟩) "Error: Team does not exist."]⟩ : Result).error.map
            (List.map ErrItem.external) = some (exts.map some)
      ∧ Result.fail ⟨JsVal.null, some [ErrItem.error "Team does not exist." (some 404)
          (some ⟨404, "Team does not exist."⟩) "Error: Team does not exist."]⟩
        = .ok ⟨JsVal.null, some (exts.map fun x => ErrItem.plain x.code x.message)⟩
      ∧ (Result.fail ⟨JsVal.null, some [ErrItem.error "Team does not exist." (some 404)
          (some ⟨404, "Team does not exist."⟩) "Error: Team does not exist."]⟩).bind Result.fail
        = .ok ⟨JsVal.null, some (exts.map fun x => ErrItem.plain 500 x.message)⟩
      ∧ ((Result.fail ⟨JsVal.null, some [ErrItem.error "Team does not exist." (some 404)
          (some ⟨404, "Team does not exist."⟩) "Error: Team does not exist."]⟩).bind Result.fail
          = Result.fail ⟨JsVal.null, some [ErrItem.error "Team does not exist." (some 404)
            (some ⟨404, "Team does not exist."⟩) "Error: Team does not exist."]⟩
        ↔ ∀ x ∈ exts, x.code = 500) :=
  fail_twice_codes_500 _
    (Built.failIf (appGlobals none fun m => "Error: " ++ m) true (some "Team does not exist.")
      (some 404) none none none none ⟨⟨[], [], [], [], 0⟩, [], []⟩ _ _ rfl)
    (by rfl)

/-! ## Theorems: the delete count of acceptTeamRequest -/

/-- C29: in `acceptTeamRequest` with a found request, everything after the deletion is the
check of the count that the deletion reported, followed by the membership insert. For a
reported count of zero the function returns the failed Result with the single error
`{code: 404, message: "Team request not found."}` and leaves the store as it is, so no
membership is created; for every reported count of at least one it inserts the membership
and returns the empty success; so a run that changes the memberships had a count of at
least one. -/
theorem acceptTeamRequest_checks_count_before_insert (nodeEnv : Option String)
    (captureStack : String → String) :
    (∀ (ownerEmail teamName name : String) (owner user : User) (team : Team)
        (req : TeamRequest) (w : World),
        w.store.userFindUniqueByEmail (some ownerEmail) = some owner →
        w.store.teamFindUnique (some teamName) = some team →
        w.store.userFindUniqueByName (some name) = some user →
        team.ownerId = owner.id → ownerEmail ≠ "" → teamName ≠ "" → name ≠ "" →
        w.store.requestFindFirst team.id user.id = some req →
        acceptTeamRequest (appGlobals nodeEnv captureStack) (some ownerEmail) (some teamName)
            (some name) w
          = acceptTeamRequestAfterDelete (appGlobals nodeEnv captureStack) team req
              (w.store.requestDeleteManyById req.id).1
              ⟨(w.store.requestDeleteManyById req.id).2, w.log, w.console⟩)
      ∧ (∀ (team : Team) (request : TeamRequest) (w : World),
        ∃ w1, acceptTeamRequestAfterDelete (appGlobals nodeEnv captureStack) team request 0 w
            = .ok (⟨JsVal.null, some [ErrItem.plain 404 "Team request not found."]⟩, w1)
          ∧ w1.store = w.store)
      ∧ (∀ (team : Team) (request : TeamRequest) (count : Nat) (w : World), 1 ≤ count →
        acceptTeamRequestAfterDelete (appGlobals nodeEnv captureStack) team request count w
          = .ok (⟨JsVal.null, none⟩,
              ⟨w.store.membershipCreate team.id request.userId, w.log, w.console⟩))
      ∧ (∀ (team : Team) (request : TeamRequest) (count : Nat) (w w1 : World) (r : Result),
        acceptTeamRequestAfterDelete (appGlobals nodeEnv captureStack) team request count w
          = .ok (r, w1) →
        w1.store.memberships ≠ w.store.memberships → 1 ≤ count) := by
  have hzero : ∀ (team : Team) (request : TeamRequest) (w : World),
      ∃ w1, acceptTeamRequestAfterDelete (appGlobals nodeEnv captureStack) team request 0 w
          = .ok (⟨JsVal.null, some [ErrItem.plain 404 "Team request not found."]⟩, w1)
        ∧ w1.store = w.store := by
    intro team request w
    obtain ⟨w1, h1, hs1, _⟩ := failIf_app nodeEnv captureStack true
      (some "Team request not found.") (some 404) none none none none w
    simp only [Option.getD_some, Option.getD_none, if_true] at h1
    refine ⟨w1, ?_, hs1⟩
    simp only [acceptTeamRequestAfterDelete, Nat.lt_one_iff, decide_True, h1, single_isError,
      fail_single, bind, Except.bind, pure, Except.pure, if_true]
  refine ⟨?_, hzero, ?_, ?_⟩
  · intro ownerEmail teamName name owner user team req w howner hteam huser hown hoe htn hn hreq
    have hp := three_params_present ownerEmail teamName name hoe htn hn
    have hne : (team.ownerId != owner.id) = false := bne_false_of_eq _ _ hown
    simp only [acceptTeamRequest, strFalsy_some, hp, failIf_false_eq, neutral_isError, howner,
      hteam, huser, Option.isNone_some, validation3_pass_eq, hne, hreq, bind, Except.bind, pure,
      Except.pure, Bool.false_eq_true, if_false]
  · intro team request count w hc
    have hd : decide (count < 1) = false := by
      simp only [decide_eq_false_iff_not]
      omega
    simp only [acceptTeamRequestAfterDelete, hd, failIf_false_eq, neutral_isError, Result.ok,
      Result.constructor, bind, Except.bind, pure, Except.pure, Bool.false_eq_true, if_false,
      Option.getD_none]
  · intro team request count w w1 r h hne
    by_contra hc
    have h0 : count = 0 := by omega
    subst h0
    obtain ⟨w2, h2, hs2⟩ := hzero team request w
    rw [h2] at h
    injection h with h
    injection h with _ hw
    subst hw
    exact hne (by rw [hs2])

/-- A witness for `acceptTeamRequest_checks_count_before_insert`: for a team with id 2 and
a request of user 3, a reported count of zero gives the 404 Result and an unchanged store,
and a reported count of one inserts the membership. -/
theorem acceptTeamRequest_checks_count_before_insert_witness :
    (∃ w1, acceptTeamRequestAfterDelete (appGlobals none fun m => "Error: " ++ m)
          ⟨2, "Team", 11, 1⟩ ⟨4, 2, 3, "hello"⟩ 0 ⟨⟨[], [], [], [], 5⟩, [], []⟩
        = .ok (⟨JsVal.null, some [ErrItem.plain 404 "Team request not found."]⟩, w1)
      ∧ w1.store = ⟨[], [], [], [], 5⟩)
    ∧ 1 ≤ 1
    ∧ acceptTeamRequestAfterDelete (appGlobals none fun m => "Error: " ++ m)
          ⟨2, "Team", 11, 1⟩ ⟨4, 2, 3, "hello"⟩ 1 ⟨⟨[], [], [], [], 5⟩, [], []⟩
        = .ok (⟨JsVal.null, none⟩,
            ⟨(⟨[], [], [], [], 5⟩ : Store).membershipCreate 2 3, [], []⟩) :=
  ⟨(acceptTeamRequest_checks_count_before_insert none fun m => "Error: " ++ m).2.1
      ⟨2, "Team", 11, 1⟩ ⟨4, 2, 3, "hello"⟩ ⟨⟨[], [], [], [], 5⟩, [], []⟩,
    by decide,
    (acceptTeamRequest_checks_count_before_insert none fun m => "Error: " ++ m).2.2.1
      ⟨2, "Team", 11, 1⟩ ⟨4, 2, 3, "hello"⟩ 1 ⟨⟨[], [], [], [], 5⟩, [], []⟩ (by decide)⟩

/-! ## Theorems: getUser and getAllUsers -/

/-- C24: `getUser`. With email and name both absent (`null` or empty) the result is, for every
store, the failed Result with exactly the error `{code: 400, message: "Email or name must be
provided."}`, and the store is unchanged. With an email or a name given and no user found by
the lookup (by email when the email is given, by name otherwise) the error list is exactly
`{code: 404, message: "User does not exist."}`. With a user found the result is the success
whose value is the DTO with the rank (the number of users with a greater score, plus one),
the name, the score, and under `team` the names of the teams of the memberships of the
user. -/
theorem getUser_cases (nodeEnv : Option String) (captureStack : String → String)
    (email name : Option String) (w : World) :
    (strFalsy email = true → strFalsy name = true →
        ∃ w1, getUser (appGlobals nodeEnv captureStack) email name w
            = .ok (⟨JsVal.null, some [ErrItem.plain 400 "Email or name must be provided."]⟩, w1)
          ∧ w1.store = w.store)
      ∧ ((strFalsy email && strFalsy name) = false →
        (if strFalsy email then w.store.userFindUniqueByName name
          else w.store.userFindUniqueByEmail email) = none →
        ∃ w1, getUser (appGlobals nodeEnv captureStack) email name w
            = .ok (⟨JsVal.null, some [ErrItem.plain 404 "User does not exist."]⟩, w1)
          ∧ w1.store = w.store)
      ∧ (∀ user, (strFalsy email && strFalsy name) = false →
        (if strFalsy email then w.store.userFindUniqueByName name
          else w.store.userFindUniqueByEmail email) = some user →
        getUser (appGlobals nodeEnv captureStack) email name w
          = .ok (⟨JsVal.obj [("rank", JsVal.num ((w.store.userCountScoreGt user.score : Int) + 1)),
              ("name", JsVal.str user.name), ("score", JsVal.num user.score),
              ("team", JsVal.arr ((w.store.userTeamMemberships user.id).map
                fun m => JsVal.str m.2.name))], none⟩, w)) := by
  refine ⟨?_, ?_, ?_⟩
  · intro he hn
    obtain ⟨w1, h1, hs1, _⟩ := failIf_app nodeEnv captureStack true
      (some "Email or name must be provided.") none none none none none w
    simp only [Option.getD_some, Option.getD_none, if_true] at h1
    refine ⟨w1, ?_, hs1⟩
    simp only [getUser, he, hn, Bool.and_self, h1, single_isError, fail_single, bind,
      Except.bind, pure, Except.pure, if_true]
  · intro hq hnone
    obtain ⟨w1, h1, hs1, _⟩ := failIf_app nodeEnv captureStack true
      (some "User does not exist.") (some 404) none none none none w
    simp only [Option.getD_some, Option.getD_none, if_true] at h1
    refine ⟨w1, ?_, hs1⟩
    simp only [getUser, hq, failIf_false_eq, neutral_isError, hnone, Option.isNone_none, h1,
      single_isError, fail_single, bind, Except.bind, pure, Except.pure, if_true,
      Bool.false_eq_true, if_false]
  · intro user hq hsome
    simp only [getUser, hq, failIf_false_eq, neutral_isError, hsome, Option.isNone_some,
      mapToUserDTO, Result.ok, Result.constructor, bind, Except.bind, pure, Except.pure,
      if_true, Bool.false_eq_true, if_false, Option.getD_none, Option.getD_some, beq_self_eq_true,
      List.cons_append, List.nil_append]

/-- A witness for `getUser_cases`: a store with one user who is a member of one team; the
three cases at `getUser(null, null)`, `getUser(null, "Nobody")` and `getUser("", "User")`. -/
theorem getUser_cases_witness :
    (∃ w1, getUser (appGlobals none fun m => "Error: " ++ m) none none
          ⟨⟨[⟨1, "user@jest.co", "User", "hash", 42⟩], [⟨2, "Team", 11, 1⟩], [⟨3, 2, 1⟩], [], 4⟩,
            [], []⟩
        = .ok (⟨JsVal.null, some [ErrItem.plain 400 "Email or name must be provided."]⟩, w1)
      ∧ w1.store
        = ⟨[⟨1, "user@jest.co", "User", "hash", 42⟩], [⟨2, "Team", 11, 1⟩], [⟨3, 2, 1⟩], [], 4⟩)
    ∧ (∃ w1, getUser (appGlobals none fun m => "Error: " ++ m) none (some "Nobody")
          ⟨⟨[⟨1, "user@jest.co", "User", "hash", 42⟩], [⟨2, "Team", 11, 1⟩], [⟨3, 2, 1⟩], [], 4⟩,
            [], []⟩
        = .ok (⟨JsVal.null, some [ErrItem.plain 404 "User does not exist."]⟩, w1)
      ∧ w1.store
        = ⟨[⟨1, "user@jest.co", "User", "hash", 42⟩], [⟨2, "Team", 11, 1⟩], [⟨3, 2, 1⟩], [], 4⟩)
    ∧ getUser (appGlobals none fun m => "Error: " ++ m) (some "") (some "User")
          ⟨⟨[⟨1, "user@jest.co", "User", "hash", 42⟩], [⟨2, "Team", 11, 1⟩], [⟨3, 2, 1⟩], [], 4⟩,
            [], []⟩
        = .ok (⟨JsVal.obj [("rank", JsVal.num 1), ("name", JsVal.str "User"),
            ("score", JsVal.num 42), ("team", JsVal.arr [JsVal.str "Team"])], none⟩,
          ⟨⟨[⟨1, "user@jest.co", "User", "hash", 42⟩], [⟨2, "Team", 11, 1⟩], [⟨3, 2, 1⟩], [], 4⟩,
            [], []⟩) :=
  ⟨(getUser_cases none (fun m => "Error: " ++ m) none none
      ⟨⟨[⟨1, "user@jest.co", "User", "hash", 42⟩], [⟨2, "Team", 11, 1⟩], [⟨3, 2, 1⟩], [], 4⟩,
        [], []⟩).1 rfl rfl,
    (getUser_cases none (fun m => "Error: " ++ m) none (some "Nobody")
      ⟨⟨[⟨1, "user@jest.co", "User", "hash", 42⟩], [⟨2, "Team", 11, 1⟩], [⟨3, 2, 1⟩], [], 4⟩,
        [], []⟩).2.1 (by decide) (by decide),
    (getUser_cases none (fun m => "Error: " ++ m) (some "") (some "User")
      ⟨⟨[⟨1, "user@jest.co", "User", "hash", 42⟩], [⟨2, "Team", 11, 1⟩], [⟨3, 2, 1⟩], [], 4⟩,
        [], []⟩).2.2 ⟨1, "user@jest.co", "User", "hash", 42⟩ (by decide) (by decide)⟩

theorem mapM_ok_of_forall {α β : Type} (F : α → Except Fault β) (G : α → β) (l : List α)
    (h : ∀ x ∈ l, F x = .ok (G x)) : l.mapM F = .ok (l.map G) := by
  induction l with
  | nil => rfl
  | cons x xs ih =>
    rw [List.mapM_cons, h x (List.mem_cons_self x xs),
      ih (fun y hy => h y (List.mem_cons_of_mem x hy))]
    rfl

theorem userCountScoreGt_sorted (s : Store) (score : Int) :
    s.userCountScoreGt score
      = ((s.users.insertionSort scoreDesc).filter fun v => decide (v.score > score)).length := by
  unfold Store.userCountScoreGt
  exact ((List.perm_insertionSort scoreDesc s.users).filter _).length_eq.symm

theorem sorted_split_at (l : List User) (hs : l.Sorted scoreDesc) (i : Nat) (u : User)
    (h : l[i]? = some u) :
    i < l.length
      ∧ (∀ a ∈ l.take i, u.score ≤ a.score)
      ∧ (l.filter fun v => decide (v.score > u.score)).length
        = ((l.take i).filter fun v => decide (v.score > u.score)).length := by
  obtain ⟨hi, hu⟩ := List.getElem?_eq_some.mp h
  have hdrop : l.drop i = u :: l.drop (i + 1) := by
    rw [List.drop_eq_getElem_cons hi, hu]
  have hpw : List.Pairwise scoreDesc (l.take i ++ l.drop i) := by
    rw [List.take_append_drop]
    exact hs
  obtain ⟨_, hd, hcross⟩ := List.pairwise_append.mp hpw
  rw [hdrop] at hd hcross
  have hrest := (List.pairwise_cons.mp hd).1
  refine ⟨hi, fun a ha => hcross a ha u (List.mem_cons_self _ _), ?_⟩
  have hnil : (l.drop i).filter (fun v => decide (v.score > u.score)) = [] := by
    rw [List.filter_eq_nil_iff]
    intro a ha
    rw [hdrop] at ha
    simp only [decide_eq_true_eq, gt_iff_lt, not_lt]
    rcases List.mem_cons.mp ha with rfl | ha
    · exact le_refl _
    · exact hrest a ha
  conv_lhs => rw [← List.take_append_drop i l]
  rw [List.filter_append, hnil, List.append_nil]

theorem sorted_count_gt_eq_iff (l : List User) (hs : l.Sorted scoreDesc) (i : Nat) (u : User)
    (h : l[i]? = some u) :
    (l.filter fun v => decide (v.score > u.score)).length = i
      ↔ ∀ j v, j < i → l[j]? = some v → v.score ≠ u.score := by
  obtain ⟨hi, hge, hlen⟩ := sorted_split_at l hs i u h
  have htake : (l.take i).length = i := List.length_take_of_le (Nat.le_of_lt hi)
  rw [hlen]
  constructor
  · intro hc j v hj hv
    have hall := List.filter_length_eq_length.mp (hc.trans htake.symm)
    have hmem : v ∈ l.take i := by
      apply List.getElem?_mem (n := j)
      rw [List.getElem?_take_of_lt hj, hv]
    have := hall v hmem
    simp only [decide_eq_true_eq, gt_iff_lt] at this
    exact ne_of_gt this
  · intro hne
    have hall : ∀ a ∈ l.take i, decide (a.score > u.score) = true := by
      intro a ha
      obtain ⟨j, hj, rfl⟩ := List.mem_take_iff_getElem.mp ha
      have hji : j < i := lt_of_lt_of_le hj (min_le_left _ _)
      have hjl : j < l.length := lt_of_lt_of_le hj (min_le_right _ _)
      have h1 := hge l[j] ha
      have h2 := hne j l[j] hji (List.getElem?_eq_getElem hjl)
      simp only [decide_eq_true_eq, gt_iff_lt]
      exact lt_of_le_of_ne h1 (Ne.symm h2)
    rw [List.filter_length_eq_length.mpr hall, htake]

theorem sorted_head_count (s : Store) (u : User)
    (h : (s.users.insertionSort scoreDesc)[0]? = some u) : s.userCountScoreGt u.score = 0 := by
  rw [userCountScoreGt_sorted]
  exact (sorted_count_gt_eq_iff _ (List.sorted_insertionSort scoreDesc s.users) 0 u h).mpr
    (fun j v hj => absurd hj (Nat.not_lt_zero j))

theorem getAllUsers_eq (w : World) :
    getAllUsers w
      = .ok (⟨JsVal.arr ((w.store.users.insertionSort scoreDesc).enum.map fun indexed =>
          JsVal.obj [("rank", JsVal.num ((indexed.1 : Int) + 1)),
            ("name", JsVal.str indexed.2.name), ("score", JsVal.num indexed.2.score),
            ("team", JsVal.arr ((w.store.userTeamMemberships indexed.2.id).map
              fun m => JsVal.str m.2.name))]), none⟩, w) := by
  have hmap := mapM_ok_of_forall
    (fun (indexed : Nat × UserObj) => mapToUserDTO w.store indexed.2 true (some indexed.1))
    (fun indexed => JsVal.obj [("rank", JsVal.num ((indexed.1 : Int) + 1)),
      ("name", JsVal.str indexed.2.row.name), ("score", JsVal.num indexed.2.row.score),
      ("team", JsVal.arr ((w.store.userTeamMemberships indexed.2.row.id).map
        fun m => JsVal.str m.2.name))])
    w.store.userFindManyOrderByScoreDesc.enum (by
      intro x hx
      obtain ⟨i, uo⟩ := x
      have hget := List.mk_mem_enum_iff_getElem?.mp hx
      simp only [Store.userFindManyOrderByScoreDesc, List.getElem?_map, Option.map_eq_some']
        at hget
      obtain ⟨u, hu, rfl⟩ := hget
      by_cases hi : i = 0
      · subst hi
        have hc := sorted_head_count w.store u hu
        simp [mapToUserDTO, hc]
      · simp [mapToUserDTO, hi])
  simp only [getAllUsers, hmap, bind, Except.bind, pure, Except.pure, Result.ok,
    Result.constructor, Option.getD_some]
  simp only [Store.userFindManyOrderByScoreDesc, List.enum_map, List.map_map]
  rfl

/-- C22: for every store, `getAllUsers` returns a success Result and leaves the store as it
is; the value is the array of the DTOs of a list `listed` of users that is a permutation of
the users of the store (every user once) in non-increasing score order, and the DTO at the
0-based position `i` has rank `i + 1` (also at position 0, where the count query gives 0),
with the name, the score and the team names of the user at that position; no user has a
greater score than the one listed first. -/
theorem getAllUsers_ranked_by_position (w : World) :
    ∃ listed : List User,
      listed.Perm w.store.users
      ∧ listed.Pairwise (fun a b => b.score ≤ a.score)
      ∧ getAllUsers w
        = .ok (⟨JsVal.arr (listed.enum.map fun indexed =>
            JsVal.obj [("rank", JsVal.num ((indexed.1 : Int) + 1)),
              ("name", JsVal.str indexed.2.name), ("score", JsVal.num indexed.2.score),
              ("team", JsVal.arr ((w.store.userTeamMemberships indexed.2.id).map
                fun m => JsVal.str m.2.name))]), none⟩, w)
      ∧ (∀ first, listed[0]? = some first → ∀ u ∈ w.store.users, u.score ≤ first.score) := by
  refine ⟨w.store.users.insertionSort scoreDesc, List.perm_insertionSort scoreDesc w.store.users,
    List.sorted_insertionSort scoreDesc w.store.users, getAllUsers_eq w, ?_⟩
  intro first hfirst u hu
  have hc := sorted_head_count w.store first hfirst
  unfold Store.userCountScoreGt at hc
  have hnil := List.filter_eq_nil_iff.mp (List.length_eq_zero.mp hc) u hu
  simpa using hnil

/-- C23 as stated fails: with two users of the same score 90, `getAllUsers` ranks them 1
and 2, while the rank of each of them computed in isolation (`getUser`) is 1, whatever the
order in which the store lists equal scores. -/
theorem rank_isolated_differs_on_tie :
    getAllUsers ⟨⟨[⟨1, "three@jest.co", "MemberThree", "hash", 90⟩,
          ⟨2, "four@jest.co", "MemberFour", "hash", 90⟩], [], [], [], 3⟩, [], []⟩
      = .ok (⟨JsVal.arr [
          JsVal.obj [("rank", JsVal.num 1), ("name", JsVal.str "MemberThree"),
            ("score", JsVal.num 90), ("team", JsVal.arr [])],
          JsVal.obj [("rank", JsVal.num 2), ("name", JsVal.str "MemberFour"),
            ("score", JsVal.num 90), ("team", JsVal.arr [])]], none⟩,
        ⟨⟨[⟨1, "three@jest.co", "MemberThree", "hash", 90⟩,
          ⟨2, "four@jest.co", "MemberFour", "hash", 90⟩], [], [], [], 3⟩, [], []⟩)
    ∧ getUser (appGlobals none fun m => "Error: " ++ m) none (some "MemberThree")
        ⟨⟨[⟨1, "three@jest.co", "MemberThree", "hash", 90⟩,
          ⟨2, "four@jest.co", "MemberFour", "hash", 90⟩], [], [], [], 3⟩, [], []⟩
      = .ok (⟨JsVal.obj [("rank", JsVal.num 1), ("name", JsVal.str "MemberThree"),
            ("score", JsVal.num 90), ("team", JsVal.arr [])], none⟩,
        ⟨⟨[⟨1, "three@jest.co", "MemberThree", "hash", 90⟩,
          ⟨2, "four@jest.co", "MemberFour", "hash", 90⟩], [], [], [], 3⟩, [], []⟩)
    ∧ getUser (appGlobals none fun m => "Error: " ++ m) none (some "MemberFour")
        ⟨⟨[⟨1, "three@jest.co", "MemberThree", "hash", 90⟩,
          ⟨2, "four@jest.co", "MemberFour", "hash", 90⟩], [], [], [], 3⟩, [], []⟩
      = .ok (⟨JsVal.obj [("rank", JsVal.num 1), ("name", JsVal.str "MemberFour"),
            ("score", JsVal.num 90), ("team", JsVal.arr [])], none⟩,
        ⟨⟨[⟨1, "three@jest.co", "MemberThree", "hash", 90⟩,
          ⟨2, "four@jest.co", "MemberFour", "hash", 90⟩], [], [], [], 3⟩, [], []⟩) :=
  ⟨rfl, rfl, rfl⟩

/-- C23, amended: for every store and every position `i` of the score-descending sequence,
with the user at that position, the rank that `mapToUserDTO` computes for the user in
isolation (the number of users with a strictly greater score, plus one) and the rank `i + 1`
of the DTO at position `i` of `getAllUsers` are equal exactly when no user at an earlier
position has the same score; in particular they are equal for every user whose score no
other user has. -/
theorem rank_isolated_eq_batch_iff (w : World) (i : Nat) (user : UserObj)
    (h : w.store.userFindManyOrderByScoreDesc[i]? = some user) :
    ∃ dtos dto isolated,
      getAllUsers w = .ok (⟨JsVal.arr dtos, none⟩, w)
      ∧ dtos[i]? = some dto
      ∧ mapToUserDTO w.store user true none = .ok isolated
      ∧ dto.get "rank" = some (JsVal.num ((i : Int) + 1))
      ∧ isolated.get "rank"
        = some (JsVal.num ((w.store.userCountScoreGt user.row.score : Int) + 1))
      ∧ (isolated.get "rank" = dto.get "rank"
        ↔ ∀ j other, j < i → w.store.userFindManyOrderByScoreDesc[j]? = some other →
          other.row.score ≠ user.row.score) := by
  simp only [Store.userFindManyOrderByScoreDesc, List.getElem?_map, Option.map_eq_some'] at h
  obtain ⟨u, hu, rfl⟩ := h
  have hdto : ((w.store.users.insertionSort scoreDesc).enum.map fun indexed =>
      JsVal.obj [("rank", JsVal.num ((indexed.1 : Int) + 1)),
        ("name", JsVal.str indexed.2.name), ("score", JsVal.num indexed.2.score),
        ("team", JsVal.arr ((w.store.userTeamMemberships indexed.2.id).map
          fun m => JsVal.str m.2.name))])[i]?
      = some (JsVal.obj [("rank", JsVal.num ((i : Int) + 1)),
        ("name", JsVal.str u.name), ("score", JsVal.num u.score),
        ("team", JsVal.arr ((w.store.userTeamMemberships u.id).map
          fun m => JsVal.str m.2.name))]) := by
    rw [List.getElem?_map, List.getElem?_enum, hu]
    rfl
  have hiso : mapToUserDTO w.store ⟨u, some (w.store.userTeamMemberships u.id)⟩ true none
      = .ok (JsVal.obj [("rank", JsVal.num ((w.store.userCountScoreGt u.score : Int) + 1)),
        ("name", JsVal.str u.name), ("score", JsVal.num u.score),
        ("team", JsVal.arr ((w.store.userTeamMemberships u.id).map
          fun m => JsVal.str m.2.name))]) := by
    simp [mapToUserDTO]
  refine ⟨_, _, _, getAllUsers_eq w, hdto, hiso, rfl, rfl, ?_⟩
  have hget1 : (JsVal.obj [("rank", JsVal.num ((w.store.userCountScoreGt u.score : Int) + 1)),
        ("name", JsVal.str u.name), ("score", JsVal.num u.score),
        ("team", JsVal.arr ((w.store.userTeamMemberships u.id).map
          fun m => JsVal.str m.2.name))]).get "rank"
      = some (JsVal.num ((w.store.userCountScoreGt u.score : Int) + 1)) := rfl
  have hget2 : (JsVal.obj [("rank", JsVal.num ((i : Int) + 1)),
        ("name", JsVal.str u.name), ("score", JsVal.num u.score),
        ("team", JsVal.arr ((w.store.userTeamMemberships u.id).map
          fun m => JsVal.str m.2.name))]).get "rank"
      = some (JsVal.num ((i : Int) + 1)) := rfl
  rw [hget1, hget2]
  have hiff := sorted_count_gt_eq_iff _ (List.sorted_insertionSort scoreDesc w.store.users) i u hu
  rw [← userCountScoreGt_sorted] at hiff
  constructor
  · intro heq j other hj hother
    simp only [Store.userFindManyOrderByScoreDesc, List.getElem?_map, Option.map_eq_some']
      at hother
    obtain ⟨v, hv, rfl⟩ := hother
    have hn : (w.store.userCountScoreGt u.score : Int) + 1 = (i : Int) + 1 := by
      injection heq with heq
      injection heq
    exact hiff.mp (by omega) j v hj hv
  · intro hne
    have hc : w.store.userCountScoreGt u.score = i := by
      apply hiff.mpr
      intro j v hj hv
      exact hne j ⟨v, some (w.store.userTeamMemberships v.id)⟩ hj (by
        simp only [Store.userFindManyOrderByScoreDesc, List.getElem?_map, hv, Option.map_some'])
    rw [hc]

/-- A witness for `rank_isolated_eq_batch_iff`: three users with the scores 50, 90 and 10;
the user at position 1 of the descending sequence. -/
theorem rank_isolated_eq_batch_iff_witness :
    ∃ dtos dto isolated,
      getAllUsers ⟨⟨[⟨1, "a@jest.co", "UserA", "hash", 50⟩, ⟨2, "b@jest.co", "UserB", "hash", 90⟩,
          ⟨3, "c@jest.co", "UserC", "hash", 10⟩], [], [], [], 4⟩, [], []⟩
        = .ok (⟨JsVal.arr dtos, none⟩,
          ⟨⟨[⟨1, "a@jest.co", "UserA", "hash", 50⟩, ⟨2, "b@jest.co", "UserB", "hash", 90⟩,
            ⟨3, "c@jest.co", "UserC", "hash", 10⟩], [], [], [], 4⟩, [], []⟩)
      ∧ dtos[1]? = some dto
      ∧ mapToUserDTO ⟨[⟨1, "a@jest.co", "UserA", "hash", 50⟩, ⟨2, "b@jest.co", "UserB", "hash", 90⟩,
            ⟨3, "c@jest.co", "UserC", "hash", 10⟩], [], [], [], 4⟩
          ⟨⟨1, "a@jest.co", "UserA", "hash", 50⟩, some []⟩ true none = .ok isolated
      ∧ dto.get "rank" = some (JsVal.num (((1 : Nat) : Int) + 1))
      ∧ isolated.get "rank"
        = some (JsVal.num (((⟨[⟨1, "a@jest.co", "UserA", "hash", 50⟩,
            ⟨2, "b@jest.co", "UserB", "hash", 90⟩, ⟨3, "c@jest.co", "UserC", "hash", 10⟩],
            [], [], [], 4⟩ : Store).userCountScoreGt
              (⟨⟨1, "a@jest.co", "UserA", "hash", 50⟩, some []⟩ : UserObj).row.score : Int) + 1))
      ∧ (isolated.get "rank" = dto.get "rank"
        ↔ ∀ j other, j < 1 →
          (⟨[⟨1, "a@jest.co", "UserA", "hash", 50⟩, ⟨2, "b@jest.co", "UserB", "hash", 90⟩,
            ⟨3, "c@jest.co", "UserC", "hash", 10⟩], [], [], [], 4⟩ :
              Store).userFindManyOrderByScoreDesc[j]? = some other →
          other.row.score ≠ (⟨⟨1, "a@jest.co", "UserA", "hash", 50⟩, some []⟩ : UserObj).row.score) :=
  rank_isolated_eq_batch_iff
    ⟨⟨[⟨1, "a@jest.co", "UserA", "hash", 50⟩, ⟨2, "b@jest.co", "UserB", "hash", 90⟩,
      ⟨3, "c@jest.co", "UserC", "hash", 10⟩], [], [], [], 4⟩, [], []⟩ 1
    ⟨⟨1, "a@jest.co", "UserA", "hash", 50⟩, some []⟩ rfl

/-! ## Theorems: memberships per team and user -/

theorem createTeamRequest_found_eq (nodeEnv : Option String)
    (captureStack : String → String) (email teamName : String) (message : Option String)
    (user : User) (team : Team) (w : World)
    (huser : w.store.userFindUniqueByEmail (some email) = some user)
    (hteam : w.store.teamFindUnique (some teamName) = some team)
    (hem : email ≠ "") (htn : teamName ≠ "") :
    createTeamRequest (appGlobals nodeEnv captureStack) (some email) (some teamName) message w
      = .ok (⟨JsVal.null, none⟩,
          ⟨⟨w.store.users, w.store.teams, w.store.memberships,
            w.store.requests ++ [⟨w.store.nextId, team.id, user.id, message.getD ""⟩],
            w.store.nextId + 1⟩, w.log, w.console⟩) := by
  simp only [createTeamRequest, strFalsy_some, two_params_present _ _ hem htn, failIf_false_eq,
    neutral_isError, bind, Except.bind, huser, hteam, Option.isNone_some, validation2_pass_eq,
    Store.requestCreate, pure, Except.pure, Bool.false_eq_true, if_false, Result.ok,
    Option.getD_none, Result.constructor]

theorem inv_of_sublist (s s1 : Store)
    (hm : s1.memberships.Sublist s.memberships)
    (ht : ∀ t ∈ s1.teams, ∃ t0 ∈ s.teams, t.id = t0.id) (hn : s.nextId ≤ s1.nextId)
    (hinv : s.membershipsUnique ∧ s.teamIdsBelowNext) :
    s1.membershipsUnique ∧ s1.teamIdsBelowNext := by
  obtain ⟨hu, hmb, htb⟩ := hinv
  refine ⟨List.Nodup.sublist (hm.map _) hu, ?_, ?_⟩
  · intro m hmem
    exact lt_of_lt_of_le (hmb m (hm.subset hmem)) hn
  · intro t hmem
    obtain ⟨t0, ht0, hid⟩ := ht t hmem
    rw [hid]
    exact lt_of_lt_of_le (htb t0 ht0) hn

theorem inv_of_append (s s1 : Store) (m : TeamMembership)
    (hm : s1.memberships = s.memberships ++ [m])
    (hfresh : ∀ m0 ∈ s.memberships, ¬(m0.teamId = m.teamId ∧ m0.userId = m.userId))
    (hmid : m.teamId < s1.nextId)
    (ht : ∀ t ∈ s1.teams, t.id < s1.nextId) (hn : s.nextId ≤ s1.nextId)
    (hinv : s.membershipsUnique ∧ s.teamIdsBelowNext) :
    s1.membershipsUnique ∧ s1.teamIdsBelowNext := by
  obtain ⟨hu, hmb, _⟩ := hinv
  refine ⟨?_, ?_, ht⟩
  · unfold Store.membershipsUnique at hu ⊢
    rw [hm, List.map_append, List.nodup_append]
    refine ⟨hu, List.nodup_singleton _, ?_⟩
    intro p hp hq
    simp only [List.map_cons, List.map_nil, List.mem_singleton] at hq
    obtain ⟨m0, hm0, rfl⟩ := List.mem_map.mp hp
    simp only [Prod.mk.injEq] at hq
    exact hfresh m0 hm0 hq
  · intro m1 hmem
    rw [hm] at hmem
    rcases List.mem_append.mp hmem with h1 | h1
    · exact lt_of_lt_of_le (hmb m1 h1) hn
    · simp only [List.mem_singleton] at h1
      rw [h1]
      exact hmid

theorem userCreate_preserves (s : Store) (email hashedPassword name : String) (score : Int)
    (v : User × Store) (h : s.userCreate email hashedPassword name score = .ok v)
    (hinv : s.membershipsUnique ∧ s.teamIdsBelowNext) :
    v.2.membershipsUnique ∧ v.2.teamIdsBelowNext := by
  unfold Store.userCreate at h
  split at h
  · cases h
  · cases h
    exact inv_of_sublist s _ (List.Sublist.refl _) (fun t ht => ⟨t, ht, rfl⟩) (Nat.le_succ _) hinv

theorem teamCreate_preserves (s : Store) (name : String) (maxMemberCount : Int)
    (ownerId memberUserId : Nat) (v : Team × Store)
    (h : s.teamCreate name maxMemberCount ownerId memberUserId = .ok v)
    (hinv : s.membershipsUnique ∧ s.teamIdsBelowNext) :
    v.2.membershipsUnique ∧ v.2.teamIdsBelowNext := by
  unfold Store.teamCreate at h
  split at h
  · cases h
  · cases h
    refine inv_of_append s _ ⟨s.nextId + 1, s.nextId, memberUserId⟩ rfl ?_ ?_ ?_ ?_ hinv
    · intro m0 hm0 hp
      have := hinv.2.1 m0 hm0
      simp only at hp
      omega
    · simp only
      omega
    · intro t ht
      simp only [List.mem_append, List.mem_singleton] at ht
      rcases ht with ht | rfl
      · have := hinv.2.2 t ht
        simp only
        omega
      · simp only
        omega
    · simp only
      omega

theorem teamUpdate_preserves (s : Store) (id : Nat) (name : Option String)
    (maxMemberCount : Option Int) (v : Team × Store)
    (h : s.teamUpdate id name maxMemberCount = .ok v)
    (hinv : s.membershipsUnique ∧ s.teamIdsBelowNext) :
    v.2.membershipsUnique ∧ v.2.teamIdsBelowNext := by
  unfold Store.teamUpdate at h
  split at h
  · cases h
  · rename_i t hfind
    split at h
    · cases h
    · cases h
      refine inv_of_sublist s _ (List.Sublist.refl _) ?_ (Nat.le_refl _) hinv
      intro t1 ht1
      simp only [List.mem_map] at ht1
      obtain ⟨t2, ht2, rfl⟩ := ht1
      by_cases hid : (t2.id == id) = true
      · refine ⟨t, List.mem_of_find?_eq_some hfind, ?_⟩
        simp only [hid, if_true]
      · refine ⟨t2, ht2, ?_⟩
        simp only [hid, if_false, Bool.false_eq_true]

theorem teamDelete_preserves (s : Store) (id : Nat) (v : Store)
    (h : s.teamDelete id = .ok v) (hinv : s.membershipsUnique ∧ s.teamIdsBelowNext) :
    v.membershipsUnique ∧ v.teamIdsBelowNext := by
  unfold Store.teamDelete at h
  split at h
  · cases h
    exact inv_of_sublist s _ (List.Sublist.refl _)
      (fun t ht => ⟨t, (List.mem_filter.mp ht).1, rfl⟩) (Nat.le_refl _) hinv
  · cases h

theorem membershipDeleteMany_preserves (s : Store) (ids : List Nat)
    (hinv : s.membershipsUnique ∧ s.teamIdsBelowNext) :
    (s.membershipDeleteMany ids).membershipsUnique ∧ (s.membershipDeleteMany ids).teamIdsBelowNext :=
  inv_of_sublist s _ (List.filter_sublist _) (fun t ht => ⟨t, ht, rfl⟩) (Nat.le_refl _) hinv

theorem teamFindUnique_mem (s : Store) (name : Option String) (t : Team)
    (h : s.teamFindUnique name = some t) : t ∈ s.teams := by
  unfold Store.teamFindUnique at h
  split at h
  · cases h
  · exact List.mem_of_find?_eq_some h

theorem createTeamRequest_preserves (nodeEnv : Option String)
    (captureStack : String → String) (email teamName message : Option String) (w w1 : World)
    (r : Result) (hinv : w.store.membershipsUnique ∧ w.store.teamIdsBelowNext)
    (h : createTeamRequest (appGlobals nodeEnv captureStack) email teamName message w
      = .ok (r, w1)) :
    w1.store.membershipsUnique ∧ w1.store.teamIdsBelowNext := by
  simp only [createTeamRequest, failIf_app_eq, bind, Except.bind, pure, Except.pure,
    appFailIf_store, Store.requestCreate] at h
  repeat' split at h
  all_goals (cases h; try simp only [appFailIf_store])
  all_goals first
    | exact hinv
    | exact inv_of_sublist w.store _ (List.Sublist.refl _) (fun t ht => ⟨t, ht, rfl⟩)
        (Nat.le_succ _) hinv

theorem deleteTeamRequest_preserves (nodeEnv : Option String)
    (captureStack : String → String) (ownerEmail teamName name : Option String) (w w1 : World)
    (r : Result) (hinv : w.store.membershipsUnique ∧ w.store.teamIdsBelowNext)
    (h : deleteTeamRequest (appGlobals nodeEnv captureStack) ownerEmail teamName name w
      = .ok (r, w1)) :
    w1.store.membershipsUnique ∧ w1.store.teamIdsBelowNext := by
  simp only [deleteTeamRequest, failIf_app_eq, bind, Except.bind, pure, Except.pure,
    appFailIf_store, Store.requestDeleteManyByPair] at h
  repeat' split at h
  all_goals (cases h; try simp only [appFailIf_store])
  all_goals exact hinv

theorem register_preserves (nodeEnv : Option String)
    (captureStack : String → String) (lib : AuthLib) (email name password : Option String)
    (w w1 : World)
    (r : Result) (hinv : w.store.membershipsUnique ∧ w.store.teamIdsBelowNext)
    (h : register (appGlobals nodeEnv captureStack) lib email name password w = .ok (r, w1)) :
    w1.store.membershipsUnique ∧ w1.store.teamIdsBelowNext := by
  simp only [register, failIf_app_eq, bind, Except.bind, pure, Except.pure,
    appFailIf_store] at h
  repeat' split at h
  all_goals (cases h; try simp only [appFailIf_store])
  all_goals first
    | exact hinv
    | exact userCreate_preserves w.store _ _ _ _ _ (by assumption) hinv

theorem createTeam_preserves (nodeEnv : Option String)
    (captureStack : String → String) (ownerEmail name : Option String)
    (maxMemberCount : Option Int) (w w1 : World)
    (r : Result) (hinv : w.store.membershipsUnique ∧ w.store.teamIdsBelowNext)
    (h : createTeam (appGlobals nodeEnv captureStack) ownerEmail name maxMemberCount w
      = .ok (r, w1)) :
    w1.store.membershipsUnique ∧ w1.store.teamIdsBelowNext := by
  simp only [createTeam, failIf_app_eq, bind, Except.bind, pure, Except.pure,
    appFailIf_store] at h
  repeat' split at h
  all_goals (cases h; try simp only [appFailIf_store])
  all_goals first
    | exact hinv
    | exact teamCreate_preserves w.store _ _ _ _ _ (by assumption) hinv

theorem updateTeam_preserves (nodeEnv : Option String)
    (captureStack : String → String) (teamName ownerEmail : Option String)
    (updateData : Option UpdateData) (w w1 : World)
    (r : Result) (hinv : w.store.membershipsUnique ∧ w.store.teamIdsBelowNext)
    (h : updateTeam (appGlobals nodeEnv captureStack) teamName ownerEmail updateData w
      = .ok (r, w1)) :
    w1.store.membershipsUnique ∧ w1.store.teamIdsBelowNext := by
  simp only [updateTeam, failIf_app_eq, bind, Except.bind, pure, Except.pure,
    appFailIf_store] at h
  repeat' split at h
  all_goals (cases h; try simp only [appFailIf_store])
  all_goals first
    | exact hinv
    | exact teamUpdate_preserves w.store _ _ _ _ (by assumption) hinv

theorem deleteTeam_preserves (nodeEnv : Option String)
    (captureStack : String → String) (teamName ownerEmail : Option String) (w w1 : World)
    (r : Result) (hinv : w.store.membershipsUnique ∧ w.store.teamIdsBelowNext)
    (h : deleteTeam (appGlobals nodeEnv captureStack) teamName ownerEmail w = .ok (r, w1)) :
    w1.store.membershipsUnique ∧ w1.store.teamIdsBelowNext := by
  simp only [deleteTeam, failIf_app_eq, bind, Except.bind, pure, Except.pure,
    appFailIf_store] at h
  repeat' split at h
  all_goals (cases h; try simp only [appFailIf_store])
  all_goals first
    | exact hinv
    | exact teamDelete_preserves _ _ _ (by assumption)
        (membershipDeleteMany_preserves w.store _ hinv)

theorem membershipCreateUnique_preserves (s : Store) (teamId userId : Nat) (v : Store)
    (h : s.membershipCreateUnique teamId userId = .ok v)
    (hinv : s.membershipsUnique ∧ s.teamIdsBelowNext)
    (ht : ∃ team ∈ s.teams, team.id = teamId) :
    v.membershipsUnique ∧ v.teamIdsBelowNext := by
  unfold Store.membershipCreateUnique at h
  split at h
  · cases h
  · rename_i hnone
    cases h
    simp only [Bool.not_eq_true, List.any_eq_false, Bool.and_eq_true, beq_iff_eq] at hnone
    obtain ⟨team, hteam, rfl⟩ := ht
    refine inv_of_append s _ ⟨s.nextId, team.id, userId⟩ rfl ?_ ?_ ?_ ?_ hinv
    · intro m0 hm0 hp
      exact hnone m0 hm0 hp
    · have := hinv.2.2 team hteam
      simp only [Store.membershipCreate]
      omega
    · intro t ht
      have := hinv.2.2 t ht
      simp only [Store.membershipCreate]
      omega
    · simp only [Store.membershipCreate]
      omega

theorem acceptTeamRequestWith_append_eq (nodeEnv : Option String)
    (captureStack : String → String) (ownerEmail teamName name : Option String) (w : World) :
    (acceptTeamRequestWith (fun s teamId userId => .ok (s.membershipCreate teamId userId))
        (appGlobals nodeEnv captureStack) ownerEmail teamName name w).mapError Prod.fst
      = acceptTeamRequest (appGlobals nodeEnv captureStack) ownerEmail teamName name w := by
  simp only [acceptTeamRequestWith, acceptTeamRequest, acceptTeamRequestAfterDelete,
    failIf_app_eq, atWorld, bind, Except.bind, pure, Except.pure, Store.requestDeleteManyById,
    Result.failString]
  repeat' split
  all_goals first
    | rfl
    | (simp_all only [Except.mapError, reduceCtorEq]; done)
    | (rename_i e1 h1 x e h2
       simp only [h2] at h1
       cases h1
       rfl)

theorem atWorld_ok {α : Type} (w : World) (a : α) :
    atWorld w (.ok a : Except Fault α) = .ok a := rfl

theorem atWorld_error {α : Type} (w : World) (fault : Fault) :
    atWorld w (.error fault : Except Fault α) = .error (fault, w) := rfl

theorem atWorld_eq_ok {α : Type} (w : World) (step : Except Fault α) (a : α)
    (h : atWorld w step = .ok a) : step = .ok a := by
  cases step with
  | ok b =>
    cases h
    rfl
  | error e => cases h

theorem atWorld_eq_error {α : Type} (w : World) (step : Except Fault α) (fault : Fault)
    (w1 : World) (h : atWorld w step = .error (fault, w1)) : w1 = w := by
  cases step with
  | ok b => cases h
  | error e =>
    cases h
    rfl

theorem acceptTeamRequestWith_preserves_ok (nodeEnv : Option String)
    (captureStack : String → String) (ownerEmail teamName name : Option String) (w w1 : World)
    (r : Result) (hinv : w.store.membershipsUnique ∧ w.store.teamIdsBelowNext)
    (h : acceptTeamRequestWith Store.membershipCreateUnique (appGlobals nodeEnv captureStack)
      ownerEmail teamName name w = .ok (r, w1)) :
    w1.store.membershipsUnique ∧ w1.store.teamIdsBelowNext := by
  simp only [acceptTeamRequestWith, Result.failString, failIf_app_eq, atWorld_ok, atWorld_error,
    bind, Except.bind, pure, Except.pure, appFailIf_store, Store.requestDeleteManyById] at h
  repeat' split at h
  all_goals (cases h; try simp only [appFailIf_store] at *)
  all_goals first
    | exact hinv
    | (have hcreate := atWorld_eq_ok _ _ _ ‹atWorld _ _ = Except.ok _›
       exact membershipCreateUnique_preserves _ _ _ _ hcreate hinv
         ⟨_, teamFindUnique_mem w.store _ _ (by assumption), rfl⟩)

theorem acceptTeamRequestWith_preserves_error (nodeEnv : Option String)
    (captureStack : String → String) (ownerEmail teamName name : Option String) (w w1 : World)
    (fault : Fault) (hinv : w.store.membershipsUnique ∧ w.store.teamIdsBelowNext)
    (h : acceptTeamRequestWith Store.membershipCreateUnique (appGlobals nodeEnv captureStack)
      ownerEmail teamName name w = .error (fault, w1)) :
    w1.store.membershipsUnique ∧ w1.store.teamIdsBelowNext := by
  simp only [acceptTeamRequestWith, Result.failString, failIf_app_eq, atWorld_ok, atWorld_error,
    bind, Except.bind, pure, Except.pure, appFailIf_store, Store.requestDeleteManyById] at h
  repeat' split at h
  all_goals (cases h; try simp only [appFailIf_store] at *)
  all_goals first
    | exact hinv
    | (obtain rfl := atWorld_eq_error _ _ _ _ (by assumption)
       try simp only [appFailIf_store]
       exact hinv)

theorem atWorld_step_preserves (P : World → Prop) (w : World)
    (call : Except Fault (Result × World)) (hw : P w)
    (hok : ∀ r w1, call = .ok (r, w1) → P w1) :
    P (match atWorld w call with
      | .ok (_, w1) => w1
      | .error (_, w1) => w1) := by
  cases call with
  | ok v => exact hok v.1 v.2 rfl
  | error e => exact hw

theorem stepOp_preserves (nodeEnv : Option String) (captureStack : String → String) (op : Op)
    (w : World) (hinv : w.store.membershipsUnique ∧ w.store.teamIdsBelowNext) :
    (stepOp Store.membershipCreateUnique (appGlobals nodeEnv captureStack) op
        w).store.membershipsUnique
      ∧ (stepOp Store.membershipCreateUnique (appGlobals nodeEnv captureStack) op
        w).store.teamIdsBelowNext := by
  cases op with
  | register lib email name password =>
    exact atWorld_step_preserves
      (fun x => x.store.membershipsUnique ∧ x.store.teamIdsBelowNext) w _ hinv
      (fun r w1 h => register_preserves nodeEnv captureStack lib email name password w w1 r
        hinv h)
  | createTeam ownerEmail name maxMemberCount =>
    exact atWorld_step_preserves
      (fun x => x.store.membershipsUnique ∧ x.store.teamIdsBelowNext) w _ hinv
      (fun r w1 h => createTeam_preserves nodeEnv captureStack ownerEmail name maxMemberCount
        w w1 r hinv h)
  | updateTeam teamName ownerEmail updateData =>
    exact atWorld_step_preserves
      (fun x => x.store.membershipsUnique ∧ x.store.teamIdsBelowNext) w _ hinv
      (fun r w1 h => updateTeam_preserves nodeEnv captureStack teamName ownerEmail updateData
        w w1 r hinv h)
  | deleteTeam teamName ownerEmail =>
    exact atWorld_step_preserves
      (fun x => x.store.membershipsUnique ∧ x.store.teamIdsBelowNext) w _ hinv
      (fun r w1 h => deleteTeam_preserves nodeEnv captureStack teamName ownerEmail w w1 r
        hinv h)
  | createTeamRequest email teamName message =>
    exact atWorld_step_preserves
      (fun x => x.store.membershipsUnique ∧ x.store.teamIdsBelowNext) w _ hinv
      (fun r w1 h => createTeamRequest_preserves nodeEnv captureStack email teamName message
        w w1 r hinv h)
  | acceptTeamRequest ownerEmail teamName name =>
    simp only [stepOp, Op.run]
    split
    · rename_i r w1 heq
      exact acceptTeamRequestWith_preserves_ok nodeEnv captureStack ownerEmail teamName name
        w w1 r hinv heq
    · rename_i fault w1 heq
      exact acceptTeamRequestWith_preserves_error nodeEnv captureStack ownerEmail teamName name
        w w1 fault hinv heq
  | deleteTeamRequest ownerEmail teamName name =>
    exact atWorld_step_preserves
      (fun x => x.store.membershipsUnique ∧ x.store.teamIdsBelowNext) w _ hinv
      (fun r w1 h => deleteTeamRequest_preserves nodeEnv captureStack ownerEmail teamName name
        w w1 r hinv h)

theorem runOps_preserves (nodeEnv : Option String) (captureStack : String → String)
    (ops : List Op) :
    ∀ w : World, w.store.membershipsUnique ∧ w.store.teamIdsBelowNext →
      (runOps Store.membershipCreateUnique (appGlobals nodeEnv captureStack) ops
          w).store.membershipsUnique
        ∧ (runOps Store.membershipCreateUnique (appGlobals nodeEnv captureStack) ops
          w).store.teamIdsBelowNext := by
  induction ops with
  | nil =>
    intro w hinv
    exact hinv
  | cons op rest ih =>
    intro w hinv
    exact ih _ (stepOp_preserves nodeEnv captureStack op w hinv)

theorem createTeamRequest_keeps (nodeEnv : Option String)
    (captureStack : String → String) (email teamName message : Option String) (w w1 : World)
    (r : Result)
    (h : createTeamRequest (appGlobals nodeEnv captureStack) email teamName message w
      = .ok (r, w1)) :
    w1.store.users = w.store.users ∧ w1.store.teams = w.store.teams
      ∧ w1.store.memberships = w.store.memberships := by
  simp only [createTeamRequest, failIf_app_eq, bind, Except.bind, pure, Except.pure,
    appFailIf_store, Store.requestCreate] at h
  repeat' split at h
  all_goals (cases h <;> simp only [appFailIf_store, and_self])

theorem membershipCreateUnique_member (s : Store) (teamId userId : Nat) (v : Store)
    (hmember : (s.memberships.any fun m => m.teamId == teamId && m.userId == userId) = true) :
    s.membershipCreateUnique teamId userId ≠ .ok v := by
  intro h
  simp only [Store.membershipCreateUnique, hmember, if_true] at h
  cases h

theorem acceptTeamRequestWith_member_ok (nodeEnv : Option String)
    (captureStack : String → String) (ownerEmail teamName name : Option String) (w w1 : World)
    (r : Result) (team : Team) (user : User)
    (hteam : w.store.teamFindUnique teamName = some team)
    (huser : w.store.userFindUniqueByName name = some user)
    (hmember : (w.store.memberships.any
      fun m => m.teamId == team.id && m.userId == user.id) = true)
    (h : acceptTeamRequestWith Store.membershipCreateUnique (appGlobals nodeEnv captureStack)
      ownerEmail teamName name w = .ok (r, w1)) :
    w1.store.memberships = w.store.memberships := by
  simp only [acceptTeamRequestWith, Result.failString, failIf_app_eq, atWorld_ok, atWorld_error,
    bind, Except.bind, pure, Except.pure, appFailIf_store, Store.requestDeleteManyById,
    hteam, huser] at h
  repeat' split at h
  all_goals (cases h; try simp only [appFailIf_store] at *)
  all_goals first
    | rfl
    | (exfalso
       have hcreate := atWorld_eq_ok _ _ _ ‹atWorld _ _ = Except.ok _›
       have hreq := requestFindFirst_some _ _ _ _ ‹Store.requestFindFirst _ _ _ = some _›
       rw [hreq.2.2] at hcreate
       simp_all [Store.membershipCreateUnique])

theorem acceptTeamRequestWith_member_error (nodeEnv : Option String)
    (captureStack : String → String) (ownerEmail teamName name : Option String) (w w1 : World)
    (fault : Fault)
    (h : acceptTeamRequestWith Store.membershipCreateUnique (appGlobals nodeEnv captureStack)
      ownerEmail teamName name w = .error (fault, w1)) :
    w1.store.memberships = w.store.memberships := by
  simp only [acceptTeamRequestWith, Result.failString, failIf_app_eq, atWorld_ok, atWorld_error,
    bind, Except.bind, pure, Except.pure, appFailIf_store, Store.requestDeleteManyById] at h
  repeat' split at h
  all_goals (cases h; try simp only [appFailIf_store] at *)
  all_goals first
    | rfl
    | (obtain rfl := atWorld_eq_error _ _ _ _ (by assumption)
       try simp only [appFailIf_store])

/-- C27: with a store that keeps one TeamMembership row per user per team (it rejects the
insert of a row for a pair that has one), every store reached from the empty store by any
sequence of calls of register, createTeam, updateTeam, deleteTeam, createTeamRequest,
acceptTeamRequest and deleteTeamRequest, whether they return or throw, has at most one
TeamMembership row per (teamId, userId) pair. In particular, for a user who has a membership
of a team (the owner, or any member), `createTeamRequest` followed by `acceptTeamRequest`
for that user and team leaves the memberships as they were. -/
theorem memberships_unique_in_reachable_states (nodeEnv : Option String)
    (captureStack : String → String) :
    (∀ (ops : List Op) (nextId : Nat) (log : List LogRecord) (console : List ConsoleArg),
        ((runOps Store.membershipCreateUnique (appGlobals nodeEnv captureStack) ops
            ⟨⟨[], [], [], [], nextId⟩, log, console⟩).store.memberships.map
          fun m => (m.teamId, m.userId)).Nodup)
      ∧ (∀ (w : World) (email ownerEmail teamName name message : Option String) (team : Team)
          (user : User),
        w.store.teamFindUnique teamName = some team →
        w.store.userFindUniqueByName name = some user →
        (w.store.memberships.any fun m => m.teamId == team.id && m.userId == user.id) = true →
        (runOps Store.membershipCreateUnique (appGlobals nodeEnv captureStack)
            [Op.createTeamRequest email teamName message,
              Op.acceptTeamRequest ownerEmail teamName name] w).store.memberships
          = w.store.memberships) := by
  constructor
  · intro ops nextId log console
    exact (runOps_preserves nodeEnv captureStack ops ⟨⟨[], [], [], [], nextId⟩, log, console⟩
      ⟨List.nodup_nil, fun _ hm => absurd hm (List.not_mem_nil _),
        fun _ ht => absurd ht (List.not_mem_nil _)⟩).1
  · intro w email ownerEmail teamName name message team user hteam huser hmember
    have hk : (stepOp Store.membershipCreateUnique (appGlobals nodeEnv captureStack)
          (Op.createTeamRequest email teamName message) w).store.users = w.store.users
        ∧ (stepOp Store.membershipCreateUnique (appGlobals nodeEnv captureStack)
          (Op.createTeamRequest email teamName message) w).store.teams = w.store.teams
        ∧ (stepOp Store.membershipCreateUnique (appGlobals nodeEnv captureStack)
          (Op.createTeamRequest email teamName message) w).store.memberships
            = w.store.memberships :=
      atWorld_step_preserves
        (fun x => x.store.users = w.store.users ∧ x.store.teams = w.store.teams
          ∧ x.store.memberships = w.store.memberships) w
        (createTeamRequest (appGlobals nodeEnv captureStack) email teamName message w)
        ⟨rfl, rfl, rfl⟩
        (fun r w1 h => createTeamRequest_keeps nodeEnv captureStack email teamName message
          w w1 r h)
    show (stepOp Store.membershipCreateUnique (appGlobals nodeEnv captureStack)
      (Op.acceptTeamRequest ownerEmail teamName name)
      (stepOp Store.membershipCreateUnique (appGlobals nodeEnv captureStack)
        (Op.createTeamRequest email teamName message) w)).store.memberships
      = w.store.memberships
    generalize stepOp Store.membershipCreateUnique (appGlobals nodeEnv captureStack)
      (Op.createTeamRequest email teamName message) w = w1 at hk ⊢
    obtain ⟨hu, ht, hm⟩ := hk
    have hteam1 : w1.store.teamFindUnique teamName = some team := by
      unfold Store.teamFindUnique at hteam ⊢
      rw [ht]
      exact hteam
    have huser1 : w1.store.userFindUniqueByName name = some user := by
      unfold Store.userFindUniqueByName at huser ⊢
      rw [hu]
      exact huser
    have hmember1 : (w1.store.memberships.any
        fun m => m.teamId == team.id && m.userId == user.id) = true := by
      rw [hm]
      exact hmember
    simp only [stepOp, Op.run]
    split
    · rename_i r w2 heq
      rw [acceptTeamRequestWith_member_ok nodeEnv captureStack ownerEmail teamName name w1 w2
        r team user hteam1 huser1 hmember1 heq, hm]
    · rename_i fault w2 heq
      rw [acceptTeamRequestWith_member_error nodeEnv captureStack ownerEmail teamName name
        w1 w2 fault heq, hm]

/-- A witness for `memberships_unique_in_reachable_states`: the owner registers, creates a
team, requests to join the own team and accepts the request; and the last two calls alone,
in the store after the first two. -/
theorem memberships_unique_in_reachable_states_witness :
    ((runOps Store.membershipCreateUnique (appGlobals none fun m => "Error: " ++ m)
          [Op.register ⟨fun p => "hash:" ++ p, fun p h => "hash:" ++ p == h, fun e n => e ++ "/" ++ n, 41⟩
              (some "owner@jest.co") (some "TeamOwner") (some "password1"),
            Op.createTeam (some "owner@jest.co") (some "JestTeam") (some 15),
            Op.createTeamRequest (some "owner@jest.co") (some "JestTeam") (some "hello"),
            Op.acceptTeamRequest (some "owner@jest.co") (some "JestTeam") (some "TeamOwner")]
          ⟨⟨[], [], [], [], 1⟩, [], []⟩).store.memberships.map
        fun m => (m.teamId, m.userId)).Nodup
      ∧ (runOps Store.membershipCreateUnique (appGlobals none fun m => "Error: " ++ m)
          [Op.createTeamRequest (some "owner@jest.co") (some "JestTeam") (some "hello"),
            Op.acceptTeamRequest (some "owner@jest.co") (some "JestTeam") (some "TeamOwner")]
          ⟨⟨[⟨1, "owner@jest.co", "TeamOwner", "hash:password1", 42⟩], [⟨2, "JestTeam", 15, 1⟩],
          [⟨3, 2, 1⟩], [], 4⟩, [], []⟩).store.memberships
        = [⟨3, 2, 1⟩] :=
  ⟨(memberships_unique_in_reachable_states none fun m => "Error: " ++ m).1 _ 1 [] [],
    (memberships_unique_in_reachable_states none fun m => "Error: " ++ m).2
      ⟨⟨[⟨1, "owner@jest.co", "TeamOwner", "hash:password1", 42⟩], [⟨2, "JestTeam", 15, 1⟩],
          [⟨3, 2, 1⟩], [], 4⟩, [], []⟩
      (some "owner@jest.co") (some "owner@jest.co") (some "JestTeam") (some "TeamOwner")
      (some "hello") ⟨2, "JestTeam", 15, 1⟩ ⟨1, "owner@jest.co", "TeamOwner", "hash:password1", 42⟩
      (by decide) (by decide) (by decide)⟩

/-- The calls of the witness, evaluated: under the constraint of the store the owner's
`acceptTeamRequest` throws at the insert; the store keeps the one membership of the owner,
and the request is deleted. -/
theorem owner_accept_own_request_evaluated :
    (runOps Store.membershipCreateUnique (appGlobals none fun m => "Error: " ++ m)
        [Op.register ⟨fun p => "hash:" ++ p, fun p h => "hash:" ++ p == h, fun e n => e ++ "/" ++ n, 41⟩
            (some "owner@jest.co") (some "TeamOwner") (some "password1"),
          Op.createTeam (some "owner@jest.co") (some "JestTeam") (some 15),
          Op.createTeamRequest (some "owner@jest.co") (some "JestTeam") (some "hello"),
          Op.acceptTeamRequest (some "owner@jest.co") (some "JestTeam") (some "TeamOwner")]
        ⟨⟨[], [], [], [], 1⟩, [], []⟩).store
      = ⟨[⟨1, "owner@jest.co", "TeamOwner", "hash:password1", 42⟩], [⟨2, "JestTeam", 15, 1⟩],
          [⟨3, 2, 1⟩], [], 5⟩ := by
  rfl

/-! ## Theorems: capacity -/

/-- C28: no step checks the capacity. For a team whose number of memberships equals its
`maxMemberCount`, `createTeamRequest` by a user succeeds and `acceptTeamRequest` by the
owner for that user succeeds; afterwards the team has `maxMemberCount + 1` memberships and
`mapToTeamDTO` reports the member number `maxMemberCount + 1` and the available member
number -1. -/
theorem full_team_accepts_request (nodeEnv : Option String) (captureStack : String → String)
    (ownerEmail teamName email : String) (message : Option String) (owner user : User)
    (team : Team) (w : World)
    (howner : w.store.userFindUniqueByEmail (some ownerEmail) = some owner)
    (hteam : w.store.teamFindUnique (some teamName) = some team)
    (huser : w.store.userFindUniqueByEmail (some email) = some user)
    (hname : w.store.userFindUniqueByName (some user.name) = some user)
    (hown : team.ownerId = owner.id)
    (hoe : ownerEmail ≠ "") (htn : teamName ≠ "") (hem : email ≠ "") (hn : user.name ≠ "")
    (hfk : ∀ m ∈ w.store.memberships, ∃ u ∈ w.store.users, u.id = m.userId)
    (hfull : ((w.store.memberships.filter fun m => m.teamId == team.id).length : Int)
      = team.maxMemberCount) :
    ∃ w1 w2 dto,
      createTeamRequest (appGlobals nodeEnv captureStack) (some email) (some teamName) message w
        = .ok (⟨JsVal.null, none⟩, w1)
      ∧ acceptTeamRequest (appGlobals nodeEnv captureStack) (some ownerEmail) (some teamName)
          (some user.name) w1 = .ok (⟨JsVal.null, none⟩, w2)
      ∧ ((w2.store.memberships.filter fun m => m.teamId == team.id).length : Int)
        = team.maxMemberCount + 1
      ∧ mapToTeamDTO w2.store team owner false = .ok dto
      ∧ dto.get "memberNumber" = some (JsVal.num (team.maxMemberCount + 1))
      ∧ dto.get "availableMemberNumber" = some (JsVal.num (-1)) := by
  have h1 := createTeamRequest_found_eq nodeEnv captureStack email teamName message user team w
    huser hteam hem htn
  have hsome : (Store.requestFindFirst ⟨w.store.users, w.store.teams, w.store.memberships,
      w.store.requests ++ [⟨w.store.nextId, team.id, user.id, message.getD ""⟩],
      w.store.nextId + 1⟩ team.id user.id).isSome = true := by
    simp only [Store.requestFindFirst, List.find?_isSome]
    exact ⟨⟨w.store.nextId, team.id, user.id, message.getD ""⟩, by simp, by simp⟩
  obtain ⟨req, hreq⟩ := Option.isSome_iff_exists.mp hsome
  have h2 := acceptTeamRequest_found_eq nodeEnv captureStack ownerEmail teamName user.name
    owner user team req
    ⟨⟨w.store.users, w.store.teams, w.store.memberships,
      w.store.requests ++ [⟨w.store.nextId, team.id, user.id, message.getD ""⟩],
      w.store.nextId + 1⟩, w.log, w.console⟩ howner hteam hname hown hoe htn hn hreq
  dsimp only at h2
  have hcount : (((w.store.memberships
      ++ [(⟨w.store.nextId + 1, team.id, user.id⟩ : TeamMembership)]).filter
      fun m => m.teamId == team.id).length : Int) = team.maxMemberCount + 1 := by
    rw [← hfull]
    simp [List.filter_append]
  have hfk2 : ∀ m ∈ w.store.memberships
        ++ [(⟨w.store.nextId + 1, team.id, user.id⟩ : TeamMembership)],
      ∃ u ∈ w.store.users, u.id = m.userId := by
    intro m hm
    rcases List.mem_append.mp hm with hm | hm
    · exact hfk m hm
    · simp only [List.mem_singleton] at hm
      subst hm
      exact ⟨user, (userFindUniqueByEmail_some w.store email user huser).1, rfl⟩
  have hlen : ((Store.membershipFindManyWithUser
      ⟨w.store.users, w.store.teams,
        w.store.memberships ++ [⟨w.store.nextId + 1, team.id, user.id⟩],
        (w.store.requests
          ++ [(⟨w.store.nextId, team.id, user.id, message.getD ""⟩ : TeamRequest)]).filter
          fun r => !(r.id == req.id), w.store.nextId + 1 + 1⟩ team.id).length : Int)
      = team.maxMemberCount + 1 := by
    rw [← hcount, ← List.length_map (Store.membershipFindManyWithUser _ team.id)
      (fun m => m.1), findManyWithUser_fst _ team.id hfk2]
  have hdto := mapToTeamDTO_eq
    ⟨w.store.users, w.store.teams,
      w.store.memberships ++ [⟨w.store.nextId + 1, team.id, user.id⟩],
      (w.store.requests
        ++ [(⟨w.store.nextId, team.id, user.id, message.getD ""⟩ : TeamRequest)]).filter
        fun r => !(r.id == req.id), w.store.nextId + 1 + 1⟩ team owner false
  rw [hlen] at hdto
  refine ⟨_, _, _, h1, h2, hcount, hdto, ?_, ?_⟩
  · exact (teamDTO_get _ _ _ _ _ false JsVal.null).2.1
  · have hav : team.maxMemberCount - (team.maxMemberCount + 1) = -1 := by omega
    rw [hav]
    exact (teamDTO_get _ _ _ _ _ false JsVal.null).2.2.1

/-- A witness for `full_team_accepts_request`: a team with `maxMemberCount` 11 and eleven
members; a twelfth user requests to join and the owner accepts. -/
theorem full_team_accepts_request_witness :
    ∃ w1 w2 dto,
      createTeamRequest (appGlobals none fun m => "Error: " ++ m) (some "u12@jest.co")
          (some "JestTeam") (some "hello")
          ⟨⟨[⟨1, "u01@jest.co", "User01", "hash", 10⟩, ⟨2, "u02@jest.co", "User02", "hash", 20⟩,
          ⟨3, "u03@jest.co", "User03", "hash", 30⟩, ⟨4, "u04@jest.co", "User04", "hash", 40⟩,
          ⟨5, "u05@jest.co", "User05", "hash", 50⟩, ⟨6, "u06@jest.co", "User06", "hash", 60⟩,
          ⟨7, "u07@jest.co", "User07", "hash", 70⟩, ⟨8, "u08@jest.co", "User08", "hash", 80⟩,
          ⟨9, "u09@jest.co", "User09", "hash", 90⟩, ⟨10, "u10@jest.co", "User10", "hash", 100⟩,
          ⟨11, "u11@jest.co", "User11", "hash", 110⟩,
          ⟨12, "u12@jest.co", "User12", "hash", 120⟩], [⟨13, "JestTeam", 11, 1⟩], [⟨14, 13, 1⟩,
          ⟨15, 13, 2⟩, ⟨16, 13, 3⟩, ⟨17, 13, 4⟩, ⟨18, 13, 5⟩, ⟨19, 13, 6⟩, ⟨20, 13, 7⟩,
          ⟨21, 13, 8⟩, ⟨22, 13, 9⟩, ⟨23, 13, 10⟩, ⟨24, 13, 11⟩], [], 25⟩, [], []⟩
        = .ok (⟨JsVal.null, none⟩, w1)
      ∧ acceptTeamRequest (appGlobals none fun m => "Error: " ++ m) (some "u01@jest.co")
          (some "JestTeam") (some "User12") w1 = .ok (⟨JsVal.null, none⟩, w2)
      ∧ ((w2.store.memberships.filter fun m => m.teamId == 13).length : Int) = 11 + 1
      ∧ mapToTeamDTO w2.store ⟨13, "JestTeam", 11, 1⟩ ⟨1, "u01@jest.co", "User01", "hash", 10⟩
          false = .ok dto
      ∧ dto.get "memberNumber" = some (JsVal.num (11 + 1))
      ∧ dto.get "availableMemberNumber" = some (JsVal.num (-1)) :=
  full_team_accepts_request none (fun m => "Error: " ++ m) "u01@jest.co" "JestTeam"
    "u12@jest.co" (some "hello") ⟨1, "u01@jest.co", "User01", "hash", 10⟩
    ⟨12, "u12@jest.co", "User12", "hash", 120⟩ ⟨13, "JestTeam", 11, 1⟩
    ⟨⟨[⟨1, "u01@jest.co", "User01", "hash", 10⟩, ⟨2, "u02@jest.co", "User02", "hash", 20⟩,
    ⟨3, "u03@jest.co", "User03", "hash", 30⟩, ⟨4, "u04@jest.co", "User04", "hash", 40⟩,
    ⟨5, "u05@jest.co", "User05", "hash", 50⟩, ⟨6, "u06@jest.co", "User06", "hash", 60⟩,
    ⟨7, "u07@jest.co", "User07", "hash", 70⟩, ⟨8, "u08@jest.co", "User08", "hash", 80⟩,
    ⟨9, "u09@jest.co", "User09", "hash", 90⟩, ⟨10, "u10@jest.co", "User10", "hash", 100⟩,
    ⟨11, "u11@jest.co", "User11", "hash", 110⟩,
    ⟨12, "u12@jest.co", "User12", "hash", 120⟩], [⟨13, "JestTeam", 11, 1⟩], [⟨14, 13, 1⟩,
    ⟨15, 13, 2⟩, ⟨16, 13, 3⟩, ⟨17, 13, 4⟩, ⟨18, 13, 5⟩, ⟨19, 13, 6⟩, ⟨20, 13, 7⟩, ⟨21, 13, 8⟩,
    ⟨22, 13, 9⟩, ⟨23, 13, 10⟩, ⟨24, 13, 11⟩], [], 25⟩, [], []⟩
    (by decide) (by decide) (by decide) (by decide) (by decide) (by decide) (by decide)
    (by decide) (by decide) (by decide) (by decide)

end SecureAPI
